import Mathlib

/-!
Portfolio page script: a verification development.

A shallow embedding of `src/script.js` and theorems about it.

Conventions of the embedding.

* JavaScript numbers are IEEE 754 doubles.  A number is a `JsNumber`: a finite
  value (a rational), an infinity or `NaN`; an arithmetic operation rounds its
  exact result to the nearest double, ties to even, and overflows to an infinity
  (`roundDouble`).  The sign of a zero is not kept.  `Math.pow` and `Math.sqrt`,
  whose precision ECMAScript leaves to the implementation, are parameters of the
  functions that call them; to evaluate these at concrete inputs the correctly
  rounded `powNearest` and `sqrtNearest` are used.
* A parameter with a default value is an `Option`: `none` is an omitted
  argument (`undefined`), for which JavaScript takes the default.
* A call that can throw returns `Except JsError _`.
* The document is a list of elements; an element reference is its position
  in that list.  Timers are data: a pending timer is a due time and a `Callback`
  that names the callback and the values its closure captured.  The pending
  timer due first fires first, the one set first among those due together.
* Animation frames are the list of times at which the browser delivers them.
-/

namespace Portfolio


/-! ## Numbers: IEEE 754 binary64 values and their arithmetic -/

/-- A JavaScript number: a finite value, `Infinity`, `-Infinity` or `NaN`.  A
finite value is a rational; the ones that occur at run time are the doubles
(`IsDouble`).  The sign of a zero is not kept: `0` and `-0` are both `fin 0`
(they are equal under `===` and print alike). -/
inductive JsNumber where
  | fin (q : ℚ)
  | posInf
  | negInf
  | nan
  deriving DecidableEq, Repr

/-- The integer nearest to `y`, the even one of the two when `y` lies halfway. -/
def roundHalfEven (y : ℚ) : Int :=
  if y - ⌊y⌋ < 1 / 2 then ⌊y⌋
  else if 1 / 2 < y - ⌊y⌋ then ⌊y⌋ + 1
  else if ⌊y⌋ % 2 = 0 then ⌊y⌋ else ⌊y⌋ + 1

/-- Counting the halvings of `n` down to 1, `fuel` bounding their number. -/
def log2Aux : Nat → Nat → Nat → Nat
  | 0, _, acc => acc
  | fuel + 1, n, acc => if 2 ≤ n then log2Aux fuel (n / 2) (acc + 1) else acc

/-- The position of the leading binary digit of `n` (`0` for `n = 0`). -/
def binaryLog (n : Nat) : Nat := log2Aux n n 0

/-- The exponent `j` for which the doubles around `q` are the multiples of
`2 ^ j / 2 ^ 1074`: a double has 53 significant binary digits, and the smallest
spacing (that of the subnormal numbers) is `2 ^ -1074`. -/
def gridExponent (q : ℚ) : Nat := binaryLog ⌊|q| * 2 ^ 1074⌋₊ - 52

/-- Rounding to nearest, ties to even, with an unbounded exponent range upwards. -/
def roundToGrid (q : ℚ) : ℚ :=
  roundHalfEven (q * 2 ^ 1074 / 2 ^ gridExponent q) * 2 ^ gridExponent q / 2 ^ 1074

/-- The double that represents the real number `q`, the result of every
arithmetic operation on doubles whose exact value is `q`: round to nearest, ties
to even, and an infinity when the rounded magnitude reaches `2 ^ 1024`. -/
def roundDouble (q : ℚ) : JsNumber :=
  if 2 ^ 1024 ≤ roundToGrid q then .posInf
  else if roundToGrid q ≤ -2 ^ 1024 then .negInf
  else .fin (roundToGrid q)

/-- The rational `q` has at most 53 significant binary digits above `2 ^ -1074`. -/
def OnGrid (q : ℚ) : Prop := ∃ (m : ℤ) (j : ℕ), |m| < 2 ^ 53 ∧ q * 2 ^ 1074 = m * 2 ^ j

/-- The rational `q` is a finite double. -/
def IsDouble (q : ℚ) : Prop := roundDouble q = .fin q

instance (q : ℚ) : Decidable (IsDouble q) := by
  unfold IsDouble
  infer_instance

/-- JavaScript `-x`. -/
def JsNumber.neg : JsNumber → JsNumber
  | .fin a => .fin (-a)
  | .posInf => .negInf
  | .negInf => .posInf
  | .nan => .nan

/-- JavaScript `x + y`. -/
def JsNumber.add : JsNumber → JsNumber → JsNumber
  | .fin a, .fin b => roundDouble (a + b)
  | .nan, _ => .nan
  | _, .nan => .nan
  | .posInf, .negInf => .nan
  | .negInf, .posInf => .nan
  | .posInf, _ => .posInf
  | _, .posInf => .posInf
  | .negInf, _ => .negInf
  | _, .negInf => .negInf

/-- JavaScript `x - y`. -/
def JsNumber.sub (x y : JsNumber) : JsNumber := x.add y.neg

/-- The sign of a number: `1`, `0` or `-1` (`0` for `NaN`). -/
def JsNumber.sign : JsNumber → Int
  | .fin a => if 0 < a then 1 else if a < 0 then -1 else 0
  | .posInf => 1
  | .negInf => -1
  | .nan => 0

/-- JavaScript `x * y`. -/
def JsNumber.mul : JsNumber → JsNumber → JsNumber
  | .fin a, .fin b => roundDouble (a * b)
  | .nan, _ => .nan
  | _, .nan => .nan
  | x, y =>
    if x.sign * y.sign = 0 then .nan
    else if 0 < x.sign * y.sign then .posInf else .negInf

/-- JavaScript `x / y`; a zero divisor is taken as `+0`. -/
def JsNumber.div : JsNumber → JsNumber → JsNumber
  | .nan, _ => .nan
  | _, .nan => .nan
  | .fin a, .fin b =>
    if b = 0 then (if 0 < a then .posInf else if a < 0 then .negInf else .nan)
    else roundDouble (a / b)
  | .fin _, _ => .fin 0
  | x, .fin b => if 0 ≤ b then x else x.neg
  | _, _ => .nan

/-- JavaScript `x < y`. -/
def JsNumber.lt : JsNumber → JsNumber → Bool
  | .fin a, .fin b => decide (a < b)
  | .nan, _ => false
  | _, .nan => false
  | .negInf, .negInf => false
  | .negInf, _ => true
  | _, .negInf => false
  | .posInf, _ => false
  | _, .posInf => true

/-- JavaScript `x <= y`. -/
def JsNumber.le : JsNumber → JsNumber → Bool
  | .fin a, .fin b => decide (a ≤ b)
  | .nan, _ => false
  | _, .nan => false
  | .negInf, _ => true
  | _, .posInf => true
  | _, _ => false

/-- The function `Math.min(x, y)`. -/
def mathMin (x y : JsNumber) : JsNumber :=
  match x, y with
  | .nan, _ => .nan
  | _, .nan => .nan
  | x, y => if y.lt x then y else x

/-- The function `Math.floor(x)`. -/
def mathFloor : JsNumber → JsNumber
  | .fin a => .fin (⌊a⌋ : Int)
  | x => x

/-- The conversion of a number to a 32-bit integer that `setTimeout` applies to
its delay: truncate, wrap modulo `2 ^ 32`; `0` for `NaN` and the infinities. -/
def toInt32 : JsNumber → Int
  | .fin a => ((if 0 ≤ a then ⌊a⌋ else ⌈a⌉) + 2 ^ 31) % 2 ^ 32 - 2 ^ 31
  | _ => 0

/-- The delay in ms `setTimeout(callback, delay)` waits for: a negative delay
counts as `0`. -/
def timeoutDelay (delay : JsNumber) : Nat := (toInt32 delay).toNat

/-- `Math.pow` with a natural number as exponent, rounded correctly.  ECMAScript
leaves the precision of `Math.pow` to the implementation, so the functions that
call it take it as a parameter; this one is used to evaluate them. -/
def powNearest : JsNumber → JsNumber → JsNumber
  | .fin b, .fin e => if e.den = 1 ∧ 0 ≤ e.num then roundDouble (b ^ e.num.toNat) else .nan
  | _, _ => .nan

/-- The largest `r` with `r * r ≤ n`, one binary digit per step from position
`k - 1` down. -/
def sqrtBits : Nat → Nat → Nat → Nat
  | 0, _, r => r
  | k + 1, n, r => if (r + 2 ^ k) * (r + 2 ^ k) ≤ n then sqrtBits k n (r + 2 ^ k) else sqrtBits k n r

/-- The integer square root of `n`. -/
def intSqrt (n : Nat) : Nat := sqrtBits (binaryLog n / 2 + 1) n 0

/-- `Math.sqrt`, rounded correctly (as IEEE 754 asks of a square root), on a
finite argument: the root is cut after 1200 binary places, and a remainder is
kept as half a unit in the last place, which no rounding boundary separates
from the root.  The functions that call `Math.sqrt` take it as a parameter; this
one is used to evaluate them. -/
def sqrtNearest : JsNumber → JsNumber
  | .fin a =>
    if a < 0 then .nan
    else if (intSqrt ⌊a * 4 ^ 1200⌋₊ : ℚ) * intSqrt ⌊a * 4 ^ 1200⌋₊ = a * 4 ^ 1200 then
      roundDouble (intSqrt ⌊a * 4 ^ 1200⌋₊ / 2 ^ 1200)
    else roundDouble ((intSqrt ⌊a * 4 ^ 1200⌋₊ + 1 / 2) / 2 ^ 1200)
  | .posInf => .posInf
  | _ => .nan

/-! ## Section 1: `calculateStaggerDelay` (script.js 17-20) -/

/-- The function `calculateStaggerDelay(index, baseDelay = 100, increment = 50)`:
`return baseDelay + (index * increment)`. -/
def calculateStaggerDelay (index : JsNumber) (baseDelay : Option JsNumber)
    (increment : Option JsNumber) : JsNumber :=
  let baseDelay := baseDelay.getD (.fin 100)
  let increment := increment.getD (.fin 50)
  baseDelay.add (index.mul increment)

/-! ## Section 2: `processFormData` (script.js 128-154) -/

/-- Code points removed by `String.prototype.trim`: the ECMAScript `WhiteSpace`
and `LineTerminator` productions. -/
def isJsWhiteSpace (c : Char) : Bool :=
  let n := c.toNat
  n == 0x09 || n == 0x0A || n == 0x0B || n == 0x0C || n == 0x0D || n == 0x20 ||
  n == 0xA0 || n == 0x1680 || (0x2000 ≤ n && n ≤ 0x200A) || n == 0x2028 ||
  n == 0x2029 || n == 0x202F || n == 0x205F || n == 0x3000 || n == 0xFEFF

/-- The method `String.prototype.trim` on the characters of a string. -/
def trimChars (cs : List Char) : List Char :=
  ((cs.dropWhile isJsWhiteSpace).reverse.dropWhile isJsWhiteSpace).reverse

/-- The method `String.prototype.trim`. -/
def jsTrim (s : String) : String := String.mk (trimChars s.data)

/-- A `FormData` object: its entries in order, name and (string) value. -/
abbrev FormData := List (String × String)

/-- The method `FormData.get(name)`: the value of the first entry of that name,
`none` (JavaScript `null`) when there is none. -/
def FormData.get (fd : FormData) (name : String) : Option String :=
  (fd.find? (fun e => e.1 == name)).map (fun e => e.2)

/-- The expression `formData.get(key)?.trim() || ''`. -/
def trimmedField (fd : FormData) (key : String) : String :=
  match fd.get key with
  | none => ""
  | some v => if jsTrim v = "" then "" else jsTrim v

/-- The `validation` member of the object `processFormData` returns. -/
structure Validation where
  isValid : Bool
  errors : List String
  deriving DecidableEq, Repr

/-- The object `processFormData` returns (`processed` is the constant `true`). -/
structure ProcessedData where
  name : String
  email : String
  projectType : String
  message : String
  timestamp : String
  validation : Validation
  deriving DecidableEq, Repr

/-- The closure `validateData` of `processFormData`, over the three fields it reads. -/
def validateData (name email message : String) : List String :=
  let errors : List String := []
  let errors := if name = "" then errors ++ ["Name is required"] else errors
  let errors := if email = "" then errors ++ ["Email is required"] else errors
  let errors := if message = "" then errors ++ ["Message is required"] else errors
  errors

/-- The function `processFormData(formData, projectType = 'general')`; `now` is
the value of `new Date().toISOString()`. -/
def processFormData (now : String) (formData : FormData) (projectType : Option String) :
    ProcessedData :=
  let projectType := projectType.getD "general"
  let name := trimmedField formData "name"
  let email := trimmedField formData "email"
  let message := trimmedField formData "message"
  { name := name
    email := email
    projectType := projectType
    message := message
    timestamp := now
    validation :=
      { isValid := (validateData name email message).length == 0
        errors := validateData name email message } }

/-- A field is blank: missing from the form, or all of its characters are white space. -/
def fieldBlank (fd : FormData) (key : String) : Prop :=
  match fd.get key with
  | none => True
  | some v => ∀ c ∈ v.data, isJsWhiteSpace c = true

instance (fd : FormData) (key : String) : Decidable (fieldBlank fd key) := by
  unfold fieldBlank
  cases fd.get key <;> infer_instance

/-- The required fields in the order they are checked, each with its fixed message. -/
def requiredFields : List (String × String) :=
  [("name", "Name is required"), ("email", "Email is required"),
   ("message", "Message is required")]

/-- The error list of the specification: the messages of the blank fields, in order. -/
def expectedErrors (fd : FormData) : List String :=
  (requiredFields.filter (fun p => decide (fieldBlank fd p.1))).map (fun p => p.2)

/-! ## Section 3: `calculateStatistic` (script.js 97-120) -/

/-- The exceptions the modelled code can raise. -/
inductive JsError where
  | typeError
  | rangeError
  deriving DecidableEq, Repr

/-- The own properties of the object literal `calculations`. -/
inductive Calculation where
  | mean
  | median
  | std
  deriving DecidableEq, Repr

/-- What the property read `calculations[metric]` finds. -/
inductive Lookup where
  | own (c : Calculation)
  | inherited
  | absent
  deriving DecidableEq, Repr

/-- The property names an object literal inherits from `Object.prototype`. -/
def objectPrototypeKeys : List String :=
  ["constructor", "__defineGetter__", "__defineSetter__", "hasOwnProperty",
   "__lookupGetter__", "__lookupSetter__", "isPrototypeOf", "propertyIsEnumerable",
   "toString", "valueOf", "__proto__", "toLocaleString"]

/-- The property read `calculations[metric]`: an own property, else a property
inherited from `Object.prototype` (a truthy value), else `undefined`. -/
def lookupCalculation (metric : String) : Lookup :=
  if metric = "mean" then .own .mean
  else if metric = "median" then .own .median
  else if metric = "std" then .own .std
  else if metric ∈ objectPrototypeKeys then .inherited
  else .absent

/-- The `data` argument of `calculateStatistic`: an array of numbers, or a value
for which `Array.isArray` is false. -/
inductive DataArg where
  | array (xs : List JsNumber)
  | notArray

instance : DecidableEq (Except JsError JsNumber) := fun a b =>
  match a, b with
  | .ok x, .ok y =>
    if h : x = y then isTrue (by rw [h]) else isFalse (fun e => h (Except.ok.inj e))
  | .error x, .error y =>
    if h : x = y then isTrue (by rw [h]) else isFalse (fun e => h (Except.error.inj e))
  | .ok _, .error _ => isFalse (fun e => Except.noConfusion e)
  | .error _, .ok _ => isFalse (fun e => Except.noConfusion e)

/-- The expression `Number(x.toFixed(digits))`.  `toFixed` throws a `RangeError`
unless `0 ≤ digits ≤ 100`; it prints `NaN`, an infinity and a number of
magnitude `10^21` or more as `String(x)` does, which `Number` reads back as `x`;
otherwise it prints `n / 10^digits` for the integer `n` that brings it nearest to
the magnitude of `x`, the larger `n` on a tie, with the sign of `x`, and `Number`
reads that decimal as the double nearest to it. -/
def toFixed (x : JsNumber) (digits : Int) : Except JsError JsNumber :=
  if digits < 0 ∨ 100 < digits then .error .rangeError
  else
    let f := digits.toNat
    match x with
    | .fin q =>
      if 10 ^ 21 ≤ |q| then .ok (.fin q)
      else if q < 0 then .ok (roundDouble (-((⌊(-q) * 10 ^ f + 1 / 2⌋ : Int) / 10 ^ f)))
      else .ok (roundDouble ((⌊q * 10 ^ f + 1 / 2⌋ : Int) / 10 ^ f))
    | x => .ok x

/-- The arrow function `mean` of `calculations`:
`arr.reduce((sum, val) => sum + val, 0) / arr.length`. -/
def calculations.mean (arr : List JsNumber) : JsNumber :=
  (arr.foldl (fun (sum val : JsNumber) => sum.add val) (.fin 0)).div (.fin arr.length)

/-- The method call `.sort((a, b) => a - b)` on an array: a stable sort in which
`b` goes before `a` only when `a - b` is positive. -/
def sortNumbers (arr : List JsNumber) : List JsNumber :=
  List.insertionSort (fun a b => (JsNumber.fin 0).lt (a.sub b) = false) arr

/-- The arrow function `median` of `calculations`, run on a heap of arrays with
`arr` the reference of its argument; it returns its value and the heap it leaves.
`[...arr]` allocates a new array, which `sort` then sorts in place.  An index
outside an array reads `undefined`, which is `NaN` in a sum; that does not
happen on a non-empty array. -/
def calculations.medianRun (heap : List (List JsNumber)) (arr : Nat) :
    JsNumber × List (List JsNumber) :=
  let sorted := heap.length
  let heap := heap ++ [heap.getD arr []]
  let heap := heap.set sorted (sortNumbers (heap.getD sorted []))
  let mid := (heap.getD sorted []).length / 2
  let value :=
    if (heap.getD sorted []).length % 2 ≠ 0 then (heap.getD sorted []).getD mid .nan
    else (((heap.getD sorted []).getD (mid - 1) .nan).add
      ((heap.getD sorted []).getD mid .nan)).div (.fin 2)
  (value, heap)

/-- The value of the arrow function `median` on the array `arr`. -/
def calculations.median (arr : List JsNumber) : JsNumber := (calculations.medianRun [arr] 0).1

/-- The `variance` of the arrow function `std`:
`arr.reduce((sum, val) => sum + Math.pow(val - mean, 2), 0) / arr.length`;
`pow` is `Math.pow`. -/
def calculations.variance (pow : JsNumber → JsNumber → JsNumber) (arr : List JsNumber) :
    JsNumber :=
  let mean := calculations.mean arr
  (arr.foldl (fun (sum val : JsNumber) => sum.add (pow (val.sub mean) (.fin 2))) (.fin 0)).div
    (.fin arr.length)

/-- The arrow function `std` of `calculations`; `sqrt` is `Math.sqrt`. -/
def calculations.std (pow : JsNumber → JsNumber → JsNumber) (sqrt : JsNumber → JsNumber)
    (arr : List JsNumber) : JsNumber :=
  sqrt (calculations.variance pow arr)

/-- The call `calculations[metric](data)` for an own property. -/
def runCalculation (pow : JsNumber → JsNumber → JsNumber) (sqrt : JsNumber → JsNumber)
    (c : Calculation) (arr : List JsNumber) : JsNumber :=
  match c with
  | .mean => calculations.mean arr
  | .median => calculations.median arr
  | .std => calculations.std pow sqrt arr

/-- The function `calculateStatistic(data, metric = 'mean', precision = 2)`;
`pow` is `Math.pow` and `sqrt` is `Math.sqrt`.  Calling an inherited property
yields a value without `toFixed`, or is itself not callable: a `TypeError`
either way. -/
def calculateStatistic (pow : JsNumber → JsNumber → JsNumber) (sqrt : JsNumber → JsNumber)
    (data : DataArg) (metric : Option String) (precision : Option Int) :
    Except JsError JsNumber :=
  let metric := metric.getD "mean"
  let precision := precision.getD 2
  match data with
  | .notArray => .ok (.fin 0)
  | .array [] => .ok (.fin 0)
  | .array (x :: xs) =>
    match lookupCalculation metric with
    | .own c => toFixed (runCalculation pow sqrt c (x :: xs)) precision
    | .inherited => .error .typeError
    | .absent => toFixed (.fin 0) precision

section Statistics

variable {α : Type} [LinearOrderedField α]

/-- Rounding to `p` decimals, a tie going away from zero. -/
def roundHalfAway [FloorRing α] (x : α) (p : Nat) : α :=
  if x < 0 then -((⌊(-x) * 10 ^ p + 1 / 2⌋ : Int) / 10 ^ p)
  else (⌊x * 10 ^ p + 1 / 2⌋ : Int) / 10 ^ p

end Statistics

/-- The double nearest to the rounding of `v` to `p` decimals, a tie going away
from zero; a value that has no decimals to round (`NaN`, an infinity, a number
from `10^21` on) is left as it is. -/
def roundedTo (v : JsNumber) (p : Nat) : JsNumber :=
  match v with
  | .fin q => if 10 ^ 21 ≤ |q| then .fin q else roundDouble (roundHalfAway q p)
  | v => v

/-- The midpoint of a list of doubles taken as already sorted: its middle element
when the length is odd, the average of its two middle elements, computed in
double arithmetic, when it is even. -/
def midpoint (s : List ℚ) : JsNumber :=
  if s.length % 2 = 1 then .fin (s.getD (s.length / 2) 0)
  else ((JsNumber.fin (s.getD (s.length / 2 - 1) 0)).add (.fin (s.getD (s.length / 2) 0))).div
    (.fin 2)

/-- The midpoint in exact arithmetic. -/
def exactMidpoint (s : List ℚ) : ℚ :=
  if s.length % 2 = 1 then s.getD (s.length / 2) 0
  else (s.getD (s.length / 2 - 1) 0 + s.getD (s.length / 2) 0) / 2

/-- The population variance: the sum of squared deviations from the arithmetic
average, divided by the number of elements. -/
def populationVariance (data : List ℚ) : ℚ :=
  (data.map (fun v => (v - data.sum / data.length) ^ 2)).sum / data.length

/-- No step of the evaluation of `std` on `data` rounds: the partial sums, the
mean, the deviations, the partial sums of their squares and the variance are
doubles. -/
def ExactVariance (data : List ℚ) : Prop :=
  (∀ k, k ≤ data.length → IsDouble (data.take k).sum) ∧
  IsDouble (data.sum / data.length) ∧
  (∀ v ∈ data, IsDouble (v - data.sum / data.length)) ∧
  (∀ k, k ≤ data.length →
    IsDouble ((data.take k).map (fun v => (v - data.sum / data.length) ^ 2)).sum) ∧
  IsDouble (populationVariance data)

instance (data : List ℚ) : Decidable (ExactVariance data) := by
  unfold ExactVariance
  infer_instance

/-! ## Section 4: `navigateToSection`, `updateActiveNavigation` (script.js 4-5, 163-207) -/

/-- An element of the document, as far as the modelled code reads or writes it:
its `id` (the empty string when it has none), its `classList` and its
`dataset.section`. -/
structure Element where
  id : String
  classList : List String
  dataSection : Option String
  deriving DecidableEq, Repr

/-- The method `classList.add(c)`. -/
def Element.addClass (e : Element) (c : String) : Element :=
  { e with classList := if c ∈ e.classList then e.classList else e.classList ++ [c] }

/-- The method `classList.remove(c1, c2, ...)`. -/
def Element.removeClasses (e : Element) (cs : List String) : Element :=
  { e with classList := e.classList.filter (fun c => decide (c ∉ cs)) }

/-- The element matches the selector `.nav-btn`. -/
def Element.isNavBtn (e : Element) : Bool := decide ("nav-btn" ∈ e.classList)

/-- The element is a section panel: it matches the selector `.section` (the one
`setupScrollAnimations` collects the sections with) and is not a navigation button. -/
def Element.isSection (e : Element) : Bool :=
  decide ("section" ∈ e.classList) && !e.isNavBtn

/-- The call `document.getElementById(key)`: the position of the first element
with that id, `none` (JavaScript `null`) when there is none; no element has the
empty string as its id. -/
def getElementById (doc : List Element) (key : String) : Option Nat :=
  if key ≠ "" ∧ key ∈ doc.map (fun e => e.id) then
    some ((doc.map (fun e => e.id)).indexOf key)
  else none

/-- Apply `f` to the element at position `i`. -/
def updateElement (doc : List Element) (i : Nat) (f : Element → Element) : List Element :=
  doc.mapIdx (fun j e => if j = i then f e else e)

/-- The function `updateActiveNavigation(activeSection)`. -/
def updateActiveNavigation (doc : List Element) (activeSection : String) : List Element :=
  doc.map (fun btn =>
    if btn.isNavBtn then
      if btn.dataSection = some activeSection then btn.addClass "active"
      else btn.removeClasses ["active"]
    else btn)

/-- The callbacks `navigateToSection` passes to `setTimeout`, with the values
their closures captured: the outer one (300 ms) and the inner one (500 ms). -/
inductive Callback where
  | switchSections (currentEl : Nat) (targetEl : Option Nat) (targetSection : String)
  | finishEntrance (targetEl : Nat)
  deriving DecidableEq, Repr

/-- A pending timer: the delay it was set with, the time it is due, its callback. -/
structure Timer where
  delay : Nat
  due : Nat
  callback : Callback
  deriving DecidableEq, Repr

/-- The globals `currentSection` and `isAnimating`, the document, the clock (ms)
and the pending timers in the order they were set. -/
structure State where
  currentSection : String
  isAnimating : Bool
  document : List Element
  now : Nat
  timers : List Timer
  deriving DecidableEq, Repr

/-- The state a call or callback leaves, and the exception it ended with, if any. -/
structure Run where
  state : State
  thrown : Option JsError
  deriving DecidableEq, Repr

/-- The call `setTimeout(callback, delay)`. -/
def setTimeout (s : State) (callback : Callback) (delay : Nat) : State :=
  { s with
    timers := s.timers ++ [{ delay := delay, due := s.now + delay, callback := callback }] }

/-- The function `navigateToSection(targetSection)`.  `currentEl.classList` throws
a `TypeError` when `currentEl` is `null`. -/
def navigateToSection (s : State) (targetSection : String) : Run :=
  if s.isAnimating || targetSection == s.currentSection then { state := s, thrown := none }
  else
    let s := { s with isAnimating := true }
    let currentEl := getElementById s.document s.currentSection
    let targetEl := getElementById s.document targetSection
    match currentEl with
    | none => { state := s, thrown := some .typeError }
    | some currentEl =>
      let s := { s with document := updateElement s.document currentEl
                          (fun e => e.addClass "section-exit") }
      { state := setTimeout s (.switchSections currentEl targetEl targetSection) 300,
        thrown := none }

/-- Running a timer callback.  In the outer callback `targetEl.classList` throws a
`TypeError` when `targetEl` is `null`, after `currentEl` has lost its classes. -/
def runCallback (s : State) : Callback → Run
  | .switchSections currentEl targetEl targetSection =>
    let s := { s with document := updateElement s.document currentEl
                        (fun e => e.removeClasses ["active", "section-exit"]) }
    match targetEl with
    | none => { state := s, thrown := some .typeError }
    | some targetEl =>
      let s := { s with document := updateElement s.document targetEl
                          (fun e => e.addClass "active") }
      let s := { s with currentSection := targetSection }
      let s := { s with document := updateElement s.document targetEl
                          (fun e => e.addClass "section-enter") }
      let s := { s with document := updateActiveNavigation s.document targetSection }
      { state := setTimeout s (.finishEntrance targetEl) 500, thrown := none }
  | .finishEntrance targetEl =>
    let s := { s with document := updateElement s.document targetEl
                        (fun e => e.removeClasses ["section-enter"]) }
    { state := { s with isAnimating := false }, thrown := none }

/-- The pending timer that fires next: the one due first, the one set first
among those due at the same time. -/
def nextTimer : List Timer → Option Timer
  | [] => none
  | t :: ts =>
    match nextTimer ts with
    | none => some t
    | some u => if u.due < t.due then some u else some t

/-- Let time pass until the next pending timer is due and run its callback;
`none` when no timer is pending. -/
def fireNextTimer (s : State) : Option Run :=
  match nextTimer s.timers with
  | none => none
  | some t =>
    some (runCallback { s with now := max s.now t.due, timers := s.timers.erase t } t.callback)

/-- What happens to the page: a call of `navigateToSection`, or the next timer firing. -/
inductive Event where
  | navigate (targetSection : String)
  | timerFires
  deriving DecidableEq, Repr

/-- The state after one event (an exception ends the call or callback it occurs in). -/
def step (s : State) : Event → State
  | .navigate targetSection => (navigateToSection s targetSection).state
  | .timerFires =>
    match fireNextTimer s with
    | none => s
    | some r => r.state

/-- The state after a sequence of events. -/
def runEvents (s : State) (events : List Event) : State :=
  events.foldl step s

/-- The state the script starts in (`currentSection = 'home'`, `isAnimating = false`,
nothing scheduled) on a given document. -/
def initialState (doc : List Element) : State :=
  { currentSection := "home", isAnimating := false, document := doc, now := 0, timers := [] }

/-- The class list of the element at position `i` (empty when there is none). -/
def classesAt (doc : List Element) (i : Nat) : List String :=
  match doc[i]? with
  | some e => e.classList
  | none => []

/-- The element at position `i` is a section panel that carries the class `active`. -/
def sectionActiveAt (doc : List Element) (i : Nat) : Bool :=
  match doc[i]? with
  | some e => e.isSection && decide ("active" ∈ e.classList)
  | none => false

/-- Exactly one section panel carries `active`, and it is the element that
`currentSection` names. -/
def ExactlyOneActive (s : State) : Prop :=
  match getElementById s.document s.currentSection with
  | some i => ∀ j, j < s.document.length → (sectionActiveAt s.document j = true ↔ j = i)
  | none => False

instance (s : State) : Decidable (ExactlyOneActive s) := by
  unfold ExactlyOneActive
  cases getElementById s.document s.currentSection <;> infer_instance

/-- The key names a section panel of the document, at position `i`. -/
def IsSectionAt (doc : List Element) (key : String) (i : Nat) : Prop :=
  getElementById doc key = some i ∧ ∃ e, doc[i]? = some e ∧ e.isSection = true

/-- The targets of the `navigateToSection` calls among the events. -/
def navigationTargets : List Event → List String
  | [] => []
  | .navigate t :: es => t :: navigationTargets es
  | .timerFires :: es => navigationTargets es

/-- No transition is in flight: `isAnimating` is false and no step is scheduled. -/
def Idle (s : State) : Prop := s.isAnimating = false ∧ s.timers = []

/-- The highlighted navigation buttons are exactly those whose `data-section` is `key`. -/
def NavHighlightOn (doc : List Element) (key : String) : Prop :=
  ∀ btn ∈ doc, btn.isNavBtn = true → ("active" ∈ btn.classList ↔ btn.dataSection = some key)

/-- A small document: the sections `home` (active) and `about`, and a navigation
button for each, the one for `home` highlighted. -/
def exampleDocument : List Element :=
  [{ id := "home", classList := ["section", "active"], dataSection := none },
   { id := "about", classList := ["section"], dataSection := none },
   { id := "", classList := ["nav-btn", "active"], dataSection := some "home" },
   { id := "", classList := ["nav-btn"], dataSection := some "about" }]

/-- What no modelled step changes in a document: ids, and which elements are section panels. -/
def frame (doc : List Element) : List (String × Bool) :=
  doc.map (fun e => (e.id, e.isSection))

/-- The invariant of the reachable states over a document `doc0`: the frame is
that of `doc0`, exactly one section is active, and the pending timers are those
of the transition in flight, if any. -/
def NavInvariant (doc0 : List Element) (s : State) : Prop :=
  frame s.document = frame doc0 ∧ ExactlyOneActive s ∧
  ((s.isAnimating = false ∧ s.timers = []) ∨
   (s.isAnimating = true ∧ ∃ c t key delay due,
      s.timers = [{ delay := delay, due := due, callback := .switchSections c (some t) key }] ∧
      getElementById s.document s.currentSection = some c ∧
      IsSectionAt s.document key t ∧ key ≠ s.currentSection) ∨
   (s.isAnimating = true ∧ ∃ t delay due,
      s.timers = [{ delay := delay, due := due, callback := .finishEntrance t }]))

/-! ## Section 5: `animateCountUp`, `easeOutCubic` (script.js 272-305) -/

/-- The method `classList.add(c)` on a class list. -/
def classListAdd (classList : List String) (c : String) : List String :=
  if c ∈ classList then classList else classList ++ [c]

/-- The method `classList.remove(c1, c2, ...)` on a class list. -/
def classListRemove (classList : List String) (cs : List String) : List String :=
  classList.filter (fun c => decide (c ∉ cs))

/-- The text of an element: a string, or the string that a number converts to
when it is assigned to `textContent`. -/
inductive TextContent where
  | text (s : String)
  | ofNumber (x : JsNumber)
  deriving DecidableEq, Repr

/-- The element `animateCountUp` writes to: its `textContent` and its `classList`. -/
structure CounterElement where
  textContent : TextContent
  classList : List String
  deriving DecidableEq, Repr

/-- What a run of the frame loop leaves: the element, whether a
`requestAnimationFrame(updateCount)` is still outstanding, and the frame times
that were not used. -/
structure CountUpRun where
  element : CounterElement
  framePending : Bool
  unusedFrames : List JsNumber
  deriving DecidableEq, Repr

/-- The function `easeOutCubic(t)`: `return 1 - Math.pow(1 - t, 3)`; `pow` is
`Math.pow`. -/
def easeOutCubic (pow : JsNumber → JsNumber → JsNumber) (t : JsNumber) : JsNumber :=
  (JsNumber.fin 1).sub (pow ((JsNumber.fin 1).sub t) (.fin 3))

/-- The `currentValue` of the closure `updateCount(currentTime)`:
`elapsed = currentTime - startTime`, `progress = Math.min(elapsed / duration, 1)`,
`Math.floor(start + (range * easeOutCubic(progress)))`. -/
def currentValue (pow : JsNumber → JsNumber → JsNumber)
    (start range duration startTime currentTime : JsNumber) : JsNumber :=
  let elapsed := currentTime.sub startTime
  let progress := mathMin (elapsed.div duration) (.fin 1)
  let easedProgress := easeOutCubic pow progress
  mathFloor (start.add (range.mul easedProgress))

/-- One call of the closure `updateCount(currentTime)`: the element it leaves and
whether it called `requestAnimationFrame(updateCount)` again. -/
def updateCount (pow : JsNumber → JsNumber → JsNumber) (start range duration startTime : JsNumber)
    (element : CounterElement) (currentTime : JsNumber) : CounterElement × Bool :=
  let elapsed := currentTime.sub startTime
  let progress := mathMin (elapsed.div duration) (.fin 1)
  let element := { element with
    textContent := .ofNumber (currentValue pow start range duration startTime currentTime) }
  let element := { element with classList := classListAdd element.classList "counting" }
  if progress.lt (.fin 1) then (element, true)
  else
    let element := { element with classList := classListRemove element.classList ["counting"] }
    ({ element with classList := classListAdd element.classList "count-complete" }, false)

/-- The frame loop: `updateCount` is called with each frame time in turn for as
long as it asks for another frame. -/
def frameLoop (pow : JsNumber → JsNumber → JsNumber) (start range duration startTime : JsNumber) :
    CounterElement → List JsNumber → CountUpRun
  | element, [] => { element := element, framePending := true, unusedFrames := [] }
  | element, t :: ts =>
    match updateCount pow start range duration startTime element t with
    | (element, true) => frameLoop pow start range duration startTime element ts
    | (element, false) => { element := element, framePending := false, unusedFrames := ts }

/-- The function `animateCountUp(element, start, end, duration)`; `now` is the
value of `performance.now()` and `frames` are the times the browser delivers the
animation frames at. -/
def animateCountUp (pow : JsNumber → JsNumber → JsNumber) (element : CounterElement)
    (start endValue duration : JsNumber) (now : JsNumber) (frames : List JsNumber) :
    CountUpRun :=
  let startTime := now
  let range := endValue.sub start
  frameLoop pow start range duration startTime element frames

/-! ## Section 6: `createDemoConfig`, `demoProject` (script.js 27-63, 459-560) -/

/-- The string `createMLVisualization()` returns. -/
def createMLVisualization : String :=
  "\n" ++
  "                <div class=\"ml-demo\">\n" ++
  "                    <div class=\"neural-network\">\n" ++
  "                        <div class=\"network-layer\">\n" ++
  "                            <div class=\"neuron\"></div>\n" ++
  "                            <div class=\"neuron\"></div>\n" ++
  "                            <div class=\"neuron\"></div>\n" ++
  "                        </div>\n" ++
  "                        <div class=\"network-layer\">\n" ++
  "                            <div class=\"neuron\"></div>\n" ++
  "                            <div class=\"neuron\"></div>\n" ++
  "                        </div>\n" ++
  "                        <div class=\"network-layer\">\n" ++
  "                            <div class=\"neuron\"></div>\n" ++
  "                        </div>\n" ++
  "                    </div>\n" ++
  "                    <div class=\"demo-metrics\">\n" ++
  "                        <div class=\"metric\">Accuracy: <span class=\"metric-value\">94.5%</span></div>\n" ++
  "                        <div class=\"metric\">Precision: <span class=\"metric-value\">92.8%</span></div>\n" ++
  "                        <div class=\"metric\">Recall: <span class=\"metric-value\">96.2%</span></div>\n" ++
  "                    </div>\n" ++
  "                </div>\n" ++
  "            "

/-- The string `createChartVisualization()` returns. -/
def createChartVisualization : String :=
  "\n" ++
  "                <div class=\"dashboard-demo\">\n" ++
  "                    <div class=\"demo-charts\">\n" ++
  "                        <div class=\"mini-chart\">\n" ++
  "                            <div class=\"chart-bar\" style=\"--height: 60%; --delay: 0.1s;\"></div>\n" ++
  "                            <div class=\"chart-bar\" style=\"--height: 80%; --delay: 0.2s;\"></div>\n" ++
  "                            <div class=\"chart-bar\" style=\"--height: 45%; --delay: 0.3s;\"></div>\n" ++
  "                            <div class=\"chart-bar\" style=\"--height: 90%; --delay: 0.4s;\"></div>\n" ++
  "                            <div class=\"chart-bar\" style=\"--height: 70%; --delay: 0.5s;\"></div>\n" ++
  "                        </div>\n" ++
  "                    </div>\n" ++
  "                    <div class=\"demo-kpis\">\n" ++
  "                        <div class=\"kpi\">Revenue: <span class=\"kpi-value\">$2.4M</span></div>\n" ++
  "                        <div class=\"kpi\">Growth: <span class=\"kpi-value\">+15.3%</span></div>\n" ++
  "                    </div>\n" ++
  "                </div>\n" ++
  "            "

/-- The string `createPredictionVisualization()` returns. -/
def createPredictionVisualization : String :=
  "\n" ++
  "                <div class=\"prediction-demo\">\n" ++
  "                    <div class=\"prediction-line\">\n" ++
  "                        <div class=\"line-segment\"></div>\n" ++
  "                        <div class=\"line-segment\"></div>\n" ++
  "                        <div class=\"line-segment\"></div>\n" ++
  "                        <div class=\"line-segment\"></div>\n" ++
  "                    </div>\n" ++
  "                    <div class=\"prediction-points\">\n" ++
  "                        <div class=\"prediction-point\"></div>\n" ++
  "                        <div class=\"prediction-point\"></div>\n" ++
  "                        <div class=\"prediction-point\"></div>\n" ++
  "                    </div>\n" ++
  "                    <div class=\"prediction-stats\">\n" ++
  "                        <div class=\"stat\">RÂ²: <span class=\"stat-value\">0.892</span></div>\n" ++
  "                        <div class=\"stat\">RMSE: <span class=\"stat-value\">0.124</span></div>\n" ++
  "                    </div>\n" ++
  "                </div>\n" ++
  "            "

/-- A record of the object literal `configs`. -/
structure DemoRecord where
  title : String
  description : String
  visual : String
  duration : Nat
  deriving DecidableEq, Repr

/-- The value of `configs[projectType] || configs['capstone']`: a record of
`configs`, or the (truthy) value of a property inherited from `Object.prototype`. -/
inductive ConfigValue where
  | record (r : DemoRecord)
  | inheritedProperty (key : String)
  deriving DecidableEq, Repr

/-- The object `createDemoConfig` returns. -/
structure DemoConfig where
  id : String
  timestamp : Nat
  config : ConfigValue
  deriving DecidableEq, Repr

/-- The record `configs['capstone']`. -/
def configs.capstone : DemoRecord :=
  { title := "Data Science Capstone Project"
    description := "End-to-end machine learning pipeline with data preprocessing, model training, and deployment."
    visual := createMLVisualization
    duration := 3000 }

/-- The record `configs['analytics']`. -/
def configs.analytics : DemoRecord :=
  { title := "Business Analytics Dashboard"
    description := "Interactive Power BI dashboard with real-time KPI monitoring and automated reporting."
    visual := createChartVisualization
    duration := 2500 }

/-- The record `configs['ml']`. -/
def configs.ml : DemoRecord :=
  { title := "Predictive Analytics Model"
    description := "Advanced machine learning model with statistical validation and API integration."
    visual := createPredictionVisualization
    duration := 3500 }

/-- The function `createDemoConfig(projectType)`; `now` is the value of
`Date.now()`.  The read `configs[projectType]` finds an own record, else a
property inherited from `Object.prototype` (truthy, so `||` keeps it), else
`undefined`, for which `||` gives `configs['capstone']`. -/
def createDemoConfig (now : Nat) (projectType : String) : DemoConfig :=
  let timestamp := now
  let demoId := "demo_" ++ toString timestamp
  { id := demoId
    timestamp := timestamp
    config :=
      if projectType = "capstone" then .record configs.capstone
      else if projectType = "analytics" then .record configs.analytics
      else if projectType = "ml" then .record configs.ml
      else if projectType ∈ objectPrototypeKeys then .inheritedProperty projectType
      else .record configs.capstone }

/-- The read `config.title`; an inherited value has no such property (`undefined`). -/
def ConfigValue.title : ConfigValue → Option String
  | .record r => some r.title
  | .inheritedProperty _ => none

/-- The read `config.description`. -/
def ConfigValue.description : ConfigValue → Option String
  | .record r => some r.description
  | .inheritedProperty _ => none

/-- The read `config.visual`. -/
def ConfigValue.visual : ConfigValue → Option String
  | .record r => some r.visual
  | .inheritedProperty _ => none

/-- The read `config.duration`. -/
def ConfigValue.duration : ConfigValue → Option Nat
  | .record r => some r.duration
  | .inheritedProperty _ => none

/-- The callbacks `demoProject` passes to `setTimeout`: `closeShowcase()`, and
`showNotification('Demo Complete', message)`. -/
inductive DemoCallback where
  | closeShowcase
  | demoComplete (message : String)
  deriving DecidableEq, Repr

/-- The showcase as `demoProject` leaves it: the text of `#showcase-title` and
`#showcase-description`, the `innerHTML` of `#showcase-visual`, the class list of
`#demo-showcase`, and the `setTimeout` calls made, each a delay and a callback. -/
structure Showcase where
  title : String
  description : String
  visual : String
  showcase : List String
  scheduled : List (Nat × DemoCallback)
  deriving DecidableEq, Repr

/-- The function `demoProject(projectType)` on a showcase.  Assigning `undefined`
to `textContent` gives the empty text, to `innerHTML` the text `undefined`; a
template prints it as `undefined`; as a delay `undefined`, and `undefined + 500`,
count as 0. -/
def demoProject (now : Nat) (page : Showcase) (projectType : String) : Showcase :=
  let demoConfig := createDemoConfig now projectType
  let page := { page with title := demoConfig.config.title.getD "" }
  let page := { page with description := demoConfig.config.description.getD "" }
  let page := { page with visual := demoConfig.config.visual.getD "undefined" }
  let page := { page with showcase := classListAdd page.showcase "showcase-active" }
  let page := { page with
    scheduled := page.scheduled ++ [(demoConfig.config.duration.getD 0, DemoCallback.closeShowcase)] }
  { page with
    scheduled := page.scheduled ++
      [((demoConfig.config.duration.map (fun d => d + 500)).getD 0,
        DemoCallback.demoComplete (demoConfig.config.title.getD "undefined" ++
          " demonstration finished successfully."))] }

/-! ## Section 7: `handleFormSubmit`, `animateFormReset`, `showNotification`, `closeModal` (script.js 607-715) -/

/-- The callbacks the form code passes to `setTimeout`, with the values their
closures captured: the auto-close of `showNotification`; the 2500 ms callback of
`handleFormSubmit` (it reads `processedData.name` and `.projectType`) and its
inner 3000 ms callback; the outer and the inner callback of `animateFormReset`
for the form group at `index`; and its 800 ms callback. -/
inductive FormCallback where
  | closeModal
  | submissionProcessed (name projectType : String)
  | clearSuccess
  | groupFlash (index : Nat)
  | groupFlashEnd (index : Nat)
  | resetForm
  deriving DecidableEq, Repr

/-- A pending timer of the form code: its delay, the time it is due, its callback. -/
structure FormTimer where
  delay : Nat
  due : Nat
  callback : FormCallback
  deriving DecidableEq, Repr

/-- The contact form and what its code touches: the current and the default
values of the form controls, the class lists of the `.form-group` elements, of
`.submit-btn`, of `#loading-overlay` and of `#notification-modal`, the text of
`#modal-title` and `#modal-message`, the clock (ms) and the pending timers in the
order they were set. -/
structure FormPage where
  fields : FormData
  defaultFields : FormData
  groups : List (List String)
  submitBtn : List String
  loadingOverlay : List String
  modalTitle : String
  modalMessage : String
  modal : List String
  now : Nat
  timers : List FormTimer
  deriving DecidableEq, Repr

/-- The call `setTimeout(callback, delay)` of the form code. -/
def formSetTimeout (s : FormPage) (callback : FormCallback) (delay : Nat) : FormPage :=
  { s with
    timers := s.timers ++ [{ delay := delay, due := s.now + delay, callback := callback }] }

/-- The function `closeModal()`. -/
def closeModal (s : FormPage) : FormPage :=
  { s with modal := classListRemove s.modal ["modal-active"] }

/-- The function `showNotification(title, message, duration = 4000)`. -/
def showNotification (s : FormPage) (title message : String) (duration : Option Nat) :
    FormPage :=
  let duration := duration.getD 4000
  let s := { s with modalTitle := title }
  let s := { s with modalMessage := message }
  let s := { s with modal := classListAdd s.modal "modal-active" }
  formSetTimeout s .closeModal duration

/-- Apply `f` to the class list of the form group at position `index`. -/
def updateGroup (groups : List (List String)) (index : Nat)
    (f : List String → List String) : List (List String) :=
  groups.mapIdx (fun j classList => if j = index then f classList else classList)

/-- The function `animateFormReset(form)`: one timer per form group, set in
order with the delay `calculateStaggerDelay(index, 100, 50)`, then the 800 ms
timer of `form.reset()`. -/
def animateFormReset (s : FormPage) : FormPage :=
  let s := (List.range s.groups.length).foldl
    (fun s index =>
      formSetTimeout s (.groupFlash index)
        (timeoutDelay (calculateStaggerDelay (.fin index) (some (.fin 100)) (some (.fin 50))))) s
  formSetTimeout s .resetForm 800

/-- Running a timer callback of the form code. -/
def runFormCallback (s : FormPage) : FormCallback → FormPage
  | .closeModal => closeModal s
  | .submissionProcessed name projectType =>
    let s := { s with loadingOverlay := classListRemove s.loadingOverlay ["active"] }
    let s := { s with submitBtn := classListRemove s.submitBtn ["loading"] }
    let s := { s with submitBtn := classListAdd s.submitBtn "success" }
    let s := showNotification s "Message Sent!"
      ("Thank you " ++ name ++ "! Your " ++ projectType ++ " inquiry has been received.") none
    let s := animateFormReset s
    formSetTimeout s .clearSuccess 3000
  | .clearSuccess => { s with submitBtn := classListRemove s.submitBtn ["success"] }
  | .groupFlash index =>
    let s := { s with
      groups := updateGroup s.groups index (fun cl => classListAdd cl "form-reset") }
    formSetTimeout s (.groupFlashEnd index) 500
  | .groupFlashEnd index =>
    { s with groups := updateGroup s.groups index (fun cl => classListRemove cl ["form-reset"]) }
  | .resetForm => { s with fields := s.defaultFields }

/-- The function `handleFormSubmit(event)` on the form of `event.target`;
`isoNow` is the value of `new Date().toISOString()`.  `formData.get('project-type')`
is passed on as it is; when it is `null` the default of `processFormData` does
not apply and the message template prints it as `null`. -/
def handleFormSubmit (isoNow : String) (s : FormPage) : FormPage :=
  let formData := s.fields
  let projectType := (formData.get "project-type").getD "null"
  let processedData := processFormData isoNow formData (some projectType)
  if !processedData.validation.isValid then
    showNotification s "Form Error" (String.intercalate ", " processedData.validation.errors)
      none
  else
    let s := { s with submitBtn := classListAdd s.submitBtn "loading" }
    let s := { s with loadingOverlay := classListAdd s.loadingOverlay "active" }
    formSetTimeout s (.submissionProcessed processedData.name processedData.projectType) 2500

/-- The pending timer of the form code that fires next: the one due first, the
one set first among those due at the same time. -/
def nextFormTimer : List FormTimer → Option FormTimer
  | [] => none
  | t :: ts =>
    match nextFormTimer ts with
    | none => some t
    | some u => if u.due < t.due then some u else some t

/-- Fire the pending timers due at `time` or before, in order, each at the time
it is due; `fuel` bounds the number of callbacks run. -/
def runUntil : Nat → Nat → FormPage → FormPage
  | 0, _, s => s
  | fuel + 1, time, s =>
    match nextFormTimer s.timers with
    | none => s
    | some t =>
      if t.due ≤ time then
        runUntil fuel time
          (runFormCallback { s with now := max s.now t.due, timers := s.timers.erase t }
            t.callback)
      else s

/-- A bound on the number of callbacks a pending callback leads to, itself
included, on a form with `groups` form groups. -/
def callbackWeight (groups : Nat) : FormCallback → Nat
  | .submissionProcessed _ _ => 2 * groups + 5
  | .groupFlash _ => 2
  | _ => 1

/-- A bound on the number of callbacks the pending timers lead to. -/
def queueWeight (s : FormPage) : Nat :=
  (s.timers.map (fun t => callbackWeight s.groups.length t.callback)).sum

/-- The page at `time`: every timer due by then has fired. -/
def pageAt (s : FormPage) (time : Nat) : FormPage :=
  runUntil (queueWeight s) time s

/-- No pending timer is the 2500 ms callback of a submission. -/
def NoSubmissionPending (s : FormPage) : Prop :=
  ∀ u ∈ s.timers, ∀ name projectType, u.callback ≠ .submissionProcessed name projectType

/-- A form with the four fields of the page, each in a form group of its own,
filled in validly, and nothing pending. -/
def exampleForm : FormPage :=
  { fields := [("name", "Ada"), ("email", "ada@example.org"), ("project-type", "analytics"),
               ("message", "Hello")]
    defaultFields := [("name", ""), ("email", ""), ("project-type", "general"),
                      ("message", "")]
    groups := [["form-group"], ["form-group"], ["form-group"], ["form-group"]]
    submitBtn := ["submit-btn"]
    loadingOverlay := []
    modalTitle := ""
    modalMessage := ""
    modal := []
    now := 0
    timers := [] }

/-- A form like `exampleForm` with six form groups. -/
def sixGroupForm : FormPage :=
  { exampleForm with
    groups := [["form-group"], ["form-group"], ["form-group"], ["form-group"],
               ["form-group"], ["form-group"]] }

/-- The group timers `animateFormReset` sets on a form with `groups` form groups
at time `now`. -/
def groupTimers (groups now : Nat) : List FormTimer :=
  (List.range groups).map (fun (index : Nat) =>
    { delay := timeoutDelay (calculateStaggerDelay (.fin index) (some (.fin 100)) (some (.fin 50))),
      due := now +
        timeoutDelay (calculateStaggerDelay (.fin index) (some (.fin 100)) (some (.fin 50))),
      callback := .groupFlash index })

/-- The timers a callback sets when it runs on the page `s`. -/
def scheduledBy (s : FormPage) : FormCallback → List FormTimer
  | .submissionProcessed _ _ =>
    [{ delay := 4000, due := s.now + 4000, callback := .closeModal }] ++
      groupTimers s.groups.length s.now ++
      [{ delay := 800, due := s.now + 800, callback := .resetForm },
       { delay := 3000, due := s.now + 3000, callback := .clearSuccess }]
  | .groupFlash index => [{ delay := 500, due := s.now + 500, callback := .groupFlashEnd index }]
  | _ => []

/-- The page after the pending timer `t` has fired, at the time it is due. -/
def fireTimer (s : FormPage) (t : FormTimer) : FormPage :=
  runFormCallback { s with now := max s.now t.due, timers := s.timers.erase t } t.callback

/-- The timer a valid submission of the page `s` sets. -/
def submissionTimer (s : FormPage) : FormTimer :=
  { delay := 2500
    due := s.now + 2500
    callback := .submissionProcessed (trimmedField s.fields "name")
      ((FormData.get s.fields "project-type").getD "null") }

/-- The page a valid submission of the page `s` leaves: the loading state, and
the submission's timer pending. -/
def submittedPage (s : FormPage) : FormPage :=
  { s with
    submitBtn := classListAdd s.submitBtn "loading"
    loadingOverlay := classListAdd s.loadingOverlay "active"
    timers := s.timers ++ [submissionTimer s] }

/-- The message of the success notification for the submission of the page `s`. -/
def successMessage (s : FormPage) : String :=
  "Thank you " ++ trimmedField s.fields "name" ++ "! Your " ++
    (FormData.get s.fields "project-type").getD "null" ++ " inquiry has been received."

/-- What holds of a page `p` once the 2500 ms callback of the submission of the
page `s` has run, as long as only timers due at `time` or before have fired. -/
def AfterProcessed (s : FormPage) (time : Nat) (p : FormPage) : Prop :=
  NoSubmissionPending p ∧
  p.defaultFields = s.defaultFields ∧
  (∀ u ∈ p.timers, u.callback = .clearSuccess → u.due = s.now + 5500) ∧
  (∀ u ∈ p.timers, u.callback = .resetForm → u.due = s.now + 3300) ∧
  (∀ u ∈ p.timers, u.callback = .closeModal → u.due = s.now + 6500) ∧
  "loading" ∉ p.submitBtn ∧ "active" ∉ p.loadingOverlay ∧
  p.modalTitle = "Message Sent!" ∧ p.modalMessage = successMessage s ∧
  ("success" ∉ p.submitBtn ∨
    { delay := 3000, due := s.now + 5500, callback := .clearSuccess } ∈ p.timers) ∧
  (p.fields = s.defaultFields ∨
    { delay := 800, due := s.now + 3300, callback := .resetForm } ∈ p.timers) ∧
  (time < s.now + 5500 → "success" ∈ p.submitBtn ∧ "modal-active" ∈ p.modal) ∧
  (time < s.now + 3300 → p.fields = s.fields)

/-- A closed showcase with no content and nothing scheduled. -/
def emptyShowcase : Showcase :=
  { title := "", description := "", visual := "", showcase := [], scheduled := [] }

/-! ## Theorems -/

theorem dropWhile_eq_nil_of_all {p : Char → Bool} :
    ∀ {cs : List Char}, (∀ c ∈ cs, p c = true) → cs.dropWhile p = []
  | [], _ => rfl
  | c :: cs, h => by
    have hc : p c = true := h c (List.mem_cons_self _ _)
    have ht : ∀ d ∈ cs, p d = true := fun d hd => h d (List.mem_cons_of_mem _ hd)
    simp [List.dropWhile, hc, dropWhile_eq_nil_of_all ht]

theorem trimChars_eq_nil_iff (cs : List Char) :
    trimChars cs = [] ↔ ∀ c ∈ cs, isJsWhiteSpace c = true := by
  unfold trimChars
  constructor
  · intro h
    have h1 : (cs.dropWhile isJsWhiteSpace).reverse.dropWhile isJsWhiteSpace = [] := by
      simpa using h
    rw [List.dropWhile_eq_nil_iff] at h1
    have h2 : cs.dropWhile isJsWhiteSpace = [] := by
      by_contra hne
      have hhead := List.head_dropWhile_not isJsWhiteSpace cs hne
      have hmem : (cs.dropWhile isJsWhiteSpace).head hne ∈
          (cs.dropWhile isJsWhiteSpace).reverse :=
        List.mem_reverse.mpr (List.head_mem hne)
      have := h1 _ hmem
      simp [this] at hhead
    rwa [List.dropWhile_eq_nil_iff] at h2
  · intro h
    rw [dropWhile_eq_nil_of_all h]
    rfl

theorem jsTrim_eq_empty_iff (s : String) :
    jsTrim s = "" ↔ ∀ c ∈ s.data, isJsWhiteSpace c = true := by
  rw [← trimChars_eq_nil_iff]
  unfold jsTrim
  constructor
  · intro h
    have := congrArg String.data h
    simpa using this
  · intro h
    rw [h]

theorem trimmedField_eq_empty_iff (fd : FormData) (key : String) :
    trimmedField fd key = "" ↔ fieldBlank fd key := by
  unfold trimmedField fieldBlank
  cases hget : fd.get key with
  | none => simp
  | some v =>
    simp only
    rw [← jsTrim_eq_empty_iff]
    by_cases h : jsTrim v = "" <;> simp [h]

/-- C1: for every form input the errors of `processFormData` are the fixed
messages of the blank fields (missing, or empty after trimming) in the order
name, email, message, and `isValid` is true exactly when that list is empty; all
three blank gives exactly three errors and `isValid = false`, none blank gives
no error and `isValid = true`. -/
theorem processFormData_validation (now : String) (fd : FormData) (projectType : Option String) :
    (processFormData now fd projectType).validation.errors = expectedErrors fd ∧
    ((processFormData now fd projectType).validation.isValid = true ↔ expectedErrors fd = []) ∧
    (fieldBlank fd "name" ∧ fieldBlank fd "email" ∧ fieldBlank fd "message" →
      (processFormData now fd projectType).validation.errors =
        ["Name is required", "Email is required", "Message is required"] ∧
      (processFormData now fd projectType).validation.errors.length = 3 ∧
      (processFormData now fd projectType).validation.isValid = false) ∧
    (¬ fieldBlank fd "name" ∧ ¬ fieldBlank fd "email" ∧ ¬ fieldBlank fd "message" →
      (processFormData now fd projectType).validation.errors = [] ∧
      (processFormData now fd projectType).validation.isValid = true) := by
  have hn := trimmedField_eq_empty_iff fd "name"
  have he := trimmedField_eq_empty_iff fd "email"
  have hm := trimmedField_eq_empty_iff fd "message"
  simp only [processFormData, validateData, expectedErrors, requiredFields]
  by_cases h1 : fieldBlank fd "name" <;> by_cases h2 : fieldBlank fd "email" <;>
    by_cases h3 : fieldBlank fd "message" <;>
    simp [h1, h2, h3, hn.mpr, he.mpr, hm.mpr, hn, he, hm, List.filter]


/-! ### Elements and documents -/

@[simp] theorem mem_addClass (e : Element) (c d : String) :
    d ∈ (e.addClass c).classList ↔ d = c ∨ d ∈ e.classList := by
  unfold Element.addClass
  by_cases h : c ∈ e.classList
  · simp only [h, if_true]
    constructor
    · exact fun hd => Or.inr hd
    · rintro (rfl | hd)
      · exact h
      · exact hd
  · simp only [h, if_false, List.mem_append, List.mem_singleton]
    tauto

@[simp] theorem mem_removeClasses (e : Element) (cs : List String) (d : String) :
    d ∈ (e.removeClasses cs).classList ↔ d ∈ e.classList ∧ d ∉ cs := by
  simp [Element.removeClasses, List.mem_filter]

@[simp] theorem id_addClass (e : Element) (c : String) : (e.addClass c).id = e.id := rfl

@[simp] theorem id_removeClasses (e : Element) (cs : List String) :
    (e.removeClasses cs).id = e.id := rfl

@[simp] theorem dataSection_addClass (e : Element) (c : String) :
    (e.addClass c).dataSection = e.dataSection := rfl

@[simp] theorem dataSection_removeClasses (e : Element) (cs : List String) :
    (e.removeClasses cs).dataSection = e.dataSection := rfl

theorem isNavBtn_addClass (e : Element) (c : String) (h : c ≠ "nav-btn") :
    (e.addClass c).isNavBtn = e.isNavBtn := by
  simp [Element.isNavBtn, Ne.symm h]

theorem isNavBtn_removeClasses (e : Element) (cs : List String) (h : "nav-btn" ∉ cs) :
    (e.removeClasses cs).isNavBtn = e.isNavBtn := by
  simp [Element.isNavBtn, h]

theorem isSection_addClass (e : Element) (c : String) (h1 : c ≠ "section")
    (h2 : c ≠ "nav-btn") : (e.addClass c).isSection = e.isSection := by
  simp [Element.isSection, isNavBtn_addClass e c h2, Ne.symm h1]

theorem isSection_removeClasses (e : Element) (cs : List String) (h1 : "section" ∉ cs)
    (h2 : "nav-btn" ∉ cs) : (e.removeClasses cs).isSection = e.isSection := by
  simp [Element.isSection, isNavBtn_removeClasses e cs h2, h1]

theorem isSection_not_navBtn (e : Element) (h : e.isSection = true) : e.isNavBtn = false := by
  simp [Element.isSection] at h
  exact h.2

theorem getElem?_updateElement (doc : List Element) (i j : Nat) (f : Element → Element) :
    (updateElement doc i f)[j]? = (doc[j]?).map (fun e => if j = i then f e else e) := by
  simp [updateElement, List.getElem?_mapIdx]

theorem length_updateElement (doc : List Element) (i : Nat) (f : Element → Element) :
    (updateElement doc i f).length = doc.length := by
  simp [updateElement]

theorem getElem?_updateActiveNavigation (doc : List Element) (key : String) (j : Nat) :
    (updateActiveNavigation doc key)[j]? = (doc[j]?).map (fun btn =>
      if btn.isNavBtn then
        if btn.dataSection = some key then btn.addClass "active"
        else btn.removeClasses ["active"]
      else btn) := by
  simp [updateActiveNavigation]

theorem length_updateActiveNavigation (doc : List Element) (key : String) :
    (updateActiveNavigation doc key).length = doc.length := by
  simp [updateActiveNavigation]

theorem map_id_updateElement (doc : List Element) (i : Nat) (f : Element → Element)
    (hf : ∀ e, (f e).id = e.id) :
    (updateElement doc i f).map (fun e => e.id) = doc.map (fun e => e.id) := by
  apply List.ext_getElem?
  intro j
  simp only [List.getElem?_map, getElem?_updateElement]
  cases doc[j]? with
  | none => rfl
  | some e =>
    by_cases h : j = i <;> simp [h, hf]

theorem map_id_updateActiveNavigation (doc : List Element) (key : String) :
    (updateActiveNavigation doc key).map (fun e => e.id) = doc.map (fun e => e.id) := by
  apply List.ext_getElem?
  intro j
  simp only [List.getElem?_map, getElem?_updateActiveNavigation]
  cases doc[j]? with
  | none => rfl
  | some e =>
    by_cases h1 : e.isNavBtn = true <;> by_cases h2 : e.dataSection = some key <;> simp [h1, h2]

theorem getElementById_congr {d1 d2 : List Element}
    (h : d1.map (fun e => e.id) = d2.map (fun e => e.id)) (key : String) :
    getElementById d1 key = getElementById d2 key := by
  unfold getElementById
  rw [h]

theorem getElementById_updateElement (doc : List Element) (i : Nat) (f : Element → Element)
    (hf : ∀ e, (f e).id = e.id) (key : String) :
    getElementById (updateElement doc i f) key = getElementById doc key :=
  getElementById_congr (map_id_updateElement doc i f hf) key

theorem getElementById_updateActiveNavigation (doc : List Element) (k key : String) :
    getElementById (updateActiveNavigation doc k) key = getElementById doc key :=
  getElementById_congr (map_id_updateActiveNavigation doc k) key

theorem getElementById_spec {doc : List Element} {key : String} {i : Nat}
    (h : getElementById doc key = some i) : ∃ e, doc[i]? = some e ∧ e.id = key := by
  unfold getElementById at h
  split at h
  · next hmem =>
    simp only [Option.some.injEq] at h
    have h1 := List.indexOf_get? hmem.2
    rw [h] at h1
    rw [List.get?_eq_getElem?, List.getElem?_map] at h1
    cases hd : doc[i]? with
    | none => simp [hd] at h1
    | some e =>
      refine ⟨e, rfl, ?_⟩
      simpa [hd] using h1
  · cases h

theorem getElementById_ne {doc : List Element} {k1 k2 : String} {i j : Nat}
    (h1 : getElementById doc k1 = some i) (h2 : getElementById doc k2 = some j)
    (hne : k1 ≠ k2) : i ≠ j := by
  obtain ⟨e1, he1, hid1⟩ := getElementById_spec h1
  obtain ⟨e2, he2, hid2⟩ := getElementById_spec h2
  rintro rfl
  rw [he1] at he2
  cases he2
  exact hne (hid1.symm.trans hid2)

/-! ### Navigation -/

theorem classesAt_of_getElem? {doc : List Element} {i : Nat} {e : Element}
    (h : doc[i]? = some e) : classesAt doc i = e.classList := by
  simp [classesAt, h]

theorem navigateToSection_start (s : State) (B : String) (a : Nat) (tb : Option Nat)
    (hidle : s.isAnimating = false) (hne : B ≠ s.currentSection)
    (hA : getElementById s.document s.currentSection = some a)
    (hB : getElementById s.document B = tb) :
    navigateToSection s B =
      { state :=
          { s with
            isAnimating := true
            document := updateElement s.document a (fun e => e.addClass "section-exit")
            timers := s.timers ++ [{ delay := 300, due := s.now + 300,
                                     callback := .switchSections a tb B }] }
        thrown := none } := by
  simp [navigateToSection, hidle, hne, hA, hB, setTimeout]

theorem nextTimer_singleton (t : Timer) : nextTimer [t] = some t := rfl

theorem fireNextTimer_singleton (s : State) (t : Timer) (h : s.timers = [t]) :
    fireNextTimer s = some (runCallback { s with now := max s.now t.due, timers := [] } t.callback) := by
  simp [fireNextTimer, h, nextTimer_singleton]

/-- C2: `navigateToSection(target)` does nothing when `isAnimating` is true or
`target` equals `currentSection`: the state it leaves (globals, every class list,
pending timers) is the state it was called in, and it does not throw. -/
theorem navigateToSection_noop (s : State) (target : String)
    (h : s.isAnimating = true ∨ target = s.currentSection) :
    navigateToSection s target = { state := s, thrown := none } := by
  unfold navigateToSection
  rcases h with h | h
  · simp [h]
  · simp [h]

/-- C3: from an idle state whose current section is a section panel at `a`, a call
`navigateToSection(B)` for another section panel `B` at `b` sets one 300 ms
timer; firing it sets one 500 ms timer; firing that one leaves nothing pending,
800 ms after the call, with `currentSection = B`, `isAnimating = false`, `B`
carrying `active` and not `section-enter`, the old section carrying neither
`active` nor `section-exit`, and the highlighted navigation buttons being those
whose `data-section` is `B`.  No step throws. -/
theorem navigateToSection_full_transition (s : State) (B : String) (a b : Nat)
    (hidle : Idle s) (hA : IsSectionAt s.document s.currentSection a)
    (hB : IsSectionAt s.document B b) (hne : B ≠ s.currentSection) :
    ∃ s1 s2 s3 t1 t2,
      navigateToSection s B = { state := s1, thrown := none } ∧
      s1.timers = [{ delay := 300, due := s.now + 300, callback := t1 }] ∧
      s1.isAnimating = true ∧
      fireNextTimer s1 = some { state := s2, thrown := none } ∧
      s2.timers = [{ delay := 500, due := s.now + 300 + 500, callback := t2 }] ∧
      s2.isAnimating = true ∧
      fireNextTimer s2 = some { state := s3, thrown := none } ∧
      s3.timers = [] ∧ s3.now = s.now + 800 ∧
      s3.currentSection = B ∧ s3.isAnimating = false ∧
      "active" ∈ classesAt s3.document b ∧
      "active" ∉ classesAt s3.document a ∧
      "section-exit" ∉ classesAt s3.document a ∧
      "section-enter" ∉ classesAt s3.document b ∧
      NavHighlightOn s3.document B := by
  obtain ⟨cur, anim, doc, now, timers⟩ := s
  obtain ⟨hanim, htimers⟩ := hidle
  obtain ⟨hga, ea, hea, hsa⟩ := hA
  obtain ⟨hgb, eb, heb, hsb⟩ := hB
  simp only at hanim htimers hga hgb hea heb hne
  subst hanim htimers
  have hab : a ≠ b := getElementById_ne hga hgb (Ne.symm hne)
  have hba : b ≠ a := Ne.symm hab
  have hna := isSection_not_navBtn ea hsa
  have hnb := isSection_not_navBtn eb hsb
  let s1 : State :=
    { currentSection := cur, isAnimating := true,
      document := updateElement doc a (fun e => e.addClass "section-exit"), now := now,
      timers := [{ delay := 300, due := now + 300, callback := .switchSections a (some b) B }] }
  let s2 : State :=
    (runCallback { s1 with now := max now (now + 300), timers := [] }
      (.switchSections a (some b) B)).state
  let s3 : State :=
    (runCallback { s2 with now := max s2.now (now + 300 + 500), timers := [] }
      (.finishEntrance b)).state
  have h1 : navigateToSection
      { currentSection := cur, isAnimating := false, document := doc, now := now, timers := [] } B
      = { state := s1, thrown := none } :=
    navigateToSection_start _ B a (some b) rfl hne hga hgb
  have ht2 : s2.timers = [{ delay := 500, due := now + 300 + 500, callback := .finishEntrance b }] := by
    simp [s2, s1, runCallback, setTimeout]
  have h2 : fireNextTimer s1 = some { state := s2, thrown := none } :=
    fireNextTimer_singleton s1 _ rfl
  have h3 : fireNextTimer s2 = some { state := s3, thrown := none } :=
    fireNextTimer_singleton s2 _ ht2
  have hdoc3 : ∀ j : Nat, s3.document[j]? =
      Option.map (fun e => if j = b then e.removeClasses ["section-enter"] else e)
        (Option.map
          (fun btn =>
            if btn.isNavBtn = true then
              if btn.dataSection = some B then btn.addClass "active"
              else btn.removeClasses ["active"]
            else btn)
          (Option.map (fun e => if j = b then e.addClass "section-enter" else e)
            (Option.map (fun e => if j = b then e.addClass "active" else e)
              (Option.map (fun e => if j = a then e.removeClasses ["active", "section-exit"] else e)
                (Option.map (fun e => if j = a then e.addClass "section-exit" else e)
                  doc[j]?))))) := by
    intro j
    simp only [s3, s2, s1, runCallback, setTimeout, getElem?_updateElement,
      getElem?_updateActiveNavigation]
  have hb3 : s3.document[b]? = some
      (((eb.addClass "active").addClass "section-enter").removeClasses ["section-enter"]) := by
    rw [hdoc3, heb]
    simp [hba, isNavBtn_addClass, hnb]
  have ha3 : s3.document[a]? = some
      ((ea.addClass "section-exit").removeClasses ["active", "section-exit"]) := by
    rw [hdoc3, hea]
    simp [hab, isNavBtn_addClass, isNavBtn_removeClasses, hna]
  refine ⟨s1, s2, s3, _, _, h1, rfl, rfl, h2, ht2, rfl, h3, rfl, ?_, rfl, rfl, ?_, ?_, ?_, ?_,
    ?_⟩
  · simp only [s3, s2, runCallback, setTimeout]
    omega
  · rw [classesAt_of_getElem? hb3]
    simp
  · rw [classesAt_of_getElem? ha3]
    simp
  · rw [classesAt_of_getElem? ha3]
    simp
  · rw [classesAt_of_getElem? hb3]
    simp
  · intro btn hmem hnav
    obtain ⟨j, hj⟩ := List.mem_iff_getElem?.mp hmem
    rw [hdoc3] at hj
    cases hd : doc[j]? with
    | none => simp [hd] at hj
    | some e =>
      rw [hd] at hj
      simp only [Option.map_some', Option.some.injEq] at hj
      by_cases hja : j = a
      · subst hja
        rw [hea] at hd
        cases hd
        subst hj
        simp [hab, isNavBtn_addClass, isNavBtn_removeClasses, hna] at hnav
      · by_cases hjb : j = b
        · subst hjb
          rw [heb] at hd
          cases hd
          subst hj
          simp [hja, isNavBtn_addClass, isNavBtn_removeClasses, hnb] at hnav
        · simp only [hja, hjb, if_false] at hj
          subst hj
          by_cases hn : e.isNavBtn = true
          · by_cases hds : e.dataSection = some B <;> simp [hn, hds]
          · simp [hn] at hnav

theorem frame_map_fst (doc : List Element) :
    (frame doc).map Prod.fst = doc.map (fun e => e.id) := by
  simp [frame, Function.comp_def]

theorem frame_getElem? (doc : List Element) (i : Nat) :
    (frame doc)[i]? = (doc[i]?).map (fun e => (e.id, e.isSection)) := by
  simp [frame]

theorem frame_length {d1 d2 : List Element} (h : frame d1 = frame d2) :
    d1.length = d2.length := by
  have := congrArg List.length h
  simpa [frame] using this

theorem frame_updateElement (doc : List Element) (i : Nat) (f : Element → Element)
    (hid : ∀ e, (f e).id = e.id) (hsec : ∀ e, (f e).isSection = e.isSection) :
    frame (updateElement doc i f) = frame doc := by
  apply List.ext_getElem?
  intro j
  simp only [frame_getElem?, getElem?_updateElement]
  cases doc[j]? with
  | none => rfl
  | some e =>
    by_cases h : j = i <;> simp [h, hid, hsec]

theorem isSection_navUpdate (e : Element) (key : String) :
    (if e.isNavBtn = true then
      if e.dataSection = some key then e.addClass "active" else e.removeClasses ["active"]
     else e).isSection = e.isSection := by
  by_cases h1 : e.isNavBtn = true
  · by_cases h2 : e.dataSection = some key
    · simp only [h1, h2, if_true]
      exact isSection_addClass e "active" (by decide) (by decide)
    · simp only [h1, h2, if_true, if_false]
      exact isSection_removeClasses e ["active"] (by decide) (by decide)
  · simp [h1]

theorem frame_updateActiveNavigation (doc : List Element) (key : String) :
    frame (updateActiveNavigation doc key) = frame doc := by
  apply List.ext_getElem?
  intro j
  simp only [frame_getElem?, getElem?_updateActiveNavigation]
  cases doc[j]? with
  | none => rfl
  | some e =>
    have h := isSection_navUpdate e key
    by_cases h1 : e.isNavBtn = true <;> by_cases h2 : e.dataSection = some key <;>
      simp [h1, h2] at h ⊢ <;> exact h

theorem getElementById_of_frame {d1 d2 : List Element} (h : frame d1 = frame d2)
    (key : String) : getElementById d1 key = getElementById d2 key := by
  apply getElementById_congr
  rw [← frame_map_fst, ← frame_map_fst, h]

theorem IsSectionAt_of_frame {d1 d2 : List Element} (h : frame d1 = frame d2)
    {key : String} {i : Nat} (hs : IsSectionAt d1 key i) : IsSectionAt d2 key i := by
  obtain ⟨hg, e, he, hsec⟩ := hs
  refine ⟨by rw [← getElementById_of_frame h]; exact hg, ?_⟩
  have h1 := frame_getElem? d1 i
  rw [h, frame_getElem? d2 i, he] at h1
  cases hd : d2[i]? with
  | none => simp [hd] at h1
  | some e2 =>
    refine ⟨e2, rfl, ?_⟩
    simp [hd] at h1
    rw [h1.2]
    exact hsec

theorem sectionActiveAt_updateElement (doc : List Element) (i j : Nat) (f : Element → Element) :
    sectionActiveAt (updateElement doc i f) j =
      if j = i then
        (match doc[i]? with
         | some e => (f e).isSection && decide ("active" ∈ (f e).classList)
         | none => false)
      else sectionActiveAt doc j := by
  unfold sectionActiveAt
  rw [getElem?_updateElement]
  by_cases h : j = i
  · subst h
    cases doc[j]? <;> simp
  · cases doc[j]? <;> simp [h]

theorem sectionActiveAt_updateElement_same (doc : List Element) (i j : Nat)
    (f : Element → Element) (hsec : ∀ e, (f e).isSection = e.isSection)
    (hact : ∀ e, "active" ∈ (f e).classList ↔ "active" ∈ e.classList) :
    sectionActiveAt (updateElement doc i f) j = sectionActiveAt doc j := by
  rw [sectionActiveAt_updateElement]
  by_cases h : j = i
  · subst h
    unfold sectionActiveAt
    cases doc[j]? <;> simp [hsec, hact]
  · simp [h]

theorem sectionActiveAt_updateActiveNavigation (doc : List Element) (key : String) (j : Nat) :
    sectionActiveAt (updateActiveNavigation doc key) j = sectionActiveAt doc j := by
  unfold sectionActiveAt
  rw [getElem?_updateActiveNavigation]
  cases doc[j]? with
  | none => rfl
  | some e =>
    simp only [Option.map_some']
    by_cases h1 : e.isNavBtn = true
    · have hs : e.isSection = false := by simp [Element.isSection, h1]
      have := isSection_navUpdate e key
      simp only [h1, if_true] at this ⊢
      rw [this, hs]
      simp
    · simp [h1]

theorem exactlyOneActive_iff (s : State) :
    ExactlyOneActive s ↔ ∃ i, getElementById s.document s.currentSection = some i ∧
      ∀ j, j < s.document.length → (sectionActiveAt s.document j = true ↔ j = i) := by
  unfold ExactlyOneActive
  cases getElementById s.document s.currentSection with
  | none => simp
  | some i => simp

theorem navInvariant_navigate (doc0 : List Element) (s : State) (target : String)
    (hinv : NavInvariant doc0 s) (ht : ∃ i, IsSectionAt doc0 target i) :
    NavInvariant doc0 (navigateToSection s target).state := by
  by_cases hguard : s.isAnimating = true ∨ target = s.currentSection
  · rw [navigateToSection_noop s target hguard]
    exact hinv
  · have hanim : s.isAnimating = false := by
      cases h : s.isAnimating
      · rfl
      · exact absurd (Or.inl h) hguard
    have hne : target ≠ s.currentSection := fun h => hguard (Or.inr h)
    obtain ⟨hframe, hone, htim⟩ := hinv
    obtain ⟨c, hc, hact⟩ := (exactlyOneActive_iff s).mp hone
    obtain ⟨i, hi⟩ := ht
    have hi' : IsSectionAt s.document target i := IsSectionAt_of_frame hframe.symm hi
    rw [navigateToSection_start s target c (some i) hanim hne hc hi'.1]
    have hfr : frame (updateElement s.document c (fun e => e.addClass "section-exit"))
        = frame s.document :=
      frame_updateElement _ _ _ (fun _ => rfl)
        (fun e => isSection_addClass e _ (by decide) (by decide))
    have htimers : s.timers = [] := by
      rcases htim with h | h | h
      · exact h.2
      · rw [hanim] at h
        cases h.1
      · rw [hanim] at h
        cases h.1
    refine ⟨hfr.trans hframe, ?_, Or.inr (Or.inl ⟨rfl, c, i, target, 300, s.now + 300, ?_, ?_,
      IsSectionAt_of_frame hfr.symm hi', hne⟩)⟩
    · rw [exactlyOneActive_iff]
      refine ⟨c, ?_, ?_⟩
      · simp only
        rw [getElementById_of_frame hfr]
        exact hc
      · intro j hj
        simp only [length_updateElement] at hj
        simp only
        rw [sectionActiveAt_updateElement_same _ _ _ _
          (fun e => isSection_addClass e _ (by decide) (by decide)) (fun e => by simp)]
        exact hact j hj
    · simp [htimers]
    · simp only
      rw [getElementById_of_frame hfr]
      exact hc

theorem navInvariant_timer (doc0 : List Element) (s : State) (hinv : NavInvariant doc0 s) :
    NavInvariant doc0 (step s .timerFires) := by
  obtain ⟨hframe, hone, htim⟩ := hinv
  obtain ⟨c0, hc0, hact⟩ := (exactlyOneActive_iff s).mp hone
  rcases htim with ⟨hanim, htimers⟩ | ⟨hanim, c, t, key, delay, due, htimers, hc, hkey, hne⟩ |
    ⟨hanim, t, delay, due, htimers⟩
  · have : fireNextTimer s = none := by simp [fireNextTimer, htimers, nextTimer]
    simp only [step, this]
    exact ⟨hframe, hone, Or.inl ⟨hanim, htimers⟩⟩
  · simp only [step, fireNextTimer_singleton s _ htimers, runCallback, setTimeout]
    obtain ⟨hgt, et, het, hsect⟩ := hkey
    have hcc : c0 = c := by
      rw [hc0] at hc
      exact Option.some.inj hc
    subst hcc
    have htc : t ≠ c0 := getElementById_ne hgt hc0 hne
    have hf1 : frame (updateElement s.document c0
        (fun e => e.removeClasses ["active", "section-exit"])) = frame s.document :=
      frame_updateElement _ _ _ (fun _ => rfl)
        (fun e => isSection_removeClasses e _ (by decide) (by decide))
    have hf2 : ∀ d : List Element, frame (updateElement d t (fun e => e.addClass "active"))
        = frame d := fun d =>
      frame_updateElement _ _ _ (fun _ => rfl)
        (fun e => isSection_addClass e _ (by decide) (by decide))
    have hf3 : ∀ d : List Element, frame (updateElement d t (fun e => e.addClass "section-enter"))
        = frame d := fun d =>
      frame_updateElement _ _ _ (fun _ => rfl)
        (fun e => isSection_addClass e _ (by decide) (by decide))
    have hfr := (frame_updateActiveNavigation _ key).trans
      ((hf3 _).trans ((hf2 _).trans hf1))
    refine ⟨hfr.trans hframe, ?_, Or.inr (Or.inr ⟨hanim, t, 500, _, rfl⟩)⟩
    rw [exactlyOneActive_iff]
    refine ⟨t, ?_, ?_⟩
    · simp only
      rw [getElementById_of_frame hfr]
      exact hgt
    · intro j hj
      simp only [length_updateActiveNavigation, length_updateElement] at hj
      simp only
      rw [sectionActiveAt_updateActiveNavigation,
        sectionActiveAt_updateElement_same _ _ _ _
          (fun e => isSection_addClass e _ (by decide) (by decide)) (fun e => by simp),
        sectionActiveAt_updateElement]
      by_cases hjt : j = t
      · subst hjt
        simp only [if_true, getElem?_updateElement, het, Option.map_some', htc, if_false]
        simp [isSection_addClass, hsect]
      · simp only [hjt, if_false]
        rw [sectionActiveAt_updateElement]
        by_cases hjc : j = c0
        · subst hjc
          simp only [if_true]
          cases s.document[j]? <;> simp
        · simp only [hjc, if_false]
          have := hact j hj
          simp only [hjc, iff_false] at this
          simp [this]
  · simp only [step, fireNextTimer_singleton s _ htimers, runCallback]
    have hfr : frame (updateElement s.document t
        (fun e => e.removeClasses ["section-enter"])) = frame s.document :=
      frame_updateElement _ _ _ (fun _ => rfl)
        (fun e => isSection_removeClasses e _ (by decide) (by decide))
    refine ⟨hfr.trans hframe, ?_, Or.inl ⟨rfl, rfl⟩⟩
    rw [exactlyOneActive_iff]
    refine ⟨c0, ?_, ?_⟩
    · simp only
      rw [getElementById_of_frame hfr]
      exact hc0
    · intro j hj
      simp only [length_updateElement] at hj
      simp only
      rw [sectionActiveAt_updateElement_same _ _ _ _
        (fun e => isSection_removeClasses e _ (by decide) (by decide)) (fun e => by simp)]
      exact hact j hj

theorem navInvariant_runEvents (doc0 : List Element) (events : List Event) :
    ∀ s : State, NavInvariant doc0 s →
      (∀ t ∈ navigationTargets events, ∃ i, IsSectionAt doc0 t i) →
      NavInvariant doc0 (runEvents s events) := by
  induction events with
  | nil => intro s h _; exact h
  | cons ev evs ih =>
    intro s h ht
    unfold runEvents
    rw [List.foldl_cons]
    cases ev with
    | navigate target =>
      apply ih
      · exact navInvariant_navigate doc0 s target h
          (ht target (by simp [navigationTargets]))
      · intro t hmem
        exact ht t (by simp [navigationTargets, hmem])
    | timerFires =>
      apply ih
      · exact navInvariant_timer doc0 s h
      · intro t hmem
        exact ht t (by simpa [navigationTargets] using hmem)

/-- C4, as stated, fails: on a document with the sections `home` (active) and
`about`, the call `navigateToSection('bogus')` followed by its 300 ms step
leaves no section active (the step throws after deactivating `home`). -/
theorem one_active_fails_on_unknown_target :
    ExactlyOneActive (initialState
      [⟨"home", ["section", "active"], none⟩, ⟨"about", ["section"], none⟩]) ∧
    ¬ ExactlyOneActive (runEvents (initialState
        [⟨"home", ["section", "active"], none⟩, ⟨"about", ["section"], none⟩])
      [.navigate "bogus", .timerFires]) ∧
    (runEvents (initialState
        [⟨"home", ["section", "active"], none⟩, ⟨"about", ["section"], none⟩])
      [.navigate "bogus", .timerFires]).document =
      [⟨"home", ["section"], none⟩, ⟨"about", ["section"], none⟩] := by
  decide

/-- C4 (amended): start from the initial state on a document in which exactly
one section panel is active and it is `home`.  After any sequence of
`navigateToSection` calls whose targets each name a section panel of the
document, interleaved in any way with the firing of the pending timers, exactly
one section panel carries `active` and it is the one `currentSection` names. -/
theorem one_active_reachable (doc : List Element) (events : List Event)
    (h0 : ExactlyOneActive (initialState doc))
    (hev : ∀ t ∈ navigationTargets events, ∃ i, IsSectionAt doc t i) :
    ExactlyOneActive (runEvents (initialState doc) events) :=
  (navInvariant_runEvents doc events (initialState doc)
    ⟨rfl, h0, Or.inl ⟨rfl, rfl⟩⟩ hev).2.1

/-! ### Doubles -/

theorem log2Aux_eq (fuel n acc : Nat) (h : n ≤ fuel) :
    log2Aux fuel n acc = acc + Nat.log2 n := by
  induction fuel generalizing n acc with
  | zero =>
    have : n = 0 := by omega
    subst this
    simp [log2Aux, Nat.log2]
  | succ k ih =>
    unfold log2Aux
    rw [Nat.log2]
    split_ifs with h2
    · rw [ih _ _ (by omega)]
      omega
    · rfl

theorem binaryLog_eq (n : Nat) : binaryLog n = Nat.log2 n := by
  unfold binaryLog
  rw [log2Aux_eq n n 0 le_rfl, Nat.zero_add]

theorem gridExponent_eq (q : ℚ) : gridExponent q = Nat.log2 ⌊|q| * 2 ^ 1074⌋₊ - 52 := by
  unfold gridExponent
  rw [binaryLog_eq]


theorem abs_sub_roundHalfEven (y : ℚ) : |y - roundHalfEven y| ≤ 1 / 2 := by
  have h1 := Int.floor_le y
  have h2 := Int.lt_floor_add_one y
  unfold roundHalfEven
  split_ifs with ha hb hc
  · rw [abs_le]; constructor <;> linarith
  · rw [abs_le]; push_cast; constructor <;> linarith
  · rw [abs_le]; constructor <;> linarith
  · rw [abs_le]; push_cast; constructor <;> linarith

theorem roundHalfEven_nearest (y : ℚ) (k : ℤ) : |y - roundHalfEven y| ≤ |y - k| := by
  have h := abs_sub_roundHalfEven y
  by_cases hk : k = roundHalfEven y
  · rw [hk]
  · have h1 : (1 : ℚ) ≤ |(k : ℚ) - roundHalfEven y| := by
      have : (1 : ℤ) ≤ |k - roundHalfEven y| := Int.one_le_abs (sub_ne_zero.mpr hk)
      have h2 : ((1 : ℤ) : ℚ) ≤ ((|k - roundHalfEven y| : ℤ) : ℚ) := by exact_mod_cast this
      simpa using h2
    have h3 : |(k : ℚ) - roundHalfEven y| ≤ |y - k| + |y - roundHalfEven y| := by
      have : (k : ℚ) - roundHalfEven y = (y - roundHalfEven y) - (y - k) := by ring
      rw [this]
      calc |(y - ↑(roundHalfEven y)) - (y - ↑k)| ≤ |y - ↑(roundHalfEven y)| + |y - ↑k| := abs_sub _ _
        _ = |y - ↑k| + |y - ↑(roundHalfEven y)| := by ring
    linarith

theorem roundHalfEven_intCast (k : ℤ) : roundHalfEven (k : ℚ) = k := by
  unfold roundHalfEven
  simp


theorem scaled_abs_lt (q : ℚ) :
    |q * 2 ^ 1074 / 2 ^ gridExponent q| < 2 ^ 53 := by
  have hA := Nat.lt_log2_self (n := ⌊|q| * 2 ^ 1074⌋₊)
  have hnn : (0 : ℚ) ≤ |q| * 2 ^ 1074 := by positivity
  have h1 : |q| * 2 ^ 1074 < (⌊|q| * 2 ^ 1074⌋₊ : ℚ) + 1 := Nat.lt_floor_add_one _
  have h2 : ((⌊|q| * 2 ^ 1074⌋₊ : ℕ) : ℚ) + 1 ≤ ((2 ^ (Nat.log2 ⌊|q| * 2 ^ 1074⌋₊ + 1) : ℕ) : ℚ) := by
    exact_mod_cast hA
  have h3 : (2 : ℕ) ^ (Nat.log2 ⌊|q| * 2 ^ 1074⌋₊ + 1) ≤ 2 ^ (53 + gridExponent q) := by
    apply Nat.pow_le_pow_right (by norm_num)
    rw [gridExponent_eq]
    omega
  have h4 : ((2 ^ (Nat.log2 ⌊|q| * 2 ^ 1074⌋₊ + 1) : ℕ) : ℚ) ≤ ((2 ^ (53 + gridExponent q) : ℕ) : ℚ) := by
    exact_mod_cast h3
  have hpos : (0 : ℚ) < 2 ^ gridExponent q := by positivity
  rw [abs_div, abs_mul, abs_of_pos hpos, abs_of_pos (by positivity : (0 : ℚ) < 2 ^ 1074),
    div_lt_iff₀ hpos]
  have h5 : ((2 ^ (53 + gridExponent q) : ℕ) : ℚ) = 2 ^ 53 * 2 ^ gridExponent q := by
    push_cast
    rw [pow_add]
  linarith

theorem scaled_abs_ge (q : ℚ) (hj : 1 ≤ gridExponent q) :
    2 ^ 52 ≤ |q * 2 ^ 1074 / 2 ^ gridExponent q| := by
  have hnn : (0 : ℚ) ≤ |q| * 2 ^ 1074 := by positivity
  have hL : 53 ≤ Nat.log2 ⌊|q| * 2 ^ 1074⌋₊ := by
    rw [gridExponent_eq] at hj
    omega
  have hA0 : ⌊|q| * 2 ^ 1074⌋₊ ≠ 0 := by
    intro h0
    rw [h0, Nat.log2_zero] at hL
    omega
  have h1 := Nat.log2_self_le hA0
  have h2 : ((2 ^ Nat.log2 ⌊|q| * 2 ^ 1074⌋₊ : ℕ) : ℚ) ≤ (⌊|q| * 2 ^ 1074⌋₊ : ℚ) := by
    exact_mod_cast h1
  have h3 : (⌊|q| * 2 ^ 1074⌋₊ : ℚ) ≤ |q| * 2 ^ 1074 := Nat.floor_le hnn
  have h4 : Nat.log2 ⌊|q| * 2 ^ 1074⌋₊ = 52 + gridExponent q := by
    rw [gridExponent_eq]
    omega
  have hpos : (0 : ℚ) < 2 ^ gridExponent q := by positivity
  rw [abs_div, abs_mul, abs_of_pos hpos, abs_of_pos (by positivity : (0 : ℚ) < 2 ^ 1074),
    le_div_iff₀ hpos]
  have h5 : ((2 ^ Nat.log2 ⌊|q| * 2 ^ 1074⌋₊ : ℕ) : ℚ) = 2 ^ 52 * 2 ^ gridExponent q := by
    rw [h4]
    push_cast
    rw [pow_add]
  linarith

theorem abs_roundHalfEven_le (y : ℚ) (k : ℤ) (h : |y| ≤ k) : |roundHalfEven y| ≤ k := by
  have hk := roundHalfEven_nearest y
  rw [abs_le] at h ⊢
  have h1 := hk k
  have h2 := hk (-k)
  have h0 := abs_sub_roundHalfEven y
  constructor
  · by_contra hc
    have hlt : roundHalfEven y < -k := not_le.mp hc
    have : (roundHalfEven y : ℚ) ≤ -k - 1 := by
      have : roundHalfEven y ≤ -k - 1 := by omega
      exact_mod_cast this
    have h3 : |y - ((-k : ℤ) : ℚ)| < |y - roundHalfEven y| := by
      rw [abs_of_nonneg (by push_cast; linarith), abs_of_nonneg (by linarith)]
      push_cast
      linarith
    linarith
  · by_contra hc
    have hlt : k < roundHalfEven y := not_le.mp hc
    have : (k : ℚ) + 1 ≤ roundHalfEven y := by
      have : k + 1 ≤ roundHalfEven y := by omega
      exact_mod_cast this
    have h3 : |y - (k : ℚ)| < |y - roundHalfEven y| := by
      rw [abs_of_nonpos (by linarith), abs_of_nonpos (by linarith)]
      linarith
    linarith

theorem roundToGrid_form (q : ℚ) :
    |roundHalfEven (q * 2 ^ 1074 / 2 ^ gridExponent q)| ≤ 2 ^ 53 ∧
    roundToGrid q * 2 ^ 1074 =
      roundHalfEven (q * 2 ^ 1074 / 2 ^ gridExponent q) * 2 ^ gridExponent q := by
  constructor
  · have h := scaled_abs_lt q
    have := abs_roundHalfEven_le (q * 2 ^ 1074 / 2 ^ gridExponent q) (2 ^ 53)
      (by push_cast; exact le_of_lt h)
    exact this
  · unfold roundToGrid
    field_simp

theorem onGrid_of_le (n : ℤ) (j : ℕ) (q : ℚ) (hn : |n| ≤ 2 ^ 53)
    (hq : q * 2 ^ 1074 = n * 2 ^ j) : OnGrid q := by
  by_cases h : |n| < 2 ^ 53
  · exact ⟨n, j, h, hq⟩
  · have heq : |n| = 2 ^ 53 := le_antisymm hn (not_lt.mp h)
    have hcases : n = 2 ^ 53 ∨ n = -2 ^ 53 := by
      rcases abs_cases n with ⟨h1, _⟩ | ⟨h1, _⟩ <;> rw [h1] at heq
      · exact Or.inl heq
      · exact Or.inr (by omega)
    rcases hcases with rfl | rfl
    · refine ⟨2 ^ 52, j + 1, by norm_num, ?_⟩
      rw [hq, pow_succ]
      push_cast
      ring
    · refine ⟨-2 ^ 52, j + 1, by norm_num, ?_⟩
      rw [hq, pow_succ]
      push_cast
      ring

theorem onGrid_roundToGrid (q : ℚ) : OnGrid (roundToGrid q) :=
  onGrid_of_le _ _ _ (roundToGrid_form q).1 (roundToGrid_form q).2

theorem abs_intCast_lt (m : ℤ) (h : |m| < 2 ^ 53) : |(m : ℚ)| < 2 ^ 53 := by
  have h1 : ((|m| : ℤ) : ℚ) < (((2 : ℤ) ^ 53 : ℤ) : ℚ) := Int.cast_lt.mpr h
  rw [Int.cast_abs, Int.cast_pow] at h1
  exact_mod_cast h1

theorem nearest_outside (y z : ℚ) (hy : 2 ^ 52 ≤ |y|) (hz : |z| < 2 ^ 52) :
    |y - roundHalfEven y| ≤ |y - z| := by
  have hc : (((2 : ℤ) ^ 52 : ℤ) : ℚ) = 2 ^ 52 := by rw [Int.cast_pow]; norm_cast
  have h1 := roundHalfEven_nearest y ((2 : ℤ) ^ 52)
  have h2 := roundHalfEven_nearest y (-(2 : ℤ) ^ 52)
  rw [Int.cast_neg] at h2
  rw [hc] at h1 h2
  rw [abs_lt] at hz
  rcases le_abs'.mp hy with hneg | hpos
  · rw [abs_of_nonpos (a := y - -2 ^ 52) (by linarith)] at h2
    rw [abs_of_nonpos (a := y - z) (by linarith)]
    linarith
  · rw [abs_of_nonneg (a := y - 2 ^ 52) (by linarith)] at h1
    rw [abs_of_nonneg (a := y - z) (by linarith)]
    linarith

theorem roundToGrid_nearest (q d : ℚ) (hd : OnGrid d) :
    |q - roundToGrid q| ≤ |q - d| := by
  obtain ⟨m, i, hm, hdm⟩ := hd
  have hs : (0 : ℚ) < 2 ^ 1074 := by positivity
  have hu : (0 : ℚ) < 2 ^ gridExponent q := by positivity
  have key : |q * 2 ^ 1074 / 2 ^ gridExponent q -
      roundHalfEven (q * 2 ^ 1074 / 2 ^ gridExponent q)| ≤
      |q * 2 ^ 1074 / 2 ^ gridExponent q - m * 2 ^ i / 2 ^ gridExponent q| := by
    by_cases hij : gridExponent q ≤ i
    · obtain ⟨k, hk⟩ : ∃ k, i = gridExponent q + k := ⟨i - gridExponent q, by omega⟩
      have e : (m : ℚ) * 2 ^ i / 2 ^ gridExponent q = ((m * 2 ^ k : ℤ) : ℚ) := by
        rw [hk, pow_add, Int.cast_mul, Int.cast_pow]
        field_simp
        ring
      rw [e]
      exact roundHalfEven_nearest _ _
    · have hij' : i < gridExponent q := not_le.mp hij
      have hge := scaled_abs_ge q (by omega)
      have hz : |(m : ℚ) * 2 ^ i / 2 ^ gridExponent q| < 2 ^ 52 := by
        rw [abs_div, abs_mul, abs_of_pos hu, abs_of_pos (by positivity : (0 : ℚ) < 2 ^ i),
          div_lt_iff₀ hu]
        have hm' := abs_intCast_lt m hm
        have hpow : (2 : ℚ) ^ i * 2 ≤ 2 ^ gridExponent q := by
          rw [← pow_succ]
          exact pow_le_pow_right₀ (by norm_num) (by omega)
        have hi : (0 : ℚ) < 2 ^ i := by positivity
        calc |(m : ℚ)| * 2 ^ i < 2 ^ 53 * 2 ^ i := by
              exact mul_lt_mul_of_pos_right hm' hi
          _ = 2 ^ 52 * (2 ^ i * 2) := by ring
          _ ≤ 2 ^ 52 * 2 ^ gridExponent q := by
              exact mul_le_mul_of_nonneg_left hpow (by positivity)
      exact nearest_outside _ _ hge hz
  have hc : (0 : ℚ) < 2 ^ gridExponent q / 2 ^ 1074 := by positivity
  have e1 : q - roundToGrid q = (q * 2 ^ 1074 / 2 ^ gridExponent q -
      roundHalfEven (q * 2 ^ 1074 / 2 ^ gridExponent q)) * (2 ^ gridExponent q / 2 ^ 1074) := by
    unfold roundToGrid
    field_simp
    ring
  have e2 : q - d = (q * 2 ^ 1074 / 2 ^ gridExponent q - m * 2 ^ i / 2 ^ gridExponent q) *
      (2 ^ gridExponent q / 2 ^ 1074) := by
    have : d = m * 2 ^ i / 2 ^ 1074 := by
      rw [eq_div_iff (ne_of_gt hs)]
      exact hdm
    rw [this]
    field_simp
  rw [e1, e2, abs_mul, abs_mul, abs_of_pos hc]
  exact mul_le_mul_of_nonneg_right key (le_of_lt hc)

theorem roundToGrid_of_onGrid (d : ℚ) (hd : OnGrid d) : roundToGrid d = d := by
  have h := roundToGrid_nearest d d hd
  rw [sub_self, abs_zero] at h
  have := abs_nonneg (d - roundToGrid d)
  have h0 : |d - roundToGrid d| = 0 := le_antisymm h this
  rw [abs_eq_zero] at h0
  linarith

theorem roundToGrid_mono (x y : ℚ) (hxy : x ≤ y) : roundToGrid x ≤ roundToGrid y := by
  by_contra hc
  have hlt : roundToGrid y < roundToGrid x := not_le.mp hc
  have h1 := roundToGrid_nearest x (roundToGrid y) (onGrid_roundToGrid y)
  have h2 := roundToGrid_nearest y (roundToGrid x) (onGrid_roundToGrid x)
  -- x is at least the midpoint, y at most the midpoint
  have hx : roundToGrid x + roundToGrid y ≤ 2 * x := by
    by_contra hcx
    have hcx' : 2 * x < roundToGrid x + roundToGrid y := not_le.mp hcx
    have : |x - roundToGrid y| < |x - roundToGrid x| := by
      rw [abs_lt]
      constructor
      · rcases abs_cases (x - roundToGrid x) with ⟨h, _⟩ | ⟨h, _⟩ <;> rw [h] <;> linarith
      · rcases abs_cases (x - roundToGrid x) with ⟨h, _⟩ | ⟨h, _⟩ <;> rw [h] <;> linarith
    linarith
  have hy : 2 * y ≤ roundToGrid x + roundToGrid y := by
    by_contra hcy
    have hcy' : roundToGrid x + roundToGrid y < 2 * y := not_le.mp hcy
    have : |y - roundToGrid x| < |y - roundToGrid y| := by
      rw [abs_lt]
      constructor
      · rcases abs_cases (y - roundToGrid y) with ⟨h, _⟩ | ⟨h, _⟩ <;> rw [h] <;> linarith
      · rcases abs_cases (y - roundToGrid y) with ⟨h, _⟩ | ⟨h, _⟩ <;> rw [h] <;> linarith
    linarith
  have hxy' : x = y := by linarith
  rw [hxy'] at hlt
  exact lt_irrefl _ hlt

theorem roundToGrid_le (x c : ℚ) (hc : OnGrid c) (h : x ≤ c) : roundToGrid x ≤ c := by
  have := roundToGrid_mono x c h
  rwa [roundToGrid_of_onGrid c hc] at this

theorem le_roundToGrid (x c : ℚ) (hc : OnGrid c) (h : c ≤ x) : c ≤ roundToGrid x := by
  have := roundToGrid_mono c x h
  rwa [roundToGrid_of_onGrid c hc] at this


theorem roundDouble_eq_fin_iff (q r : ℚ) :
    roundDouble q = .fin r ↔ roundToGrid q = r ∧ |r| < 2 ^ 1024 := by
  unfold roundDouble
  constructor
  · intro h
    split_ifs at h with h1 h2
    simp only [JsNumber.fin.injEq] at h
    subst h
    refine ⟨rfl, ?_⟩
    rw [abs_lt]
    exact ⟨not_le.mp h2, not_le.mp h1⟩
  · rintro ⟨rfl, hb⟩
    rw [abs_lt] at hb
    rw [if_neg (not_le.mpr hb.2), if_neg (not_le.mpr hb.1)]

theorem isDouble_iff (q : ℚ) : IsDouble q ↔ OnGrid q ∧ |q| < 2 ^ 1024 := by
  unfold IsDouble
  rw [roundDouble_eq_fin_iff]
  constructor
  · rintro ⟨h, hb⟩
    exact ⟨h ▸ onGrid_roundToGrid q, hb⟩
  · rintro ⟨h, hb⟩
    exact ⟨roundToGrid_of_onGrid q h, hb⟩

theorem IsDouble.onGrid {q : ℚ} (h : IsDouble q) : OnGrid q := ((isDouble_iff q).mp h).1

theorem IsDouble.abs_lt {q : ℚ} (h : IsDouble q) : |q| < 2 ^ 1024 := ((isDouble_iff q).mp h).2

theorem roundDouble_of_isDouble {q : ℚ} (h : IsDouble q) : roundDouble q = .fin q := h

theorem isDouble_of_roundDouble {q r : ℚ} (h : roundDouble q = .fin r) : IsDouble r := by
  obtain ⟨h1, h2⟩ := (roundDouble_eq_fin_iff q r).mp h
  exact (isDouble_iff r).mpr ⟨h1 ▸ onGrid_roundToGrid q, h2⟩

theorem onGrid_intCast (n : ℤ) (h : |n| ≤ 2 ^ 53) : OnGrid (n : ℚ) :=
  onGrid_of_le n 1074 n h rfl

theorem isDouble_intCast (n : ℤ) (h : |n| ≤ 2 ^ 53) : IsDouble (n : ℚ) := by
  rw [isDouble_iff]
  refine ⟨onGrid_intCast n h, ?_⟩
  have h1 : |(n : ℚ)| ≤ 2 ^ 53 := by
    have : ((|n| : ℤ) : ℚ) ≤ (((2 : ℤ) ^ 53 : ℤ) : ℚ) := Int.cast_le.mpr h
    rw [Int.cast_abs, Int.cast_pow] at this
    exact_mod_cast this
  calc |(n : ℚ)| ≤ 2 ^ 53 := h1
    _ < 2 ^ 1024 := by
      exact pow_lt_pow_right₀ (by norm_num) (by norm_num)

theorem isDouble_zero : IsDouble 0 := by
  have := isDouble_intCast 0 (by norm_num)
  simpa using this

theorem isDouble_one : IsDouble 1 := by
  have := isDouble_intCast 1 (by norm_num)
  simpa using this

theorem isDouble_natCast (n : ℕ) (h : n ≤ 2 ^ 53) : IsDouble (n : ℚ) := by
  have := isDouble_intCast (n : ℤ) (by rw [abs_of_nonneg (by positivity)]; exact_mod_cast h)
  simpa using this

theorem onGrid_zero : OnGrid 0 := ⟨0, 0, by norm_num, by norm_num⟩

theorem roundToGrid_zero : roundToGrid 0 = 0 := roundToGrid_of_onGrid 0 onGrid_zero

theorem roundToGrid_nonneg (x : ℚ) (h : 0 ≤ x) : 0 ≤ roundToGrid x :=
  le_roundToGrid x 0 onGrid_zero h

theorem roundToGrid_nonpos (x : ℚ) (h : x ≤ 0) : roundToGrid x ≤ 0 :=
  roundToGrid_le x 0 onGrid_zero h

theorem onGrid_neg (q : ℚ) (h : OnGrid q) : OnGrid (-q) := by
  obtain ⟨m, j, hm, hq⟩ := h
  refine ⟨-m, j, by rwa [abs_neg], ?_⟩
  rw [neg_mul, hq]
  push_cast
  ring

theorem isDouble_neg (q : ℚ) (h : IsDouble q) : IsDouble (-q) := by
  rw [isDouble_iff] at h ⊢
  exact ⟨onGrid_neg q h.1, by rw [abs_neg]; exact h.2⟩

theorem onGrid_scaled_int (q : ℚ) (h : OnGrid q) : ∃ z : ℤ, q * 2 ^ 1074 = z := by
  obtain ⟨m, j, _, hq⟩ := h
  exact ⟨m * 2 ^ j, by rw [hq]; push_cast; ring⟩

theorem onGrid_tiny : OnGrid (1 / 2 ^ 1074) := ⟨1, 0, by norm_num, by norm_num⟩

/-- Two doubles that differ, differ by at least the smallest positive double. -/
theorem tiny_le_sub (a b : ℚ) (ha : OnGrid a) (hb : OnGrid b) (h : b < a) :
    1 / 2 ^ 1074 ≤ a - b := by
  obtain ⟨za, hza⟩ := onGrid_scaled_int a ha
  obtain ⟨zb, hzb⟩ := onGrid_scaled_int b hb
  have hpos : (0 : ℚ) < 2 ^ 1074 := by positivity
  have h1 : (zb : ℚ) < za := by
    rw [← hza, ← hzb]
    exact mul_lt_mul_of_pos_right h hpos
  have h2 : zb + 1 ≤ za := by exact_mod_cast h1
  have h3 : (zb : ℚ) + 1 ≤ za := by exact_mod_cast h2
  rw [div_le_iff₀ hpos, sub_mul, hza, hzb]
  linarith

@[simp] theorem add_fin (a b : ℚ) : (JsNumber.fin a).add (.fin b) = roundDouble (a + b) := rfl

@[simp] theorem sub_fin (a b : ℚ) : (JsNumber.fin a).sub (.fin b) = roundDouble (a - b) := by
  simp only [JsNumber.sub, JsNumber.neg, add_fin, sub_eq_add_neg]

@[simp] theorem mul_fin (a b : ℚ) : (JsNumber.fin a).mul (.fin b) = roundDouble (a * b) := rfl

theorem div_fin (a b : ℚ) (hb : b ≠ 0) : (JsNumber.fin a).div (.fin b) = roundDouble (a / b) := by
  simp [JsNumber.div, hb]

theorem roundDouble_cases (q : ℚ) :
    (roundDouble q = .fin (roundToGrid q) ∧ |roundToGrid q| < 2 ^ 1024) ∨
    (roundDouble q = .posInf ∧ 2 ^ 1024 ≤ roundToGrid q) ∨
    (roundDouble q = .negInf ∧ roundToGrid q ≤ -2 ^ 1024) := by
  unfold roundDouble
  split_ifs with h1 h2
  · exact Or.inr (Or.inl ⟨rfl, h1⟩)
  · exact Or.inr (Or.inr ⟨rfl, h2⟩)
  · refine Or.inl ⟨rfl, ?_⟩
    rw [abs_lt]
    exact ⟨not_le.mp h2, not_le.mp h1⟩

/-- The comparator `(a, b) => a - b` of the sort is positive exactly when `b < a`:
the difference of two doubles does not round to zero. -/
theorem zero_lt_sub_iff (a b : ℚ) (ha : IsDouble a) (hb : IsDouble b) :
    (JsNumber.fin 0).lt ((JsNumber.fin a).sub (.fin b)) = true ↔ b < a := by
  rw [sub_fin]
  constructor
  · intro h
    by_contra hab
    have h0 : roundToGrid (a - b) ≤ 0 := roundToGrid_nonpos _ (by linarith [not_lt.mp hab])
    rcases roundDouble_cases (a - b) with ⟨e, _⟩ | ⟨e, h1⟩ | ⟨e, _⟩
    · rw [e] at h
      simp only [JsNumber.lt, decide_eq_true_eq] at h
      linarith
    · have : (0 : ℚ) < 2 ^ 1024 := by positivity
      linarith
    · rw [e] at h
      simp [JsNumber.lt] at h
  · intro hab
    have h1 := tiny_le_sub a b ha.onGrid hb.onGrid hab
    have h2 := le_roundToGrid (a - b) _ onGrid_tiny h1
    have h3 : (0 : ℚ) < 1 / 2 ^ 1074 := by positivity
    rcases roundDouble_cases (a - b) with ⟨e, _⟩ | ⟨e, _⟩ | ⟨e, h4⟩
    · rw [e]
      simp only [JsNumber.lt, decide_eq_true_eq]
      linarith
    · rw [e]
      rfl
    · have : (0 : ℚ) < 2 ^ 1024 := by positivity
      linarith

theorem onGrid_two_pow (k : Nat) : OnGrid (2 ^ k) := by
  refine ⟨1, 1074 + k, by norm_num, ?_⟩
  rw [Int.cast_one, one_mul, pow_add, mul_comm]

theorem roundDouble_of_abs_le (d : ℚ) (k : Nat) (hk : k < 1024) (h : |d| ≤ 2 ^ k) :
    roundDouble d = .fin (roundToGrid d) := by
  rw [roundDouble_eq_fin_iff]
  refine ⟨rfl, ?_⟩
  have h1 := roundToGrid_le d (2 ^ k) (onGrid_two_pow k) (le_trans (le_abs_self d) h)
  have h2 := le_roundToGrid d (-2 ^ k) (onGrid_neg _ (onGrid_two_pow k))
    (by linarith [neg_abs_le d])
  have h3 : (2 : ℚ) ^ k < 2 ^ 1024 := pow_lt_pow_right₀ (by norm_num) hk
  rw [abs_lt]
  constructor <;> linarith

theorem sqrtBits_spec (k n r : Nat) (h1 : r * r ≤ n) (h2 : n < (r + 2 ^ k) * (r + 2 ^ k)) :
    sqrtBits k n r * sqrtBits k n r ≤ n ∧ n < (sqrtBits k n r + 1) * (sqrtBits k n r + 1) := by
  induction k generalizing r with
  | zero =>
    rw [pow_zero] at h2
    exact ⟨h1, h2⟩
  | succ k ih =>
    unfold sqrtBits
    split_ifs with h
    · apply ih _ h
      have e : r + 2 ^ k + 2 ^ k = r + 2 ^ (k + 1) := by rw [pow_succ]; omega
      rw [e]
      exact h2
    · exact ih r h1 (not_le.mp h)

/-- `intSqrt n` is the integer part of the square root of `n`. -/
theorem intSqrt_spec (n : Nat) :
    intSqrt n * intSqrt n ≤ n ∧ n < (intSqrt n + 1) * (intSqrt n + 1) := by
  unfold intSqrt
  apply sqrtBits_spec
  · exact Nat.zero_le n
  · have h1 : n < 2 ^ (Nat.log2 n + 1) := Nat.lt_log2_self
    have h2 : (2 : Nat) ^ (Nat.log2 n + 1) ≤ 2 ^ ((binaryLog n / 2 + 1) + (binaryLog n / 2 + 1)) := by
      apply Nat.pow_le_pow_right (by norm_num)
      rw [binaryLog_eq]
      omega
    rw [Nat.zero_add, ← pow_add]
    exact lt_of_lt_of_le h1 h2

theorem intSqrt_mul_self (N : Nat) : intSqrt (N * N) = N := by
  obtain ⟨h1, h2⟩ := intSqrt_spec (N * N)
  have a1 : intSqrt (N * N) ≤ N := Nat.mul_self_le_mul_self_iff.mp h1
  have a2 : N < intSqrt (N * N) + 1 := Nat.mul_self_lt_mul_self_iff.mp h2
  omega

/-- On the square of a non-negative number with at most 1200 binary places
`sqrtNearest` returns the double nearest to that number. -/
theorem sqrtNearest_sq (N : Nat) :
    sqrtNearest (.fin ((N : ℚ) / 2 ^ 1200 * ((N : ℚ) / 2 ^ 1200))) = roundDouble (N / 2 ^ 1200) := by
  have e4 : (4 : ℚ) ^ 1200 = 2 ^ 1200 * 2 ^ 1200 := by
    rw [show (4 : ℚ) = 2 ^ 2 by norm_num, ← pow_mul, ← pow_add]
  have hpos : (0 : ℚ) < 2 ^ 1200 := by positivity
  have e : (N : ℚ) / 2 ^ 1200 * ((N : ℚ) / 2 ^ 1200) * 4 ^ 1200 = ((N * N : Nat) : ℚ) := by
    rw [e4]
    push_cast
    field_simp
  have h0 : ¬ ((N : ℚ) / 2 ^ 1200 * ((N : ℚ) / 2 ^ 1200) < 0) :=
    not_lt.mpr (mul_self_nonneg _)
  unfold sqrtNearest
  simp only [h0, if_false]
  rw [e, Nat.floor_natCast, intSqrt_mul_self]
  simp

/-! ### The stagger delay -/

theorem roundDouble_intCast (n : ℤ) (h : |n| ≤ 2 ^ 53) : roundDouble (n : ℚ) = .fin n :=
  isDouble_intCast n h

/-- C5, as stated, fails: numbers are doubles, and `calculateStaggerDelay(2^53, 1, 1)`
is `2^53`, not `1 + 2^53`; likewise `calculateStaggerDelay(2^53 - 1, 2, 1)` is
`2^53`, not `2^53 + 1`. -/
theorem calculateStaggerDelay_rounds :
    calculateStaggerDelay (.fin (2 ^ 53)) (some (.fin 1)) (some (.fin 1)) = .fin (2 ^ 53) ∧
    calculateStaggerDelay (.fin (2 ^ 53 - 1)) (some (.fin 2)) (some (.fin 1)) = .fin (2 ^ 53) ∧
    JsNumber.fin (2 ^ 53) ≠ .fin (1 + 2 ^ 53 * 1) ∧
    JsNumber.fin (2 ^ 53) ≠ .fin (2 + (2 ^ 53 - 1) * 1) := by
  decide!

/-- C5 (amended): for integers `i`, `b`, `inc` that, like the product `i * inc`
and the sum `b + i * inc`, are at most `2^53` in magnitude,
`calculateStaggerDelay(i, b, inc)` is `b + i * inc`; with `baseDelay` and
`increment` omitted they are 100 and 50, and the result is `100 + 50 * i`. -/
theorem calculateStaggerDelay_eq (i b inc : Int) (_hi : |i| ≤ 2 ^ 53) (_hb : |b| ≤ 2 ^ 53)
    (_hinc : |inc| ≤ 2 ^ 53) (hprod : |i * inc| ≤ 2 ^ 53) (hsum : |b + i * inc| ≤ 2 ^ 53) :
    calculateStaggerDelay (.fin i) (some (.fin b)) (some (.fin inc))
      = .fin ((b + i * inc : Int) : ℚ) ∧
    (|i * 50| ≤ 2 ^ 53 → |100 + 50 * i| ≤ 2 ^ 53 →
      calculateStaggerDelay (.fin i) none none = .fin ((100 + 50 * i : Int) : ℚ)) := by
  constructor
  · simp only [calculateStaggerDelay, Option.getD_some, mul_fin]
    rw [← Int.cast_mul, roundDouble_intCast _ hprod, add_fin, ← Int.cast_add,
      roundDouble_intCast _ hsum]
  · intro h1 h2
    simp only [calculateStaggerDelay, Option.getD_none, mul_fin]
    have e1 : (i : ℚ) * 50 = ((i * 50 : Int) : ℚ) := by push_cast; ring
    rw [e1, roundDouble_intCast _ h1, add_fin]
    have e2 : (100 : ℚ) + ((i * 50 : Int) : ℚ) = ((100 + 50 * i : Int) : ℚ) := by push_cast; ring
    rw [e2, roundDouble_intCast _ h2]

theorem calculateStaggerDelay_eq_witness :
    calculateStaggerDelay (.fin (3 : Int)) (some (.fin (100 : Int))) (some (.fin (50 : Int)))
      = .fin ((100 + 3 * 50 : Int) : ℚ) ∧
    calculateStaggerDelay (.fin (3 : Int)) none none = .fin ((100 + 50 * 3 : Int) : ℚ) :=
  have h := calculateStaggerDelay_eq 3 100 50 (by decide) (by decide) (by decide) (by decide)
    (by decide)
  ⟨h.1, h.2 (by decide) (by decide)⟩

/-! ### Rounding to decimals -/

theorem lookupCalculation_mean : lookupCalculation "mean" = .own .mean := by decide

theorem lookupCalculation_median : lookupCalculation "median" = .own .median := by decide

theorem lookupCalculation_std : lookupCalculation "std" = .own .std := by decide

theorem lookupCalculation_absent (metric : String) (h1 : metric ≠ "mean")
    (h2 : metric ≠ "median") (h3 : metric ≠ "std") (h4 : metric ∉ objectPrototypeKeys) :
    lookupCalculation metric = .absent := by
  simp [lookupCalculation, h1, h2, h3, h4]

section RoundingLemmas

variable {α : Type} [LinearOrderedField α] [FloorRing α]

theorem floor_add_half (k : Int) : ⌊(k : α) + 1 / 2⌋ = k := by
  rw [Int.floor_eq_iff]
  constructor
  · linarith [show (0 : α) ≤ 1 / 2 by norm_num]
  · linarith [show (1 : α) / 2 < 1 by norm_num]

theorem roundHalfAway_of_int (x : α) (p : Nat) (k : Int) (h : x * 10 ^ p = k) :
    roundHalfAway x p = x := by
  have hpos : (0 : α) < 10 ^ p := by positivity
  have hx : x = k / 10 ^ p := by
    rw [eq_div_iff (ne_of_gt hpos)]
    exact h
  unfold roundHalfAway
  by_cases hneg : x < 0
  · rw [if_pos hneg]
    have h' : -x * 10 ^ p = ((-k : Int) : α) := by
      rw [neg_mul, h]
      push_cast
      rfl
    rw [h', floor_add_half, hx]
    push_cast
    ring
  · rw [if_neg hneg, h, floor_add_half, hx]

theorem roundHalfAway_zero (p : Nat) : roundHalfAway (0 : α) p = 0 :=
  roundHalfAway_of_int 0 p 0 (by simp)

theorem abs_floor_add_half_sub (y : α) : |((⌊y + 1 / 2⌋ : Int) : α) - y| ≤ 1 / 2 := by
  have h1 := Int.floor_le (y + 1 / 2)
  have h2 := Int.lt_floor_add_one (y + 1 / 2)
  rw [abs_le]
  constructor <;> linarith

theorem roundHalfAway_multiple (x : α) (p : Nat) :
    ∃ n : Int, roundHalfAway x p = n / 10 ^ p := by
  unfold roundHalfAway
  by_cases hx : x < 0
  · refine ⟨-⌊(-x) * 10 ^ p + 1 / 2⌋, ?_⟩
    rw [if_pos hx]
    push_cast
    ring
  · exact ⟨⌊x * 10 ^ p + 1 / 2⌋, by rw [if_neg hx]⟩

theorem abs_roundHalfAway_sub (x : α) (p : Nat) :
    |roundHalfAway x p - x| ≤ 1 / 10 ^ p / 2 := by
  have hpos : (0 : α) < 10 ^ p := by positivity
  have key : ∀ y : α, |((⌊y * 10 ^ p + 1 / 2⌋ : Int) : α) / 10 ^ p - y| ≤ 1 / 10 ^ p / 2 := by
    intro y
    have h := abs_floor_add_half_sub (y * 10 ^ p)
    have e : ((⌊y * 10 ^ p + 1 / 2⌋ : Int) : α) / 10 ^ p - y
        = (((⌊y * 10 ^ p + 1 / 2⌋ : Int) : α) - y * 10 ^ p) / 10 ^ p := by
      field_simp
      ring
    rw [e, abs_div, abs_of_pos hpos, div_le_iff₀ hpos]
    have e2 : (1 : α) / 10 ^ p / 2 * 10 ^ p = 1 / 2 := by
      field_simp
    rw [e2]
    exact h
  unfold roundHalfAway
  by_cases hx : x < 0
  · rw [if_pos hx]
    have h := key (-x)
    have e : -(((⌊-x * 10 ^ p + 1 / 2⌋ : Int) : α) / 10 ^ p) - x
        = -(((⌊-x * 10 ^ p + 1 / 2⌋ : Int) : α) / 10 ^ p - -x) := by ring
    rw [e, abs_neg]
    exact h
  · rw [if_neg hx]
    exact key x

theorem floor_int_add_one (m : Int) : ⌊(m : α) + 1 / 2 + 1 / 2⌋ = m + 1 := by
  have e : (m : α) + 1 / 2 + 1 / 2 = ((m + 1 : Int) : α) := by
    push_cast
    ring
  rw [e, Int.floor_intCast]

theorem abs_roundHalfAway_tie (x : α) (p : Nat) (m : Int) (h : x * 10 ^ p = m + 1 / 2) :
    |roundHalfAway x p| = |x| + 1 / 10 ^ p / 2 := by
  have hpos : (0 : α) < 10 ^ p := by positivity
  have hx : x = (m + 1 / 2) / 10 ^ p := by
    rw [eq_div_iff (ne_of_gt hpos)]
    exact h
  unfold roundHalfAway
  by_cases hneg : x < 0
  · rw [if_pos hneg]
    have hm : (m : α) + 1 / 2 < 0 := by
      rw [← h]
      exact mul_neg_of_neg_of_pos hneg hpos
    have hm1 : m ≤ -1 := by
      by_contra hc
      have : (0 : Int) ≤ m := by omega
      have : (0 : α) ≤ m := by exact_mod_cast this
      linarith
    have hm1' : (m : α) ≤ -1 := by exact_mod_cast hm1
    have e : -x * 10 ^ p + 1 / 2 = ((-m : Int) : α) := by
      rw [neg_mul, h]
      push_cast
      ring
    rw [e, Int.floor_intCast, abs_of_neg hneg]
    have hr : -(((-m : Int) : α) / 10 ^ p) = (m : α) / 10 ^ p := by
      push_cast
      ring
    rw [hr]
    have hrneg : (m : α) / 10 ^ p < 0 := div_neg_of_neg_of_pos (by linarith) hpos
    rw [abs_of_neg hrneg, hx]
    field_simp
    ring
  · rw [if_neg hneg]
    have hx0 : 0 ≤ x := le_of_not_lt hneg
    have hm : (0 : α) ≤ (m : α) + 1 / 2 := by
      rw [← h]
      exact mul_nonneg hx0 (le_of_lt hpos)
    have hm0 : 0 ≤ m := by
      by_contra hc
      have : m ≤ -1 := by omega
      have : (m : α) ≤ -1 := by exact_mod_cast this
      linarith
    have hm0' : (0 : α) ≤ m := by exact_mod_cast hm0
    rw [h, floor_int_add_one, abs_of_nonneg hx0]
    have hrpos : (0 : α) ≤ ((m + 1 : Int) : α) / 10 ^ p := by
      apply div_nonneg _ (le_of_lt hpos)
      push_cast
      linarith
    rw [abs_of_nonneg hrpos, hx]
    push_cast
    field_simp
    ring

end RoundingLemmas

/-! ### Statistics -/

theorem roundHalfAway_eq_of_near (x : ℚ) (p : Nat) (k : Int) (h : |x * 10 ^ p - k| < 1 / 2) :
    roundHalfAway x p = k / 10 ^ p := by
  rw [abs_lt] at h
  unfold roundHalfAway
  split_ifs with hx
  · have hf : ⌊-x * 10 ^ p + 1 / 2⌋ = -k := by
      rw [Int.floor_eq_iff]
      push_cast
      constructor <;> linarith
    rw [hf]
    push_cast
    ring
  · have hf : ⌊x * 10 ^ p + 1 / 2⌋ = k := by
      rw [Int.floor_eq_iff]
      constructor <;> linarith
    rw [hf]

theorem toFixed_eq_roundedTo (v : JsNumber) (p : Nat) (hp : p ≤ 100) :
    toFixed v (p : Int) = .ok (roundedTo v p) := by
  have h : ¬ ((p : Int) < 0 ∨ 100 < (p : Int)) := by omega
  unfold toFixed roundedTo roundHalfAway
  rw [if_neg h]
  cases v with
  | fin q =>
    simp only [Int.toNat_ofNat]
    by_cases h21 : (10 : ℚ) ^ 21 ≤ |q|
    · rw [if_pos h21, if_pos h21]
    · rw [if_neg h21, if_neg h21]
      by_cases hq : q < 0
      · rw [if_pos hq, if_pos hq]
      · rw [if_neg hq, if_neg hq]
  | posInf => rfl
  | negInf => rfl
  | nan => rfl

theorem roundedTo_zero (p : Nat) : roundedTo (.fin 0) p = .fin 0 := by
  unfold roundedTo
  have h : ¬ ((10 : ℚ) ^ 21 ≤ |0|) := by norm_num
  simp only [h, if_false]
  rw [roundHalfAway_zero]
  exact isDouble_zero

theorem mean_singleton_eq (x : ℚ) (hx : IsDouble x) : calculations.mean [.fin x] = .fin x := by
  simp only [calculations.mean, List.foldl_cons, List.foldl_nil, add_fin, zero_add,
    List.length_singleton, Nat.cast_one]
  rw [roundDouble_of_isDouble hx, div_fin _ _ one_ne_zero, div_one, roundDouble_of_isDouble hx]

/-- A double of magnitude `2^46` or more is a multiple of `2^-6`. -/
theorem onGrid_large (x : ℚ) (hx : OnGrid x) (h : 2 ^ 46 ≤ |x|) : ∃ z : Int, x * 2 ^ 6 = z := by
  obtain ⟨m, j, hm, hq⟩ := hx
  have hm' : |(m : ℚ)| < 2 ^ 53 := abs_intCast_lt m hm
  have hj : 1068 ≤ j := by
    by_contra hc
    have hj' : j ≤ 1067 := by omega
    have h1 : (2 : ℚ) ^ j ≤ 2 ^ 1067 := pow_le_pow_right₀ (by norm_num) hj'
    have h2 : |x * 2 ^ 1074| = |x| * 2 ^ 1074 := by
      rw [abs_mul, abs_of_pos (by positivity : (0 : ℚ) < 2 ^ 1074)]
    have h3 : |(m : ℚ) * 2 ^ j| = |(m : ℚ)| * 2 ^ j := by
      rw [abs_mul, abs_of_pos (by positivity : (0 : ℚ) < 2 ^ j)]
    have h4 : |x| * 2 ^ 1074 = |(m : ℚ)| * 2 ^ j := by rw [← h2, ← h3, hq]
    have h5 : (2 : ℚ) ^ 46 * 2 ^ 1074 ≤ |x| * 2 ^ 1074 :=
      mul_le_mul_of_nonneg_right h (by positivity)
    have h6 : |(m : ℚ)| * 2 ^ j < 2 ^ 53 * 2 ^ 1067 := by
      calc |(m : ℚ)| * 2 ^ j ≤ |(m : ℚ)| * 2 ^ 1067 :=
            mul_le_mul_of_nonneg_left h1 (abs_nonneg _)
        _ < 2 ^ 53 * 2 ^ 1067 := mul_lt_mul_of_pos_right hm' (by positivity)
    have h7 : (2 : ℚ) ^ 46 * 2 ^ 1074 = 2 ^ 53 * 2 ^ 1067 := by
      rw [← pow_add, ← pow_add]
    linarith
  obtain ⟨t, ht⟩ : ∃ t, j = 1068 + t := ⟨j - 1068, by omega⟩
  refine ⟨m * 2 ^ t, ?_⟩
  have e : (2 : ℚ) ^ 1074 = 2 ^ 1068 * 2 ^ 6 := by rw [← pow_add]
  have hpos : (0 : ℚ) < 2 ^ 1068 := by positivity
  have e2 : x * 2 ^ 6 * 2 ^ 1068 = (m : ℚ) * 2 ^ t * 2 ^ 1068 := by
    calc x * 2 ^ 6 * 2 ^ 1068 = x * 2 ^ 1074 := by
          rw [e, mul_assoc, mul_comm ((2 : ℚ) ^ 6)]
      _ = (m : ℚ) * 2 ^ j := hq
      _ = (m : ℚ) * 2 ^ t * 2 ^ 1068 := by
          rw [ht, pow_add, mul_assoc, mul_comm ((2 : ℚ) ^ t)]
  have e3 := mul_right_cancel₀ (ne_of_gt hpos) e2
  rw [e3]
  push_cast
  ring

/-- Below `2^46` the nearest double is within `2^-8`. -/
theorem abs_sub_roundToGrid_small (q : ℚ) (h : |q| ≤ 2 ^ 46) : |q - roundToGrid q| ≤ 1 / 2 ^ 8 := by
  have h1 : |q * 2 ^ 7| ≤ ((2 ^ 53 : Int) : ℚ) := by
    rw [abs_mul, abs_of_pos (by positivity : (0 : ℚ) < 2 ^ 7)]
    have : |q| * 2 ^ 7 ≤ 2 ^ 46 * 2 ^ 7 := mul_le_mul_of_nonneg_right h (by positivity)
    have e : (2 : ℚ) ^ 46 * 2 ^ 7 = ((2 ^ 53 : Int) : ℚ) := by norm_num
    linarith
  have h2 := abs_roundHalfEven_le (q * 2 ^ 7) (2 ^ 53) h1
  have hd : OnGrid ((roundHalfEven (q * 2 ^ 7) : ℚ) / 2 ^ 7) := by
    refine onGrid_of_le (roundHalfEven (q * 2 ^ 7)) 1067 _ h2 ?_
    have e : (2 : ℚ) ^ 1074 = 2 ^ 7 * 2 ^ 1067 := by rw [← pow_add]
    rw [e]
    field_simp
    ring
  have h3 := roundToGrid_nearest q _ hd
  have h4 := abs_sub_roundHalfEven (q * 2 ^ 7)
  have e : q - (roundHalfEven (q * 2 ^ 7) : ℚ) / 2 ^ 7
      = (q * 2 ^ 7 - roundHalfEven (q * 2 ^ 7)) / 2 ^ 7 := by
    field_simp
  rw [e, abs_div, abs_of_pos (by positivity : (0 : ℚ) < 2 ^ 7)] at h3
  have h5 : |q * 2 ^ 7 - roundHalfEven (q * 2 ^ 7)| / 2 ^ 7 ≤ 1 / 2 / 2 ^ 7 :=
    div_le_div_of_nonneg_right h4 (by positivity)
  have e2 : (1 : ℚ) / 2 / 2 ^ 7 = 1 / 2 ^ 8 := by norm_num
  linarith

/-- Printing the double nearest to `k / 100` with two decimals and reading the
text back gives that double again. -/
theorem roundToGrid_roundHalfAway_hundredths (k : Int) :
    roundToGrid (roundHalfAway (roundToGrid (k / 100)) 2) = roundToGrid (k / 100) := by
  by_cases hq : |(k : ℚ) / 100| ≤ 2 ^ 46
  · have h1 := abs_sub_roundToGrid_small _ hq
    have h2 : roundHalfAway (roundToGrid (k / 100)) 2 = k / 10 ^ 2 := by
      apply roundHalfAway_eq_of_near
      have e : roundToGrid (k / 100) * 10 ^ 2 - k
          = -(((k : ℚ) / 100 - roundToGrid (k / 100)) * 100) := by ring
      rw [e, abs_neg, abs_mul, abs_of_pos (by norm_num : (0 : ℚ) < 100)]
      have : |(k : ℚ) / 100 - roundToGrid (k / 100)| * 100 ≤ 1 / 2 ^ 8 * 100 :=
        mul_le_mul_of_nonneg_right h1 (by norm_num)
      have : (1 : ℚ) / 2 ^ 8 * 100 < 1 / 2 := by norm_num
      linarith
    rw [h2]
    norm_num
  · have hq' : 2 ^ 46 < |(k : ℚ) / 100| := not_le.mp hq
    have h46 : OnGrid (2 ^ 46) := by
      have := onGrid_intCast (2 ^ 46) (by norm_num)
      simpa using this
    have hx : 2 ^ 46 ≤ |roundToGrid (k / 100)| := by
      rcases lt_abs.mp hq' with h | h
      · exact le_trans (le_roundToGrid _ _ h46 (le_of_lt h)) (le_abs_self _)
      · have := roundToGrid_le ((k : ℚ) / 100) (-2 ^ 46) (onGrid_neg _ h46) (by linarith)
        exact le_trans (by linarith) (neg_le_abs _)
    have hg := onGrid_roundToGrid ((k : ℚ) / 100)
    obtain ⟨z, hz⟩ := onGrid_large _ hg hx
    have hr := @abs_roundHalfAway_sub ℚ _ _ (roundToGrid (k / 100)) 2
    have hn := roundToGrid_nearest (roundHalfAway (roundToGrid (k / 100)) 2) _ hg
    have hg' := onGrid_roundToGrid (roundHalfAway (roundToGrid (k / 100)) 2)
    generalize roundToGrid ((k : ℚ) / 100) = x at hx hg hz hr hn hg' ⊢
    generalize hrdef : roundHalfAway x 2 = r at hr hn hg' ⊢
    generalize hx'def : roundToGrid r = x' at hn hg' ⊢
    have hd : |x' - x| ≤ 1 / 100 := by
      have e : x' - x = (r - x) - (r - x') := by ring
      rw [e]
      have := abs_sub (r - x) (r - x')
      have e2 : (1 : ℚ) / 10 ^ 2 / 2 = 1 / 200 := by norm_num
      rw [e2] at hr
      linarith
    by_cases hx' : 2 ^ 46 ≤ |x'|
    · obtain ⟨z', hz'⟩ := onGrid_large _ hg' hx'
      have h3 : |((z' - z : Int) : ℚ)| < 1 := by
        have e : ((z' - z : Int) : ℚ) = (x' - x) * 2 ^ 6 := by
          push_cast
          rw [← hz, ← hz']
          ring
        rw [e, abs_mul, abs_of_pos (by positivity : (0 : ℚ) < 2 ^ 6)]
        have : |x' - x| * 2 ^ 6 ≤ 1 / 100 * 2 ^ 6 := mul_le_mul_of_nonneg_right hd (by positivity)
        have : (1 : ℚ) / 100 * 2 ^ 6 < 1 := by norm_num
        linarith
      have h4 : |z' - z| < 1 := by
        have : ((|z' - z| : Int) : ℚ) < ((1 : Int) : ℚ) := by
          rw [Int.cast_abs]
          simpa using h3
        exact_mod_cast this
      have h5 : z' = z := by
        have := abs_lt.mp h4
        omega
      have h6 : x' * 2 ^ 6 = x * 2 ^ 6 := by rw [hz, hz', h5]
      exact mul_right_cancel₀ (by positivity) h6
    · have hxlt : |x'| < 2 ^ 46 := not_le.mp hx'
      have h3 : |x| < 2 ^ 46 + 1 / 100 := by
        have e : x = x' - (x' - x) := by ring
        have := abs_sub x' (x' - x)
        rw [← e] at this
        linarith
      have h4 : |(z : ℚ)| < 2 ^ 52 + 1 := by
        rw [← hz, abs_mul, abs_of_pos (by positivity : (0 : ℚ) < 2 ^ 6)]
        have : |x| * 2 ^ 6 < (2 ^ 46 + 1 / 100) * 2 ^ 6 := mul_lt_mul_of_pos_right h3 (by positivity)
        have : ((2 : ℚ) ^ 46 + 1 / 100) * 2 ^ 6 < 2 ^ 52 + 1 := by norm_num
        linarith
      have h5 : (2 : ℚ) ^ 52 ≤ |(z : ℚ)| := by
        rw [← hz, abs_mul, abs_of_pos (by positivity : (0 : ℚ) < 2 ^ 6)]
        have : (2 : ℚ) ^ 46 * 2 ^ 6 ≤ |x| * 2 ^ 6 := mul_le_mul_of_nonneg_right hx (by positivity)
        have e : (2 : ℚ) ^ 46 * 2 ^ 6 = 2 ^ 52 := by norm_num
        linarith
      have h6 : |z| < 2 ^ 52 + 1 := by
        have : ((|z| : Int) : ℚ) < ((2 ^ 52 + 1 : Int) : ℚ) := by
          rw [Int.cast_abs]
          norm_num at h4 ⊢
          exact h4
        exact_mod_cast this
      have h7 : 2 ^ 52 ≤ |z| := by
        have : (((2 : Int) ^ 52 : Int) : ℚ) ≤ ((|z| : Int) : ℚ) := by
          rw [Int.cast_abs]
          norm_num at h5 ⊢
          exact h5
        exact_mod_cast this
      have h8 : x * 10 ^ 2 = ((z * 100 / 64 : Int) : ℚ) := by
        have hz64 : (64 : Int) ∣ z * 100 := by
          rcases abs_cases z with ⟨h, _⟩ | ⟨h, _⟩
          · have : z = 2 ^ 52 := by omega
            rw [this]
            norm_num
          · have : z = -2 ^ 52 := by omega
            rw [this]
            norm_num
        rw [Int.cast_div hz64 (by norm_num)]
        push_cast
        rw [← hz]
        ring
      have h9 : r = x := by
        rw [← hrdef]
        exact roundHalfAway_of_int x 2 _ h8
      rw [← hx'def, h9]
      exact roundToGrid_of_onGrid x hg

/-- C6, as stated, fails: `calculateStatistic([0.001], 'mean')` is `0`, not `0.001`
(the result is rounded to two decimals). -/
theorem mean_singleton_not_identity :
    roundDouble (1 / 1000) = .fin (1152921504606847 / 1152921504606846976) ∧
    calculateStatistic powNearest sqrtNearest
      (.array [.fin (1152921504606847 / 1152921504606846976)]) (some "mean") none
      = .ok (.fin 0) ∧
    JsNumber.fin 0 ≠ .fin (1152921504606847 / 1152921504606846976) := by
  decide!

/-- C6 (amended): `calculateStatistic([x], 'mean')` with the default precision
is `x` for every number `x` that is a whole number of hundredths, that is, for
the double `x` that the decimal `k / 100` denotes. -/
theorem mean_singleton (pow : JsNumber → JsNumber → JsNumber) (sqrt : JsNumber → JsNumber)
    (x : ℚ) (k : Int) (hx : roundDouble (k / 100) = .fin x) :
    calculateStatistic pow sqrt (.array [.fin x]) (some "mean") none = .ok (.fin x) := by
  have hd : IsDouble x := isDouble_of_roundDouble hx
  obtain ⟨hx1, hx2⟩ := (roundDouble_eq_fin_iff _ _).mp hx
  have h := toFixed_eq_roundedTo (.fin x) 2 (by norm_num)
  have hr : roundedTo (.fin x) 2 = .fin x := by
    unfold roundedTo
    by_cases h21 : (10 : ℚ) ^ 21 ≤ |x|
    · simp only [h21, if_true]
    · simp only [h21, if_false]
      rw [roundDouble_eq_fin_iff]
      refine ⟨?_, hx2⟩
      rw [← hx1]
      exact roundToGrid_roundHalfAway_hundredths k
  simp only [calculateStatistic, Option.getD_some, Option.getD_none, lookupCalculation_mean,
    runCalculation, mean_singleton_eq x hd]
  rw [hr] at h
  exact h

/-- C6 (amended) at `x = 0.1`. -/
theorem mean_singleton_witness :
    roundDouble ((10 : Int) / 100) = .fin (3602879701896397 / 36028797018963968) ∧
    calculateStatistic powNearest sqrtNearest
      (.array [.fin (3602879701896397 / 36028797018963968)]) (some "mean") none
      = .ok (.fin (3602879701896397 / 36028797018963968)) :=
  ⟨by decide!, mean_singleton powNearest sqrtNearest _ 10 (by decide!)⟩

/-- C7, as stated, fails: with the unknown metric `'bogus'` and precision `101`
the call throws a `RangeError`, and with the metric `'toString'` (not one of
`mean`, `median`, `std`) it throws a `TypeError`. -/
theorem unknown_metric_can_throw :
    calculateStatistic powNearest sqrtNearest (.array [.fin 1]) (some "bogus") (some 101)
      = .error .rangeError ∧
    calculateStatistic powNearest sqrtNearest (.array [.fin 1]) (some "toString") none
      = .error .typeError := by
  constructor
  · have h : lookupCalculation "bogus" = .absent := by decide
    simp [calculateStatistic, h, toFixed]
  · have h : lookupCalculation "toString" = .inherited := by decide
    simp [calculateStatistic, h]

/-- C7 (amended): for every non-empty numeric array, every precision from 0 to
100 and every metric string that is none of `mean`, `median`, `std` and not a
property name inherited from `Object.prototype`, `calculateStatistic` returns 0
(and does not throw). -/
theorem unknown_metric_zero (pow : JsNumber → JsNumber → JsNumber) (sqrt : JsNumber → JsNumber)
    (x : JsNumber) (xs : List JsNumber) (metric : String) (p : Nat) (hp : p ≤ 100)
    (h1 : metric ≠ "mean") (h2 : metric ≠ "median") (h3 : metric ≠ "std")
    (h4 : metric ∉ objectPrototypeKeys) :
    calculateStatistic pow sqrt (.array (x :: xs)) (some metric) (some (p : Int))
      = .ok (.fin 0) := by
  simp only [calculateStatistic, Option.getD_some, lookupCalculation_absent metric h1 h2 h3 h4]
  rw [toFixed_eq_roundedTo _ p hp, roundedTo_zero]

/-- C7 (amended) at the metric `'mode'` with precision 3. -/
theorem unknown_metric_zero_witness :
    calculateStatistic powNearest sqrtNearest (.array [.fin 1, .fin 2]) (some "mode")
      (some ((3 : Nat) : Int)) = .ok (.fin 0) :=
  unknown_metric_zero powNearest sqrtNearest (.fin 1) [.fin 2] "mode" 3 (by decide) (by decide)
    (by decide) (by decide) (by decide)

/-- C8: for every metric and every precision, given or omitted,
`calculateStatistic` returns 0 for the empty array and for a `data` that is not
an array. -/
theorem empty_or_non_array_zero (pow : JsNumber → JsNumber → JsNumber)
    (sqrt : JsNumber → JsNumber) (metric : Option String) (precision : Option Int) :
    calculateStatistic pow sqrt (.array []) metric precision = .ok (.fin 0) ∧
    calculateStatistic pow sqrt .notArray metric precision = .ok (.fin 0) :=
  ⟨rfl, rfl⟩

theorem sortNumbers_map_fin (data : List ℚ) (hd : ∀ q ∈ data, IsDouble q) :
    sortNumbers (data.map .fin) = (data.insertionSort (fun a b => a ≤ b)).map .fin := by
  unfold sortNumbers
  symm
  apply List.map_insertionSort
  intro a ha b hb
  have h := zero_lt_sub_iff a b (hd a ha) (hd b hb)
  constructor
  · intro hab
    by_contra hc
    rw [Bool.not_eq_false] at hc
    exact absurd (h.mp hc) (not_lt.mpr hab)
  · intro hab
    by_contra hc
    have hlt : b < a := not_le.mp hc
    rw [h.mpr hlt] at hab
    exact Bool.noConfusion hab

theorem sortNumbers_eq_of_sorted (data s : List ℚ) (hd : ∀ q ∈ data, IsDouble q)
    (hperm : s.Perm data) (hsorted : s.Sorted (fun a b => a ≤ b)) :
    sortNumbers (data.map .fin) = s.map .fin := by
  rw [sortNumbers_map_fin data hd]
  congr 1
  exact List.eq_of_perm_of_sorted ((List.perm_insertionSort _ data).trans hperm.symm)
    (List.sorted_insertionSort _ data) hsorted

theorem median_eq (arr : List JsNumber) :
    calculations.median arr =
      if (sortNumbers arr).length % 2 ≠ 0 then
        (sortNumbers arr).getD ((sortNumbers arr).length / 2) .nan
      else (((sortNumbers arr).getD ((sortNumbers arr).length / 2 - 1) .nan).add
        ((sortNumbers arr).getD ((sortNumbers arr).length / 2) .nan)).div (.fin 2) := rfl

theorem getD_map_fin (s : List ℚ) (i : Nat) (h : i < s.length) :
    (s.map JsNumber.fin).getD i .nan = .fin (s.getD i 0) := by
  rw [List.getD_eq_getElem _ _ (by simpa using h), List.getD_eq_getElem _ _ h, List.getElem_map]

theorem median_eq_midpoint (data s : List ℚ) (hne : data ≠ []) (hd : ∀ q ∈ data, IsDouble q)
    (hperm : s.Perm data) (hsorted : s.Sorted (fun a b => a ≤ b)) :
    calculations.median (data.map .fin) = midpoint s := by
  rw [median_eq, sortNumbers_eq_of_sorted data s hd hperm hsorted]
  have hlen : 0 < s.length := by
    rw [hperm.length_eq]
    exact List.length_pos.mpr hne
  unfold midpoint
  simp only [List.length_map]
  rcases Nat.mod_two_eq_zero_or_one s.length with h | h
  · have h2 : 2 ≤ s.length := by omega
    rw [if_neg (by omega), if_neg (by omega), getD_map_fin s _ (by omega),
      getD_map_fin s _ (by omega)]
  · rw [if_pos (by omega), if_pos h, getD_map_fin s _ (by omega)]

theorem medianRun_heap (heap : List (List JsNumber)) (arr i : Nat) (hi : i < heap.length) :
    (calculations.medianRun heap arr).2[i]? = heap[i]? := by
  unfold calculations.medianRun
  simp only
  rw [List.getElem?_set_ne (by omega), List.getElem?_append_left hi]

/-- C9, as stated, fails.  With precision 101 the call throws a `RangeError`.
And the average of the two middle elements is itself rounded to a double before
the rounding to `p` decimals: `calculateStatistic([0.05, 0.25], 'median', 1)` is
`0.1`, while the average of the two elements, which lies above `0.15`, rounds to
`0.2`. -/
theorem median_differs_from_exact_midpoint :
    calculateStatistic powNearest sqrtNearest (.array [.fin 1]) (some "median") (some 101)
      = .error .rangeError ∧
    roundDouble (1 / 20) = .fin (3602879701896397 / 72057594037927936) ∧
    roundDouble (1 / 10) = .fin (3602879701896397 / 36028797018963968) ∧
    roundDouble (1 / 5) = .fin (3602879701896397 / 18014398509481984) ∧
    calculateStatistic powNearest sqrtNearest
      (.array [.fin (3602879701896397 / 72057594037927936), .fin (1 / 4)]) (some "median")
      (some 1) = .ok (.fin (3602879701896397 / 36028797018963968)) ∧
    (3 : ℚ) / 20 < exactMidpoint [3602879701896397 / 72057594037927936, 1 / 4] ∧
    roundDouble (roundHalfAway (exactMidpoint [3602879701896397 / 72057594037927936, 1 / 4]) 1)
      = .fin (3602879701896397 / 18014398509481984) := by
  decide!

/-- C9 (amended): for a non-empty array `data` of finite numbers and `p` decimals,
`p` from 0 to 100 (2 when the precision is omitted),
`calculateStatistic(data, 'median', p)` is the rounding to `p` decimals of the
midpoint of the ascending-sorted permutation `s` of `data`: its middle element
for an odd length, and for an even length the average of its two middle elements
as double arithmetic computes it, which is their exact average when neither the
sum nor the halving rounds; `calculateStatistic([1,2,3,4], 'median')` is `2.5`;
and every array that exists when `median` is called, its argument among them,
is left as it was. -/
theorem median_is_sorted_midpoint (pow : JsNumber → JsNumber → JsNumber)
    (sqrt : JsNumber → JsNumber) (data s : List ℚ) (p : Nat) (hne : data ≠ []) (hp : p ≤ 100)
    (hd : ∀ q ∈ data, IsDouble q) (hperm : s.Perm data)
    (hsorted : s.Sorted (fun a b => a ≤ b)) :
    calculateStatistic pow sqrt (.array (data.map .fin)) (some "median") (some (p : Int))
      = .ok (roundedTo (midpoint s) p) ∧
    calculateStatistic pow sqrt (.array (data.map .fin)) (some "median") none
      = .ok (roundedTo (midpoint s) 2) ∧
    (s.length % 2 = 1 → midpoint s = .fin (s.getD (s.length / 2) 0)) ∧
    (s.length % 2 = 0 →
      IsDouble (s.getD (s.length / 2 - 1) 0 + s.getD (s.length / 2) 0) →
      IsDouble ((s.getD (s.length / 2 - 1) 0 + s.getD (s.length / 2) 0) / 2) →
      midpoint s = .fin ((s.getD (s.length / 2 - 1) 0 + s.getD (s.length / 2) 0) / 2)) ∧
    calculateStatistic pow sqrt (.array [.fin 1, .fin 2, .fin 3, .fin 4]) (some "median") none
      = .ok (.fin (5 / 2)) ∧
    ∀ (heap : List (List JsNumber)) (arr i : Nat), i < heap.length →
      (calculations.medianRun heap arr).2[i]? = heap[i]? := by
  have hmid : ∀ d t : List ℚ, ∀ q : Nat, d ≠ [] → q ≤ 100 → (∀ v ∈ d, IsDouble v) →
      t.Perm d → t.Sorted (fun a b => a ≤ b) →
      calculateStatistic pow sqrt (.array (d.map .fin)) (some "median") (some (q : Int))
        = .ok (roundedTo (midpoint t) q) := by
    intro d t q hd0 hq hdd hpt hst
    cases d with
    | nil => exact absurd rfl hd0
    | cons x xs =>
      have hm := median_eq_midpoint (x :: xs) t hd0 hdd hpt hst
      simp only [List.map_cons] at hm
      simp only [calculateStatistic, List.map_cons, Option.getD_some, lookupCalculation_median,
        runCalculation, hm]
      exact toFixed_eq_roundedTo _ q hq
  have hdef : ∀ d : List JsNumber,
      calculateStatistic pow sqrt (.array d) (some "median") none
        = calculateStatistic pow sqrt (.array d) (some "median") (some ((2 : Nat) : Int)) := by
    intro d
    rfl
  refine ⟨hmid data s p hne hp hd hperm hsorted, ?_, ?_, ?_, ?_, ?_⟩
  · rw [hdef]
    exact hmid data s 2 hne (by norm_num) hd hperm hsorted
  · intro h
    unfold midpoint
    rw [if_pos h]
  · intro h h1 h2
    unfold midpoint
    rw [if_neg (by omega), add_fin, roundDouble_of_isDouble h1, div_fin _ _ (by norm_num),
      roundDouble_of_isDouble h2]
  · have h4 : ∀ v ∈ ([1, 2, 3, 4] : List ℚ), IsDouble v := by decide!
    have h := hmid [1, 2, 3, 4] [1, 2, 3, 4] 2 (by simp) (by norm_num) h4 (List.Perm.refl _)
      (by decide)
    have hv : roundedTo (midpoint [1, 2, 3, 4]) 2 = .fin (5 / 2) := by decide!
    rw [hdef]
    rw [← hv]
    exact h
  · intro heap arr i hi
    exact medianRun_heap heap arr i hi

/-- C9 (amended) at `[3, 1, 2]` with precision 1: the median is 2. -/
theorem median_is_sorted_midpoint_witness :
    calculateStatistic powNearest sqrtNearest (.array (([3, 1, 2] : List ℚ).map .fin))
      (some "median") (some ((1 : Nat) : Int)) = .ok (roundedTo (midpoint [1, 2, 3]) 1) ∧
    roundedTo (midpoint [1, 2, 3]) 1 = .fin 2 :=
  ⟨(median_is_sorted_midpoint powNearest sqrtNearest [3, 1, 2] [1, 2, 3] 1 (by simp)
      (by norm_num) (by decide!) (by decide) (by decide)).1, by decide!⟩

theorem foldl_add_exact (f : JsNumber → JsNumber) (g : ℚ → ℚ) (data : List ℚ) (init : ℚ)
    (hf : ∀ v ∈ data, f (.fin v) = .fin (g v))
    (hs : ∀ k, k ≤ data.length → IsDouble (init + ((data.take k).map g).sum)) :
    (data.map JsNumber.fin).foldl (fun (sum val : JsNumber) => sum.add (f val)) (.fin init)
      = .fin (init + (data.map g).sum) := by
  induction data generalizing init with
  | nil => simp
  | cons v vs ih =>
    have h1 := hs 1 (by simp)
    simp only [List.take_succ_cons, List.take_zero, List.map_cons, List.map_nil, List.sum_cons,
      List.sum_nil, add_zero] at h1
    simp only [List.map_cons, List.foldl_cons, List.sum_cons]
    rw [hf v (List.mem_cons_self _ _), add_fin, roundDouble_of_isDouble h1,
      ih (init + g v) (fun w hw => hf w (List.mem_cons_of_mem _ hw))]
    · rw [add_assoc]
    · intro k hk
      have h2 := hs (k + 1) (by simpa using hk)
      simp only [List.take_succ_cons, List.map_cons, List.sum_cons] at h2
      rw [add_assoc]
      exact h2

theorem mean_exact (data : List ℚ) (hne : data ≠ [])
    (hs : ∀ k, k ≤ data.length → IsDouble (data.take k).sum)
    (hm : IsDouble (data.sum / data.length)) :
    calculations.mean (data.map .fin) = .fin (data.sum / data.length) := by
  have h := foldl_add_exact (fun x => x) (fun v => v) data 0 (fun _ _ => rfl)
    (fun k hk => by simpa using hs k hk)
  simp only [List.map_id', zero_add] at h
  have hn : ((data.length : ℕ) : ℚ) ≠ 0 := by
    have : 0 < data.length := List.length_pos.mpr hne
    positivity
  unfold calculations.mean
  rw [h, List.length_map, div_fin _ _ hn, roundDouble_of_isDouble hm]

theorem variance_exact (pow : JsNumber → JsNumber → JsNumber) (data : List ℚ) (hne : data ≠ [])
    (hexact : ExactVariance data)
    (hpow : ∀ v ∈ data, pow (.fin (v - data.sum / data.length)) (.fin 2)
      = .fin ((v - data.sum / data.length) ^ 2)) :
    calculations.variance pow (data.map .fin) = .fin (populationVariance data) := by
  obtain ⟨h1, h2, h3, h4, h5⟩ := hexact
  have hn : ((data.length : ℕ) : ℚ) ≠ 0 := by
    have : 0 < data.length := List.length_pos.mpr hne
    positivity
  have h := foldl_add_exact (fun val => pow (val.sub (.fin (data.sum / data.length))) (.fin 2))
    (fun v => (v - data.sum / data.length) ^ 2) data 0
    (fun v hv => by
      simp only [sub_fin]
      rw [roundDouble_of_isDouble (h3 v hv), hpow v hv])
    (fun k hk => by simpa using h4 k hk)
  simp only [zero_add] at h
  unfold calculations.variance
  simp only
  rw [mean_exact data hne h1 h2, h, List.length_map, div_fin _ _ hn]
  exact roundDouble_of_isDouble h5

theorem populationVariance_nonneg (data : List ℚ) : 0 ≤ populationVariance data := by
  unfold populationVariance
  apply div_nonneg _ (Nat.cast_nonneg _)
  apply List.sum_nonneg
  intro x hx
  obtain ⟨v, _, rfl⟩ := List.mem_map.mp hx
  positivity

/-- C10, as stated, fails: the mean and the sums are rounded to doubles.  On
`[2^52, 2^52 + 1]` the sum `2^53 + 1` rounds to `2^53`, the mean is `2^52`, the
variance computed is `1/2` and `calculateStatistic` returns `0.71`, while the
population variance is `1/4` and the population standard deviation `0.5`. -/
theorem std_differs_from_population_std :
    calculations.variance powNearest [.fin (2 ^ 52), .fin (2 ^ 52 + 1)] = .fin (1 / 2) ∧
    calculateStatistic powNearest sqrtNearest (.array [.fin (2 ^ 52), .fin (2 ^ 52 + 1)])
      (some "std") (some 2) = .ok (.fin (799388933858263 / 1125899906842624)) ∧
    roundDouble (71 / 100) = .fin (799388933858263 / 1125899906842624) ∧
    populationVariance [2 ^ 52, 2 ^ 52 + 1] = 1 / 4 ∧
    (1 / 2 : ℚ) * (1 / 2) = 1 / 4 ∧
    roundedTo (.fin (1 / 2)) 2 = .fin (1 / 2) := by
  decide!

/-- C10 (amended): for a non-empty array `data` of finite numbers on which no
step of the evaluation rounds (`ExactVariance`) and `Math.pow` gives the squares
of the deviations exactly, the argument of `Math.sqrt` is the population
variance, the sum of the squared deviations from the mean divided by `n` (not
`n - 1`), which is not negative; `calculateStatistic(data, 'std', p)`, `p` from
0 to 100, is the rounding to `p` decimals of its `Math.sqrt`, and when
`Math.sqrt` returns the exact non-negative root `r`, of `r`. -/
theorem std_is_population_std (pow : JsNumber → JsNumber → JsNumber)
    (sqrt : JsNumber → JsNumber) (data : List ℚ) (p : Nat) (hne : data ≠ []) (hp : p ≤ 100)
    (hexact : ExactVariance data)
    (hpow : ∀ v ∈ data, pow (.fin (v - data.sum / data.length)) (.fin 2)
      = .fin ((v - data.sum / data.length) ^ 2)) :
    calculations.variance pow (data.map .fin) = .fin (populationVariance data) ∧
    populationVariance data
      = (data.map (fun v => (v - data.sum / data.length) ^ 2)).sum / data.length ∧
    0 ≤ populationVariance data ∧
    calculateStatistic pow sqrt (.array (data.map .fin)) (some "std") (some (p : Int))
      = .ok (roundedTo (sqrt (.fin (populationVariance data))) p) ∧
    ∀ r : ℚ, 0 ≤ r → r * r = populationVariance data →
      sqrt (.fin (populationVariance data)) = .fin r →
      calculateStatistic pow sqrt (.array (data.map .fin)) (some "std") (some (p : Int))
        = .ok (roundedTo (.fin r) p) := by
  have hv := variance_exact pow data hne hexact hpow
  have hres : calculateStatistic pow sqrt (.array (data.map .fin)) (some "std") (some (p : Int))
      = .ok (roundedTo (sqrt (.fin (populationVariance data))) p) := by
    cases data with
    | nil => exact absurd rfl hne
    | cons x xs =>
      simp only [List.map_cons] at hv
      simp only [calculateStatistic, List.map_cons, Option.getD_some, lookupCalculation_std,
        runCalculation, calculations.std, hv]
      exact toFixed_eq_roundedTo _ p hp
  refine ⟨hv, rfl, populationVariance_nonneg data, hres, ?_⟩
  intro r _ _ hr
  rw [hres, hr]

/-- C10 (amended) at `[2, 4, 4, 4, 5, 5, 7, 9]` with precision 2: the variance is
exactly 4 and the result is 2. -/
theorem std_is_population_std_witness :
    populationVariance [2, 4, 4, 4, 5, 5, 7, 9] = 4 ∧
    calculateStatistic powNearest sqrtNearest
      (.array (([2, 4, 4, 4, 5, 5, 7, 9] : List ℚ).map .fin)) (some "std")
      (some ((2 : Nat) : Int)) = .ok (roundedTo (.fin 2) 2) ∧
    roundedTo (.fin 2) 2 = .fin 2 :=
  ⟨by decide!,
    (std_is_population_std powNearest sqrtNearest [2, 4, 4, 4, 5, 5, 7, 9] 2 (by simp)
      (by norm_num) (by decide!) (by decide!)).2.2.2.2 2 (by norm_num) (by decide!)
      (by decide!),
    by decide!⟩

/-- C11, as stated, fails.  With precision 101 (a precision `p ≥ 0`) the call
throws a `RangeError` and returns no value.  And the value returned is the double
nearest to the rounded decimal, which as a rule is not a multiple of `10^-p` and
can be farther than `10^-p / 2` from the unrounded value:
`calculateStatistic([0.125], 'mean', 2)` returns the double of `0.13`, which
exceeds `0.13`.  Also the unrounded value is itself a double: the mean of `3` and
nineteen zeros is computed as a double below `0.15`, and
`calculateStatistic` with precision 1 returns the double of `0.1`, not that of
`0.2`. -/
theorem rounding_fails_in_doubles :
    calculateStatistic powNearest sqrtNearest (.array [.fin 1]) (some "mean") (some 101)
      = .error .rangeError ∧
    runCalculation powNearest sqrtNearest .mean [.fin (1 / 8)] = .fin (1 / 8) ∧
    calculateStatistic powNearest sqrtNearest (.array [.fin (1 / 8)]) (some "mean") (some 2)
      = .ok (.fin (1170935903116329 / 9007199254740992)) ∧
    (1 : ℚ) / 10 ^ 2 / 2 < |1170935903116329 / 9007199254740992 - 1 / 8| ∧
    (∀ n : Int, (1170935903116329 / 9007199254740992 : ℚ) ≠ n * (1 / 10 ^ 2)) ∧
    runCalculation powNearest sqrtNearest .mean (.fin 3 :: List.replicate 19 (.fin 0))
      = .fin (5404319552844595 / 36028797018963968) ∧
    calculateStatistic powNearest sqrtNearest (.array (.fin 3 :: List.replicate 19 (.fin 0)))
      (some "mean") (some 1) = .ok (.fin (3602879701896397 / 36028797018963968)) ∧
    roundDouble (1 / 10) = .fin (3602879701896397 / 36028797018963968) ∧
    roundHalfAway ((3 : ℚ) / 20) 1 = 1 / 5 := by
  refine ⟨by decide!, by decide!, by decide!, by decide!, ?_, by decide!, by decide!, by decide!,
    by decide!⟩
  intro n hn
  have h1 : (13 : ℚ) < n := by
    have : (13 : ℚ) / 100 < n * (1 / 10 ^ 2) := by
      rw [← hn]
      norm_num
    linarith
  have h2 : (n : ℚ) < 14 := by
    have : (n : ℚ) * (1 / 10 ^ 2) < 14 / 100 := by
      rw [← hn]
      norm_num
    linarith
  have h3 : (13 : Int) < n := by exact_mod_cast h1
  have h4 : n < (14 : Int) := by exact_mod_cast h2
  omega

/-- C11 (amended): for non-empty data, a known metric and a precision `p` from 0
to 100, let `v` be the unrounded value of the metric, a double.  If `v` is finite
and below `10^21` in magnitude, `calculateStatistic` returns the double nearest
to `d`, where `d` is a multiple of `10^-p` with `|d - v| ≤ 10^-p / 2`, and when
`v` is exactly halfway between two multiples of `10^-p`, `d` is the one farther
from zero (`|d| = |v| + 10^-p / 2`).  Any other `v` is returned as it is. -/
theorem calculateStatistic_rounds (pow : JsNumber → JsNumber → JsNumber)
    (sqrt : JsNumber → JsNumber) (x : JsNumber) (xs : List JsNumber) (metric : String)
    (c : Calculation) (p : Nat) (hp : p ≤ 100) (hc : lookupCalculation metric = .own c) :
    (∀ v : ℚ, runCalculation pow sqrt c (x :: xs) = .fin v → |v| < 10 ^ 21 →
      ∃ d r : ℚ,
        calculateStatistic pow sqrt (.array (x :: xs)) (some metric) (some (p : Int))
          = .ok (.fin r) ∧
        IsDouble r ∧ (∀ e : ℚ, IsDouble e → |d - r| ≤ |d - e|) ∧
        (∃ n : Int, d = n * (1 / 10 ^ p)) ∧
        |d - v| ≤ 1 / 10 ^ p / 2 ∧
        ∀ m : Int, v * 10 ^ p = m + 1 / 2 → |d| = |v| + 1 / 10 ^ p / 2) ∧
    (∀ v : ℚ, runCalculation pow sqrt c (x :: xs) = .fin v → 10 ^ 21 ≤ |v| →
      calculateStatistic pow sqrt (.array (x :: xs)) (some metric) (some (p : Int))
        = .ok (.fin v)) ∧
    ((∀ v : ℚ, runCalculation pow sqrt c (x :: xs) ≠ .fin v) →
      calculateStatistic pow sqrt (.array (x :: xs)) (some metric) (some (p : Int))
        = .ok (runCalculation pow sqrt c (x :: xs))) := by
  have hres : calculateStatistic pow sqrt (.array (x :: xs)) (some metric) (some (p : Int))
      = .ok (roundedTo (runCalculation pow sqrt c (x :: xs)) p) := by
    simp only [calculateStatistic, Option.getD_some, hc]
    exact toFixed_eq_roundedTo _ p hp
  refine ⟨?_, ?_, ?_⟩
  · intro v hv h21
    have hb := @abs_roundHalfAway_sub ℚ _ _ v p
    have hsmall : |roundHalfAway v p| ≤ 2 ^ 71 := by
      have e : roundHalfAway v p = (roundHalfAway v p - v) + v := by ring
      have h1 := abs_add (roundHalfAway v p - v) v
      rw [← e] at h1
      have h2 : (1 : ℚ) / 10 ^ p / 2 ≤ 1 := by
        have h3 : (1 : ℚ) ≤ 10 ^ p := one_le_pow₀ (by norm_num)
        rw [div_div, div_le_one (by positivity)]
        linarith
      have h4 : (10 : ℚ) ^ 21 + 1 ≤ 2 ^ 71 := by norm_num
      linarith
    have hr := roundDouble_of_abs_le _ 71 (by norm_num) hsmall
    refine ⟨roundHalfAway v p, roundToGrid (roundHalfAway v p), ?_, ?_, ?_, ?_, hb, ?_⟩
    · rw [hres, hv]
      unfold roundedTo
      simp only [not_le.mpr h21, if_false]
      rw [hr]
    · exact isDouble_of_roundDouble hr
    · intro e he
      exact roundToGrid_nearest _ e he.onGrid
    · obtain ⟨n, hn⟩ := @roundHalfAway_multiple ℚ _ _ v p
      exact ⟨n, by rw [hn]; ring⟩
    · intro m hm
      exact abs_roundHalfAway_tie v p m hm
  · intro v hv h21
    rw [hres, hv]
    unfold roundedTo
    simp only [h21, if_true]
  · intro hv
    rw [hres]
    cases h : runCalculation pow sqrt c (x :: xs) with
    | fin v => exact absurd h (hv v)
    | posInf => rfl
    | negInf => rfl
    | nan => rfl

/-- C11 (amended) at `[-0.125]`, `'mean'`, precision 2: the tie goes to `-0.13`,
and the double nearest to it is returned. -/
theorem calculateStatistic_rounds_witness :
    runCalculation powNearest sqrtNearest .mean [.fin (-1 / 8)] = .fin (-1 / 8) ∧
    (-1 / 8 : ℚ) * 10 ^ 2 = (-13 : Int) + 1 / 2 ∧
    roundDouble (-13 / 100) = .fin (-1170935903116329 / 9007199254740992) ∧
    ∃ d r : ℚ,
      calculateStatistic powNearest sqrtNearest (.array [.fin (-1 / 8)]) (some "mean")
        (some ((2 : Nat) : Int)) = .ok (.fin r) ∧
      IsDouble r ∧ (∀ e : ℚ, IsDouble e → |d - r| ≤ |d - e|) ∧
      (∃ n : Int, d = n * (1 / 10 ^ 2)) ∧
      |d - -1 / 8| ≤ 1 / 10 ^ 2 / 2 ∧
      ∀ m : Int, (-1 / 8 : ℚ) * 10 ^ 2 = m + 1 / 2 → |d| = |(-1 / 8 : ℚ)| + 1 / 10 ^ 2 / 2 :=
  ⟨by decide!, by norm_num, by decide!,
    (calculateStatistic_rounds powNearest sqrtNearest (.fin (-1 / 8)) [] "mean" .mean 2
      (by norm_num) lookupCalculation_mean).1 (-1 / 8) (by decide!) (by decide!)⟩

/-! ### Counting up -/

theorem onGrid_pred_one : OnGrid (1 - 1 / 2 ^ 53) := by
  refine ⟨2 ^ 53 - 1, 1021, by norm_num, ?_⟩
  have e : (2 : ℚ) ^ 1074 = 2 ^ 53 * 2 ^ 1021 := by rw [← pow_add]
  have hc : (((2 : Int) ^ 53 - 1 : Int) : ℚ) = 2 ^ 53 - 1 := by norm_num
  have hg : ∀ a b : ℚ, a ≠ 0 → (1 - 1 / a) * (a * b) = (a - 1) * b := by
    intro a b ha
    field_simp
    ring
  rw [e, hc]
  exact hg _ _ (by positivity)

/-- The quotient of a double by a larger one does not round up to 1. -/
theorem roundToGrid_div_lt_one (e d : ℚ) (he : OnGrid e) (hd : OnGrid d) (hd0 : 0 < d)
    (hlt : e < d) : roundToGrid (e / d) < 1 := by
  rcases le_or_lt e 0 with he0 | he0
  · have h := roundToGrid_nonpos (e / d) (div_nonpos_of_nonpos_of_nonneg he0 (le_of_lt hd0))
    linarith
  · have hP : (0 : ℚ) < 2 ^ 1074 := by positivity
    obtain ⟨m, j, hm, hmj⟩ := hd
    obtain ⟨m', i, hm', hmi⟩ := he
    have hmq : |(m : ℚ)| < 2 ^ 53 := abs_intCast_lt m hm
    have hm'q : (m' : ℚ) ≤ 2 ^ 53 - 1 := by
      have h1 : m' < 2 ^ 53 := lt_of_le_of_lt (le_abs_self m') hm'
      have h2 : m' ≤ 2 ^ 53 - 1 := by omega
      have h3 : (m' : ℚ) ≤ ((2 ^ 53 - 1 : Int) : ℚ) := Int.cast_le.mpr h2
      norm_num at h3 ⊢
      exact h3
    have hmlt : (m : ℚ) < 2 ^ 53 := lt_of_le_of_lt (le_abs_self _) hmq
    have key : d * 2 ^ 1074 ≤ 2 ^ 53 * (d * 2 ^ 1074 - e * 2 ^ 1074) := by
      have hlt' : e * 2 ^ 1074 < d * 2 ^ 1074 := mul_lt_mul_of_pos_right hlt hP
      rw [hmj, hmi] at hlt' ⊢
      rcases le_or_lt j i with hji | hij
      · obtain ⟨k, hk⟩ : ∃ k, i = j + k := ⟨i - j, by omega⟩
        have hj : (0 : ℚ) < 2 ^ j := by positivity
        have e1 : (m' : ℚ) * 2 ^ i = ((m' * 2 ^ k : Int) : ℚ) * 2 ^ j := by
          rw [hk, pow_add]
          push_cast
          ring
        rw [e1] at hlt' ⊢
        have h1 : ((m' * 2 ^ k : Int) : ℚ) < m := lt_of_mul_lt_mul_right hlt' (le_of_lt hj)
        have h2 : m' * 2 ^ k < m := by exact_mod_cast h1
        have h3 : m' * 2 ^ k + 1 ≤ m := h2
        have h4 : ((m' * 2 ^ k : Int) : ℚ) + 1 ≤ m := by exact_mod_cast h3
        have h5 : (m : ℚ) ≤ 2 ^ 53 * ((m : ℚ) - ((m' * 2 ^ k : Int) : ℚ)) := by
          have : (2 : ℚ) ^ 53 * 1 ≤ 2 ^ 53 * ((m : ℚ) - ((m' * 2 ^ k : Int) : ℚ)) :=
            mul_le_mul_of_nonneg_left (by linarith) (by positivity)
          linarith
        have h6 := mul_le_mul_of_nonneg_right h5 (le_of_lt hj)
        calc (m : ℚ) * 2 ^ j ≤ 2 ^ 53 * ((m : ℚ) - ((m' * 2 ^ k : Int) : ℚ)) * 2 ^ j := h6
          _ = 2 ^ 53 * ((m : ℚ) * 2 ^ j - ((m' * 2 ^ k : Int) : ℚ) * 2 ^ j) := by ring
      · obtain ⟨k, hk⟩ : ∃ k, j = i + k := ⟨j - i, by omega⟩
        have hi : (0 : ℚ) < 2 ^ i := by positivity
        have e1 : (m : ℚ) * 2 ^ j = ((m * 2 ^ k : Int) : ℚ) * 2 ^ i := by
          rw [hk, pow_add]
          push_cast
          ring
        rw [e1] at hlt' ⊢
        have h1 : (m' : ℚ) < ((m * 2 ^ k : Int) : ℚ) := lt_of_mul_lt_mul_right hlt' (le_of_lt hi)
        have h2 : m' < m * 2 ^ k := by exact_mod_cast h1
        have h3 : m' + 1 ≤ m * 2 ^ k := h2
        have h4 : (m' : ℚ) + 1 ≤ ((m * 2 ^ k : Int) : ℚ) := by exact_mod_cast h3
        generalize ((m * 2 ^ k : Int) : ℚ) = M at h1 h4 ⊢
        have h5 : M ≤ 2 ^ 53 * (M - m') := by
          rcases le_or_lt M (2 ^ 53) with hM | hM
          · have : (2 : ℚ) ^ 53 * 1 ≤ 2 ^ 53 * (M - m') :=
              mul_le_mul_of_nonneg_left (by linarith) (by positivity)
            linarith
          · have a1 : (0 : ℚ) ≤ (2 ^ 53 - 1) * (M - 2 ^ 53) :=
              mul_nonneg (by norm_num) (by linarith)
            have a2 : (0 : ℚ) ≤ 2 ^ 53 * (2 ^ 53 - 1 - m') :=
              mul_nonneg (by positivity) (by linarith)
            linarith
        have h6 := mul_le_mul_of_nonneg_right h5 (le_of_lt hi)
        calc M * 2 ^ i ≤ 2 ^ 53 * (M - m') * 2 ^ i := h6
          _ = 2 ^ 53 * (M * 2 ^ i - (m' : ℚ) * 2 ^ i) := by ring
    have key2 : d ≤ 2 ^ 53 * (d - e) := by
      have e2 : (2 : ℚ) ^ 53 * (d * 2 ^ 1074 - e * 2 ^ 1074) = 2 ^ 53 * (d - e) * 2 ^ 1074 := by
        rw [← sub_mul, mul_assoc]
      rw [e2] at key
      exact le_of_mul_le_mul_right key hP
    have hbound : e / d ≤ 1 - 1 / 2 ^ 53 := by
      rw [div_le_iff₀ hd0]
      have e3 : (1 - 1 / (2 : ℚ) ^ 53) * d = d - d / 2 ^ 53 := by ring
      rw [e3]
      have : d / 2 ^ 53 ≤ d - e := by
        rw [div_le_iff₀ (by positivity)]
        linarith
      linarith
    have h := roundToGrid_le (e / d) _ onGrid_pred_one hbound
    have : (0 : ℚ) < 1 / 2 ^ 53 := by positivity
    linarith

theorem mem_classListAdd (classList : List String) (c d : String) :
    d ∈ classListAdd classList c ↔ d = c ∨ d ∈ classList := by
  unfold classListAdd
  by_cases h : c ∈ classList
  · simp only [h, if_true]
    constructor
    · exact fun hd => Or.inr hd
    · rintro (rfl | hd)
      · exact h
      · exact hd
  · simp only [h, if_false, List.mem_append, List.mem_singleton]
    tauto

theorem mem_classListRemove (classList cs : List String) (d : String) :
    d ∈ classListRemove classList cs ↔ d ∈ classList ∧ d ∉ cs := by
  simp [classListRemove, List.mem_filter]

theorem onGrid_one : OnGrid 1 := isDouble_one.onGrid

theorem progress_lt_one (x d : ℚ) (hd : IsDouble d) (hd0 : 0 < d)
    (h : (roundDouble x).lt (.fin d) = true) :
    (mathMin ((roundDouble x).div (.fin d)) (.fin 1)).lt (.fin 1) = true := by
  have hx := onGrid_roundToGrid x
  rcases roundDouble_cases x with ⟨e, _⟩ | ⟨e, _⟩ | ⟨e, _⟩
  · rw [e] at h ⊢
    simp only [JsNumber.lt, decide_eq_true_eq] at h
    rw [div_fin _ _ (ne_of_gt hd0)]
    have hlt := roundToGrid_div_lt_one _ d hx hd.onGrid hd0 h
    rcases roundDouble_cases (roundToGrid x / d) with ⟨e2, _⟩ | ⟨e2, h2⟩ | ⟨e2, _⟩
    · rw [e2]
      have h1 : ¬ (1 < roundToGrid (roundToGrid x / d)) := not_lt.mpr (le_of_lt hlt)
      simp [mathMin, JsNumber.lt, h1, hlt]
    · have : (1 : ℚ) < 2 ^ 1024 := one_lt_pow₀ (by norm_num) (by norm_num)
      linarith
    · rw [e2]
      rfl
  · rw [e] at h
    exact Bool.noConfusion h
  · rw [e]
    simp [JsNumber.div, le_of_lt hd0, mathMin, JsNumber.lt]

theorem progress_eq_one (x d : ℚ) (hd0 : 0 < d) (h : (roundDouble x).lt (.fin d) = false) :
    mathMin ((roundDouble x).div (.fin d)) (.fin 1) = .fin 1 := by
  rcases roundDouble_cases x with ⟨e, _⟩ | ⟨e, _⟩ | ⟨e, _⟩
  · rw [e] at h ⊢
    simp only [JsNumber.lt, decide_eq_false_iff_not, not_lt] at h
    rw [div_fin _ _ (ne_of_gt hd0)]
    have hge : 1 ≤ roundToGrid (roundToGrid x / d) :=
      le_roundToGrid _ 1 onGrid_one ((one_le_div hd0).mpr h)
    rcases roundDouble_cases (roundToGrid x / d) with ⟨e2, _⟩ | ⟨e2, _⟩ | ⟨e2, h2⟩
    · rw [e2]
      by_cases h1 : 1 < roundToGrid (roundToGrid x / d)
      · simp [mathMin, JsNumber.lt, h1]
      · have : roundToGrid (roundToGrid x / d) = 1 := le_antisymm (not_lt.mp h1) hge
        simp [mathMin, JsNumber.lt, this]
    · rw [e2]
      rfl
    · have : (0 : ℚ) < 2 ^ 1024 := by positivity
      linarith
  · rw [e]
    simp [JsNumber.div, le_of_lt hd0, mathMin, JsNumber.lt]
  · rw [e] at h
    exact Bool.noConfusion h

theorem easeOutCubic_one (pow : JsNumber → JsNumber → JsNumber)
    (hpow : pow (.fin 0) (.fin 3) = .fin 0) : easeOutCubic pow (.fin 1) = .fin 1 := by
  unfold easeOutCubic
  rw [sub_fin, sub_self, roundDouble_of_isDouble isDouble_zero, hpow, sub_fin, sub_zero,
    roundDouble_of_isDouble isDouble_one]

theorem range_eq (start endValue : Int) (hrange : |endValue - start| ≤ 2 ^ 53) :
    (JsNumber.fin endValue).sub (.fin start) = .fin ((endValue - start : Int) : ℚ) := by
  rw [sub_fin, ← Int.cast_sub, roundDouble_intCast _ hrange]

theorem currentValue_at_end (pow : JsNumber → JsNumber → JsNumber) (start endValue : Int)
    (duration now t : ℚ) (hend : |endValue| ≤ 2 ^ 53) (hrange : |endValue - start| ≤ 2 ^ 53)
    (hd : 0 < duration) (hpow : pow (.fin 0) (.fin 3) = .fin 0)
    (ht : ((JsNumber.fin t).sub (.fin now)).lt (.fin duration) = false) :
    currentValue pow (.fin start) ((JsNumber.fin endValue).sub (.fin start)) (.fin duration)
      (.fin now) (.fin t) = .fin endValue := by
  rw [sub_fin] at ht
  unfold currentValue
  simp only
  rw [sub_fin t now, progress_eq_one _ _ hd ht, easeOutCubic_one pow hpow,
    range_eq start endValue hrange, mul_fin, mul_one, roundDouble_intCast _ hrange, add_fin,
    ← Int.cast_add]
  have e : start + (endValue - start) = endValue := by ring
  rw [e, roundDouble_intCast _ hend]
  simp [mathFloor]

theorem updateCount_before_end (pow : JsNumber → JsNumber → JsNumber)
    (start range : JsNumber) (duration now u : ℚ) (element : CounterElement)
    (hdd : IsDouble duration) (hd : 0 < duration)
    (hu : ((JsNumber.fin u).sub (.fin now)).lt (.fin duration) = true) :
    (updateCount pow start range (.fin duration) (.fin now) element (.fin u)).2 = true := by
  rw [sub_fin] at hu
  unfold updateCount
  simp only
  rw [sub_fin, if_pos (progress_lt_one _ _ hdd hd hu)]

theorem updateCount_at_end (pow : JsNumber → JsNumber → JsNumber) (start endValue : Int)
    (duration now t : ℚ) (element : CounterElement) (hend : |endValue| ≤ 2 ^ 53)
    (hrange : |endValue - start| ≤ 2 ^ 53) (hd : 0 < duration)
    (hpow : pow (.fin 0) (.fin 3) = .fin 0)
    (ht : ((JsNumber.fin t).sub (.fin now)).lt (.fin duration) = false) :
    updateCount pow (.fin start) ((JsNumber.fin endValue).sub (.fin start)) (.fin duration)
      (.fin now) element (.fin t) =
      ({ textContent := .ofNumber (.fin endValue),
         classList := classListAdd
           (classListRemove (classListAdd element.classList "counting") ["counting"])
           "count-complete" }, false) := by
  have hv := currentValue_at_end pow start endValue duration now t hend hrange hd hpow ht
  rw [sub_fin] at ht
  unfold updateCount
  simp only
  rw [hv, sub_fin t now, progress_eq_one _ _ hd ht]
  simp [JsNumber.lt]

theorem frameLoop_skip (pow : JsNumber → JsNumber → JsNumber) (start range : JsNumber)
    (duration now : ℚ) (hdd : IsDouble duration) (hd : 0 < duration) (pre : List ℚ)
    (rest : List JsNumber)
    (hpre : ∀ u ∈ pre, ((JsNumber.fin u).sub (.fin now)).lt (.fin duration) = true) :
    ∀ element : CounterElement, ∃ element' : CounterElement,
      frameLoop pow start range (.fin duration) (.fin now) element (pre.map .fin ++ rest)
        = frameLoop pow start range (.fin duration) (.fin now) element' rest := by
  induction pre with
  | nil => intro element; exact ⟨element, rfl⟩
  | cons u us ih =>
    intro element
    have hu := updateCount_before_end pow start range duration now u element hdd hd
      (hpre u (List.mem_cons_self _ _))
    obtain ⟨e', he'⟩ := ih (fun v hv => hpre v (List.mem_cons_of_mem _ hv))
      (updateCount pow start range (.fin duration) (.fin now) element (.fin u)).1
    refine ⟨e', ?_⟩
    rw [← he']
    simp only [List.map_cons, List.cons_append, frameLoop]
    cases hup : updateCount pow start range (.fin duration) (.fin now) element (.fin u) with
    | mk el again =>
      rw [hup] at hu
      simp only at hu
      subst hu
      rfl

/-- C12, as stated, fails: numbers are doubles, and
`animateCountUp(el, 1, 2^53 + 2, 1000)` ends displaying `2^53`, not
`end = 2^53 + 2` (the range `2^53 + 1` rounds to `2^53`, and so does
`1 + 2^53`). -/
theorem animateCountUp_misses_end :
    IsDouble (2 ^ 53 + 2) ∧
    (animateCountUp powNearest { textContent := .text "0", classList := [] } (.fin 1)
      (.fin (2 ^ 53 + 2)) (.fin 1000) (.fin 0)
      [.fin 16, .fin 1000, .fin 1016]).element.textContent = .ofNumber (.fin (2 ^ 53)) ∧
    (animateCountUp powNearest { textContent := .text "0", classList := [] } (.fin 1)
      (.fin (2 ^ 53 + 2)) (.fin 1000) (.fin 0)
      [.fin 16, .fin 1000, .fin 1016]).framePending = false ∧
    JsNumber.fin (2 ^ 53) ≠ .fin (2 ^ 53 + 2) := by
  decide!

/-- C12 (amended): for integers `start` and `end` that, like `end - start`, are
at most `2^53` in magnitude, and a duration above 0, when the frames before `t`
come at an elapsed time below the duration and `t` is a frame with elapsed time
at least the duration, `animateCountUp` computes the value `end` at `t`, ends
displaying exactly `end`, with `counting` removed and `count-complete` added, and
asks for no further frame (the later frames are not used).  `Math.pow(0, 3)` is
`0`, as ECMAScript prescribes. -/
theorem animateCountUp_ends_at_end (pow : JsNumber → JsNumber → JsNumber)
    (element : CounterElement) (start endValue : Int) (duration now t : ℚ)
    (pre : List ℚ) (post : List JsNumber) (_hstart : |start| ≤ 2 ^ 53)
    (hend : |endValue| ≤ 2 ^ 53) (hrange : |endValue - start| ≤ 2 ^ 53)
    (hdd : IsDouble duration) (hd : 0 < duration) (hpow : pow (.fin 0) (.fin 3) = .fin 0)
    (hpre : ∀ u ∈ pre, ((JsNumber.fin u).sub (.fin now)).lt (.fin duration) = true)
    (ht : ((JsNumber.fin t).sub (.fin now)).lt (.fin duration) = false) :
    currentValue pow (.fin start) ((JsNumber.fin endValue).sub (.fin start)) (.fin duration)
      (.fin now) (.fin t) = .fin endValue ∧
    (animateCountUp pow element (.fin start) (.fin endValue) (.fin duration) (.fin now)
      (pre.map .fin ++ .fin t :: post)).element.textContent = .ofNumber (.fin endValue) ∧
    "counting" ∉ (animateCountUp pow element (.fin start) (.fin endValue) (.fin duration)
      (.fin now) (pre.map .fin ++ .fin t :: post)).element.classList ∧
    "count-complete" ∈ (animateCountUp pow element (.fin start) (.fin endValue) (.fin duration)
      (.fin now) (pre.map .fin ++ .fin t :: post)).element.classList ∧
    (animateCountUp pow element (.fin start) (.fin endValue) (.fin duration) (.fin now)
      (pre.map .fin ++ .fin t :: post)).framePending = false ∧
    (animateCountUp pow element (.fin start) (.fin endValue) (.fin duration) (.fin now)
      (pre.map .fin ++ .fin t :: post)).unusedFrames = post := by
  obtain ⟨e', he'⟩ := frameLoop_skip pow (.fin start) ((JsNumber.fin endValue).sub (.fin start))
    duration now hdd hd pre (.fin t :: post) hpre element
  have hrun : animateCountUp pow element (.fin start) (.fin endValue) (.fin duration) (.fin now)
      (pre.map .fin ++ .fin t :: post) =
      { element :=
          { textContent := .ofNumber (.fin endValue),
            classList := classListAdd
              (classListRemove (classListAdd e'.classList "counting") ["counting"])
              "count-complete" },
        framePending := false, unusedFrames := post } := by
    unfold animateCountUp
    simp only
    rw [he']
    simp only [frameLoop,
      updateCount_at_end pow start endValue duration now t e' hend hrange hd hpow ht]
  rw [hrun]
  refine ⟨currentValue_at_end pow start endValue duration now t hend hrange hd hpow ht, rfl,
    ?_, ?_, rfl, rfl⟩
  · simp [mem_classListAdd, mem_classListRemove]
  · simp [mem_classListAdd]

/-- C12 (amended) at `animateCountUp(el, 0, 100, 1000)` started at time 5 with
frames at 21, 505, 1005 and 1021: it ends displaying `100`. -/
theorem animateCountUp_ends_at_end_witness :
    (animateCountUp powNearest { textContent := .text "0", classList := [] }
      (.fin ((0 : Int) : ℚ)) (.fin ((100 : Int) : ℚ)) (.fin 1000) (.fin 5)
      (([21, 505] : List ℚ).map .fin ++ .fin 1005 :: [.fin 1021])).element.textContent
      = .ofNumber (.fin ((100 : Int) : ℚ)) ∧
    (animateCountUp powNearest { textContent := .text "0", classList := [] }
      (.fin ((0 : Int) : ℚ)) (.fin ((100 : Int) : ℚ)) (.fin 1000) (.fin 5)
      (([21, 505] : List ℚ).map .fin ++ .fin 1005 :: [.fin 1021])).unusedFrames
      = [.fin 1021] :=
  have h := animateCountUp_ends_at_end powNearest { textContent := .text "0", classList := [] }
    0 100 1000 5 1005 [21, 505] [.fin 1021] (by decide) (by decide) (by decide) (by decide!)
    (by norm_num) (by decide!) (by decide!) (by decide!)
  ⟨h.2.1, h.2.2.2.2.2⟩

theorem roundDouble_unit (x : ℚ) (h0 : 0 ≤ x) (h1 : x ≤ 1) :
    roundDouble x = .fin (roundToGrid x) ∧ 0 ≤ roundToGrid x ∧ roundToGrid x ≤ 1 := by
  refine ⟨roundDouble_of_abs_le x 0 (by norm_num) ?_, roundToGrid_nonneg x h0,
    roundToGrid_le x 1 onGrid_one h1⟩
  rw [abs_of_nonneg h0, pow_zero]
  exact h1

theorem fin_of_le_of_le (x : JsNumber) (h0 : (JsNumber.fin 0).le x = true)
    (h1 : x.le (.fin 1) = true) : ∃ c : ℚ, x = .fin c ∧ 0 ≤ c ∧ c ≤ 1 := by
  cases x with
  | fin c =>
    simp only [JsNumber.le, decide_eq_true_eq] at h0 h1
    exact ⟨c, rfl, h0, h1⟩
  | posInf => exact Bool.noConfusion h1
  | negInf => exact Bool.noConfusion h0
  | nan => exact Bool.noConfusion h0

theorem pow_unit (pow : JsNumber → JsNumber → JsNumber)
    (hpow0 : pow (.fin 0) (.fin 3) = .fin 0) (hpow1 : pow (.fin 1) (.fin 3) = .fin 1)
    (hmono : ∀ a b : ℚ, 0 ≤ a → a ≤ b → b ≤ 1 →
      (pow (.fin a) (.fin 3)).le (pow (.fin b) (.fin 3)) = true)
    (a : ℚ) (h0 : 0 ≤ a) (h1 : a ≤ 1) :
    ∃ c : ℚ, pow (.fin a) (.fin 3) = .fin c ∧ 0 ≤ c ∧ c ≤ 1 := by
  have ha := hmono 0 a (le_refl 0) h0 h1
  have hb := hmono a 1 h0 h1 (le_refl 1)
  rw [hpow0] at ha
  rw [hpow1] at hb
  exact fin_of_le_of_le _ ha hb

theorem easeOutCubic_unit (pow : JsNumber → JsNumber → JsNumber)
    (hpow0 : pow (.fin 0) (.fin 3) = .fin 0) (hpow1 : pow (.fin 1) (.fin 3) = .fin 1)
    (hmono : ∀ a b : ℚ, 0 ≤ a → a ≤ b → b ≤ 1 →
      (pow (.fin a) (.fin 3)).le (pow (.fin b) (.fin 3)) = true)
    (p : ℚ) (h0 : 0 ≤ p) (h1 : p ≤ 1) :
    ∃ c : ℚ, easeOutCubic pow (.fin p) = .fin c ∧ 0 ≤ c ∧ c ≤ 1 := by
  obtain ⟨e1, e2, e3⟩ := roundDouble_unit (1 - p) (by linarith) (by linarith)
  obtain ⟨c, hc, hc0, hc1⟩ := pow_unit pow hpow0 hpow1 hmono _ e2 e3
  obtain ⟨f1, f2, f3⟩ := roundDouble_unit (1 - c) (by linarith) (by linarith)
  refine ⟨roundToGrid (1 - c), ?_, f2, f3⟩
  unfold easeOutCubic
  rw [sub_fin, e1, hc, sub_fin, f1]

theorem easeOutCubic_mono (pow : JsNumber → JsNumber → JsNumber)
    (hpow0 : pow (.fin 0) (.fin 3) = .fin 0) (hpow1 : pow (.fin 1) (.fin 3) = .fin 1)
    (hmono : ∀ a b : ℚ, 0 ≤ a → a ≤ b → b ≤ 1 →
      (pow (.fin a) (.fin 3)).le (pow (.fin b) (.fin 3)) = true)
    (a b : ℚ) (h0 : 0 ≤ a) (hab : a ≤ b) (h1 : b ≤ 1) :
    (easeOutCubic pow (.fin a)).le (easeOutCubic pow (.fin b)) = true := by
  obtain ⟨ea1, ea2, ea3⟩ := roundDouble_unit (1 - a) (by linarith) (by linarith)
  obtain ⟨eb1, eb2, eb3⟩ := roundDouble_unit (1 - b) (by linarith) (by linarith)
  have hba : roundToGrid (1 - b) ≤ roundToGrid (1 - a) := roundToGrid_mono _ _ (by linarith)
  obtain ⟨ca, hca, hca0, hca1⟩ := pow_unit pow hpow0 hpow1 hmono _ ea2 ea3
  obtain ⟨cb, hcb, hcb0, hcb1⟩ := pow_unit pow hpow0 hpow1 hmono _ eb2 eb3
  have hc := hmono _ _ eb2 hba ea3
  rw [hca, hcb] at hc
  simp only [JsNumber.le, decide_eq_true_eq] at hc
  obtain ⟨fa1, _, _⟩ := roundDouble_unit (1 - ca) (by linarith) (by linarith)
  obtain ⟨fb1, _, _⟩ := roundDouble_unit (1 - cb) (by linarith) (by linarith)
  unfold easeOutCubic
  rw [sub_fin, ea1, hca, sub_fin, fa1, sub_fin, eb1, hcb, sub_fin, fb1]
  simp only [JsNumber.le, decide_eq_true_eq]
  exact roundToGrid_mono _ _ (by linarith)

theorem easeOutCubic_zero (pow : JsNumber → JsNumber → JsNumber)
    (hpow1 : pow (.fin 1) (.fin 3) = .fin 1) : easeOutCubic pow (.fin 0) = .fin 0 := by
  unfold easeOutCubic
  rw [sub_fin, sub_zero, roundDouble_of_isDouble isDouble_one, hpow1, sub_fin, sub_self,
    roundDouble_of_isDouble isDouble_zero]

/-- The `progress` of `updateCount` at an elapsed time that is not negative. -/
theorem progress_eq (x d : ℚ) (hx : 0 ≤ x) (hdd : IsDouble d) (hd : 0 < d) :
    mathMin ((roundDouble x).div (.fin d)) (.fin 1)
      = .fin (min (roundToGrid (roundToGrid x / d)) 1) := by
  have hx0 := roundToGrid_nonneg x hx
  have hq0 : 0 ≤ roundToGrid x / d := div_nonneg hx0 (le_of_lt hd)
  have hr0 := roundToGrid_nonneg _ hq0
  have hbig : (1 : ℚ) < 2 ^ 1024 := one_lt_pow₀ (by norm_num) (by norm_num)
  rcases roundDouble_cases x with ⟨e, _⟩ | ⟨e, h2⟩ | ⟨e, h2⟩
  · rw [e, div_fin _ _ (ne_of_gt hd)]
    rcases roundDouble_cases (roundToGrid x / d) with ⟨e2, _⟩ | ⟨e2, h3⟩ | ⟨e2, h3⟩
    · rw [e2]
      by_cases h1 : 1 < roundToGrid (roundToGrid x / d)
      · simp [mathMin, JsNumber.lt, h1, min_eq_right (le_of_lt h1)]
      · simp [mathMin, JsNumber.lt, h1, min_eq_left (not_lt.mp h1)]
    · rw [e2, min_eq_right (by linarith)]
      rfl
    · linarith
  · have hdlt : d < 2 ^ 1024 := lt_of_le_of_lt (le_abs_self d) hdd.abs_lt
    have h1 : 1 ≤ roundToGrid x / d := (one_le_div hd).mpr (by linarith)
    have h3 := le_roundToGrid _ 1 onGrid_one h1
    rw [e, min_eq_right h3]
    simp [JsNumber.div, le_of_lt hd, mathMin, JsNumber.lt]
  · linarith

theorem progress_mono (x y d : ℚ) (hxy : x ≤ y) (hd : 0 < d) :
    min (roundToGrid (roundToGrid x / d)) 1 ≤ min (roundToGrid (roundToGrid y / d)) 1 :=
  min_le_min (roundToGrid_mono _ _
    (div_le_div_of_nonneg_right (roundToGrid_mono _ _ hxy) (le_of_lt hd))) (le_refl 1)

theorem progress_nonneg (x d : ℚ) (hx : 0 ≤ x) (hd : 0 < d) :
    0 ≤ min (roundToGrid (roundToGrid x / d)) 1 :=
  le_min (roundToGrid_nonneg _ (div_nonneg (roundToGrid_nonneg x hx) (le_of_lt hd))) zero_le_one

/-- The value displayed for an eased progress `c` between 0 and 1. -/
theorem value_eq (start endValue : Int) (c : ℚ) (hstart : |start| ≤ 2 ^ 53)
    (hend : |endValue| ≤ 2 ^ 53) (hrange : |endValue - start| ≤ 2 ^ 53) (hse : start ≤ endValue)
    (hc0 : 0 ≤ c) (hc1 : c ≤ 1) :
    mathFloor ((JsNumber.fin start).add
        (((JsNumber.fin endValue).sub (.fin start)).mul (.fin c)))
      = .fin (⌊roundToGrid (start + roundToGrid (((endValue - start : Int) : ℚ) * c))⌋ : Int) ∧
    start ≤ ⌊roundToGrid (start + roundToGrid (((endValue - start : Int) : ℚ) * c))⌋ ∧
    ⌊roundToGrid (start + roundToGrid (((endValue - start : Int) : ℚ) * c))⌋ ≤ endValue := by
  have hR0 : (0 : ℚ) ≤ ((endValue - start : Int) : ℚ) := by
    have : 0 ≤ endValue - start := by omega
    exact_mod_cast this
  have hRg := onGrid_intCast _ hrange
  have hy0 : 0 ≤ roundToGrid (((endValue - start : Int) : ℚ) * c) :=
    roundToGrid_nonneg _ (mul_nonneg hR0 hc0)
  have hy1 : roundToGrid (((endValue - start : Int) : ℚ) * c) ≤ ((endValue - start : Int) : ℚ) :=
    roundToGrid_le _ _ hRg (by nlinarith)
  have h53 : (((endValue - start : Int) : ℚ)) ≤ 2 ^ 53 := by
    have h1 : endValue - start ≤ 2 ^ 53 := le_trans (le_abs_self _) hrange
    have h2 : ((endValue - start : Int) : ℚ) ≤ ((2 ^ 53 : Int) : ℚ) := Int.cast_le.mpr h1
    norm_num at h2 ⊢
    exact h2
  have hy : roundDouble (((endValue - start : Int) : ℚ) * c)
      = .fin (roundToGrid (((endValue - start : Int) : ℚ) * c)) := by
    apply roundDouble_of_abs_le _ 53 (by norm_num)
    rw [abs_of_nonneg (mul_nonneg hR0 hc0)]
    nlinarith
  have hz0 : (start : ℚ) ≤ roundToGrid (start + roundToGrid (((endValue - start : Int) : ℚ) * c)) :=
    le_roundToGrid _ _ (onGrid_intCast _ hstart) (by linarith)
  have hz1 : roundToGrid (start + roundToGrid (((endValue - start : Int) : ℚ) * c))
      ≤ (endValue : ℚ) := by
    apply roundToGrid_le _ _ (onGrid_intCast _ hend)
    have : ((endValue - start : Int) : ℚ) = endValue - start := by push_cast; ring
    linarith
  have hs53 : -(2 : ℚ) ^ 53 ≤ start := by
    have h1 : -(2 ^ 53) ≤ start := by
      have := neg_abs_le start
      omega
    have h2 : ((-(2 ^ 53) : Int) : ℚ) ≤ (start : ℚ) := Int.cast_le.mpr h1
    norm_num at h2 ⊢
    exact h2
  have he53 : (endValue : ℚ) ≤ 2 ^ 53 := by
    have h1 : endValue ≤ 2 ^ 53 := le_trans (le_abs_self _) hend
    have h2 : (endValue : ℚ) ≤ ((2 ^ 53 : Int) : ℚ) := Int.cast_le.mpr h1
    norm_num at h2 ⊢
    exact h2
  have hz : roundDouble (start + roundToGrid (((endValue - start : Int) : ℚ) * c))
      = .fin (roundToGrid (start + roundToGrid (((endValue - start : Int) : ℚ) * c))) := by
    rw [roundDouble_eq_fin_iff]
    refine ⟨rfl, ?_⟩
    have hbig : (2 : ℚ) ^ 53 < 2 ^ 1024 := pow_lt_pow_right₀ (by norm_num) (by norm_num)
    rw [abs_lt]
    constructor <;> linarith
  refine ⟨?_, ?_, ?_⟩
  · rw [range_eq start endValue hrange, mul_fin, hy, add_fin, hz]
    rfl
  · rw [Int.le_floor]
    exact hz0
  · have := Int.floor_le_floor hz1
    rwa [Int.floor_intCast] at this

theorem powNearest_three (a : ℚ) : powNearest (.fin a) (.fin 3) = roundDouble (a ^ 3) := by
  have h : (3 : ℚ).den = 1 ∧ 0 ≤ (3 : ℚ).num := by decide
  simp only [powNearest, h, and_self, if_true]
  rfl

theorem powNearest_mono (a b : ℚ) (h0 : 0 ≤ a) (hab : a ≤ b) (h1 : b ≤ 1) :
    (powNearest (.fin a) (.fin 3)).le (powNearest (.fin b) (.fin 3)) = true := by
  have ha : a ^ 3 ≤ 1 := pow_le_one₀ h0 (le_trans hab h1)
  have hb : b ^ 3 ≤ 1 := pow_le_one₀ (le_trans h0 hab) h1
  obtain ⟨ea, _, _⟩ := roundDouble_unit (a ^ 3) (by positivity) ha
  obtain ⟨eb, _, _⟩ := roundDouble_unit (b ^ 3) (pow_nonneg (le_trans h0 hab) 3) hb
  rw [powNearest_three, powNearest_three, ea, eb]
  simp only [JsNumber.le, decide_eq_true_eq]
  exact roundToGrid_mono _ _ (pow_le_pow_left₀ h0 hab 3)

/-- C16, as stated, fails: numbers are doubles.  For `start = -2^53` and `end = 3`
the range `3 + 2^53` rounds to `2^53 + 4`, and the value displayed at the end is
`4`, above `end`.  And the value displayed is not the floor of the exact
expression: for `animateCountUp(el, 0, 500, 2000)` at 400 ms it is `243`, while
`floor(0 + 500 * (1 - (1 - 400/2000)^3))` is `244`. -/
theorem countUp_leaves_range :
    currentValue powNearest (.fin (-2 ^ 53)) ((JsNumber.fin 3).sub (.fin (-2 ^ 53)))
      (.fin 1000) (.fin 0) (.fin 1000) = .fin 4 ∧
    (JsNumber.fin 4).le (.fin 3) = false ∧
    currentValue powNearest (.fin 0) ((JsNumber.fin 500).sub (.fin 0)) (.fin 2000) (.fin 0)
      (.fin 400) = .fin 243 ∧
    ⌊(0 : ℚ) + (500 - 0) * (1 - (1 - min (400 / 2000) 1) ^ 3)⌋ = 244 := by
  decide!

/-- C16 (amended): let `Math.pow(x, 3)` be non-decreasing in `x` on `[0, 1]` with
`Math.pow(0, 3) = 0` and `Math.pow(1, 3) = 1`.  Then `easeOutCubic` is
non-decreasing on `[0, 1]` with `easeOutCubic(0) = 0` and `easeOutCubic(1) = 1`,
and for integers `start ≤ end` that, like `end - start`, are at most `2^53` in
magnitude, a duration above 0 and frame times `now ≤ t1 ≤ t2`, the value displayed
at `t1` is at most the value displayed at `t2` and lies between `start` and
`end`. -/
theorem countUp_monotone (pow : JsNumber → JsNumber → JsNumber) (start endValue : Int)
    (duration now t1 t2 : ℚ) (hstart : |start| ≤ 2 ^ 53) (hend : |endValue| ≤ 2 ^ 53)
    (hrange : |endValue - start| ≤ 2 ^ 53) (hse : start ≤ endValue) (hdd : IsDouble duration)
    (hd : 0 < duration) (h1 : now ≤ t1) (h12 : t1 ≤ t2)
    (hpow0 : pow (.fin 0) (.fin 3) = .fin 0) (hpow1 : pow (.fin 1) (.fin 3) = .fin 1)
    (hmono : ∀ a b : ℚ, 0 ≤ a → a ≤ b → b ≤ 1 →
      (pow (.fin a) (.fin 3)).le (pow (.fin b) (.fin 3)) = true) :
    (∀ a b : ℚ, 0 ≤ a → a ≤ b → b ≤ 1 →
      (easeOutCubic pow (.fin a)).le (easeOutCubic pow (.fin b)) = true) ∧
    easeOutCubic pow (.fin 0) = .fin 0 ∧ easeOutCubic pow (.fin 1) = .fin 1 ∧
    (currentValue pow (.fin start) ((JsNumber.fin endValue).sub (.fin start)) (.fin duration)
      (.fin now) (.fin t1)).le
      (currentValue pow (.fin start) ((JsNumber.fin endValue).sub (.fin start)) (.fin duration)
        (.fin now) (.fin t2)) = true ∧
    (JsNumber.fin start).le
      (currentValue pow (.fin start) ((JsNumber.fin endValue).sub (.fin start)) (.fin duration)
        (.fin now) (.fin t1)) = true ∧
    (currentValue pow (.fin start) ((JsNumber.fin endValue).sub (.fin start)) (.fin duration)
      (.fin now) (.fin t1)).le (.fin endValue) = true := by
  have hx1 : 0 ≤ t1 - now := by linarith
  have hx2 : 0 ≤ t2 - now := by linarith
  have hp1 := progress_eq (t1 - now) duration hx1 hdd hd
  have hp2 := progress_eq (t2 - now) duration hx2 hdd hd
  have hp12 := progress_mono (t1 - now) (t2 - now) duration (by linarith) hd
  have hp10 := progress_nonneg (t1 - now) duration hx1 hd
  have hp20 := progress_nonneg (t2 - now) duration hx2 hd
  have hp11 : min (roundToGrid (roundToGrid (t1 - now) / duration)) 1 ≤ (1 : ℚ) :=
    min_le_right _ _
  have hp21 : min (roundToGrid (roundToGrid (t2 - now) / duration)) 1 ≤ (1 : ℚ) :=
    min_le_right _ _
  obtain ⟨c1, hc1, hc10, hc11⟩ := easeOutCubic_unit pow hpow0 hpow1 hmono _ hp10 hp11
  obtain ⟨c2, hc2, hc20, hc21⟩ := easeOutCubic_unit pow hpow0 hpow1 hmono _ hp20 hp21
  have hc12 : c1 ≤ c2 := by
    have h := easeOutCubic_mono pow hpow0 hpow1 hmono _ _ hp10 hp12 hp21
    rw [hc1, hc2] at h
    simpa [JsNumber.le] using h
  obtain ⟨v1, v1lo, v1hi⟩ := value_eq start endValue c1 hstart hend hrange hse hc10 hc11
  obtain ⟨v2, _, _⟩ := value_eq start endValue c2 hstart hend hrange hse hc20 hc21
  have hcv1 : currentValue pow (.fin start) ((JsNumber.fin endValue).sub (.fin start))
      (.fin duration) (.fin now) (.fin t1)
      = .fin (⌊roundToGrid (start + roundToGrid (((endValue - start : Int) : ℚ) * c1))⌋ : Int) := by
    unfold currentValue
    simp only
    rw [sub_fin t1 now, hp1, hc1]
    exact v1
  have hcv2 : currentValue pow (.fin start) ((JsNumber.fin endValue).sub (.fin start))
      (.fin duration) (.fin now) (.fin t2)
      = .fin (⌊roundToGrid (start + roundToGrid (((endValue - start : Int) : ℚ) * c2))⌋ : Int) := by
    unfold currentValue
    simp only
    rw [sub_fin t2 now, hp2, hc2]
    exact v2
  have hR0 : (0 : ℚ) ≤ ((endValue - start : Int) : ℚ) := by
    have : 0 ≤ endValue - start := by omega
    exact_mod_cast this
  refine ⟨fun a b ha hab hb => easeOutCubic_mono pow hpow0 hpow1 hmono a b ha hab hb,
    easeOutCubic_zero pow hpow1, easeOutCubic_one pow hpow0, ?_, ?_, ?_⟩
  · rw [hcv1, hcv2]
    simp only [JsNumber.le, decide_eq_true_eq, Int.cast_le]
    apply Int.floor_le_floor
    apply roundToGrid_mono
    have := roundToGrid_mono _ _ (mul_le_mul_of_nonneg_left hc12 hR0)
    linarith
  · rw [hcv1]
    simp only [JsNumber.le, decide_eq_true_eq, Int.cast_le]
    exact v1lo
  · rw [hcv1]
    simp only [JsNumber.le, decide_eq_true_eq, Int.cast_le]
    exact v1hi

/-- C16 (amended) at `start = 0`, `end = 100`, duration 1000, frames at 250 and 500 ms. -/
theorem countUp_monotone_witness :
    (currentValue powNearest (.fin ((0 : Int) : ℚ))
      ((JsNumber.fin ((100 : Int) : ℚ)).sub (.fin ((0 : Int) : ℚ))) (.fin 1000) (.fin 0)
      (.fin 250)).le
      (currentValue powNearest (.fin ((0 : Int) : ℚ))
        ((JsNumber.fin ((100 : Int) : ℚ)).sub (.fin ((0 : Int) : ℚ))) (.fin 1000) (.fin 0)
        (.fin 500)) = true ∧
    (JsNumber.fin ((0 : Int) : ℚ)).le
      (currentValue powNearest (.fin ((0 : Int) : ℚ))
        ((JsNumber.fin ((100 : Int) : ℚ)).sub (.fin ((0 : Int) : ℚ))) (.fin 1000) (.fin 0)
        (.fin 250)) = true ∧
    (currentValue powNearest (.fin ((0 : Int) : ℚ))
      ((JsNumber.fin ((100 : Int) : ℚ)).sub (.fin ((0 : Int) : ℚ))) (.fin 1000) (.fin 0)
      (.fin 250)).le (.fin ((100 : Int) : ℚ)) = true :=
  (countUp_monotone powNearest 0 100 1000 0 250 500 (by decide) (by decide) (by decide)
    (by decide) (by decide!) (by norm_num) (by norm_num) (by norm_num) (by decide!) (by decide!)
    powNearest_mono).2.2.2

/-! ### Instances at concrete inputs -/

/-- C1 at two forms: one with every required field blank or missing, one with all present. -/
theorem processFormData_validation_witness :
    (processFormData "t" [("name", "  "), ("email", "")] none).validation
      = { isValid := false,
          errors := ["Name is required", "Email is required", "Message is required"] } ∧
    (processFormData "t" [("name", " Ada "), ("email", "a@b.c"), ("message", "hi")]
        none).validation = { isValid := true, errors := [] } := by
  have h1 := processFormData_validation "t" [("name", "  "), ("email", "")] none
  have h2 := processFormData_validation "t"
    [("name", " Ada "), ("email", "a@b.c"), ("message", "hi")] none
  have b1 := h1.2.2.1 ⟨by decide, by decide, by decide⟩
  have b2 := h2.2.2.2 ⟨by decide, by decide, by decide⟩
  constructor
  · cases hv : (processFormData "t" [("name", "  "), ("email", "")] none).validation with
    | mk v e =>
      rw [hv] at b1
      simp only at b1
      rw [b1.1, b1.2.2]
  · cases hv : (processFormData "t"
        [("name", " Ada "), ("email", "a@b.c"), ("message", "hi")] none).validation with
    | mk v e =>
      rw [hv] at b2
      simp only at b2
      rw [b2.1, b2.2]

/-- C2 at the example document: navigating to `home` from the initial state, and
navigating to `about` while a transition is in flight. -/
theorem navigateToSection_noop_witness :
    navigateToSection (initialState exampleDocument) "home"
      = { state := initialState exampleDocument, thrown := none } ∧
    navigateToSection { initialState exampleDocument with isAnimating := true } "about"
      = { state := { initialState exampleDocument with isAnimating := true },
          thrown := none } :=
  ⟨navigateToSection_noop (initialState exampleDocument) "home" (Or.inr rfl),
   navigateToSection_noop { initialState exampleDocument with isAnimating := true } "about"
     (Or.inl rfl)⟩

/-- C3 at the example document: the transition from `home` to `about`. -/
theorem navigateToSection_full_transition_witness :
    Idle (initialState exampleDocument) ∧
    IsSectionAt exampleDocument "home" 0 ∧ IsSectionAt exampleDocument "about" 1 ∧
    ∃ s1 s2 s3 t1 t2,
      navigateToSection (initialState exampleDocument) "about"
        = { state := s1, thrown := none } ∧
      s1.timers = [{ delay := 300, due := (initialState exampleDocument).now + 300,
                     callback := t1 }] ∧
      s1.isAnimating = true ∧
      fireNextTimer s1 = some { state := s2, thrown := none } ∧
      s2.timers = [{ delay := 500, due := (initialState exampleDocument).now + 300 + 500,
                     callback := t2 }] ∧
      s2.isAnimating = true ∧
      fireNextTimer s2 = some { state := s3, thrown := none } ∧
      s3.timers = [] ∧ s3.now = (initialState exampleDocument).now + 800 ∧
      s3.currentSection = "about" ∧ s3.isAnimating = false ∧
      "active" ∈ classesAt s3.document 1 ∧
      "active" ∉ classesAt s3.document 0 ∧
      "section-exit" ∉ classesAt s3.document 0 ∧
      "section-enter" ∉ classesAt s3.document 1 ∧
      NavHighlightOn s3.document "about" :=
  ⟨⟨rfl, rfl⟩, ⟨by decide, _, rfl, by decide⟩, ⟨by decide, _, rfl, by decide⟩,
   navigateToSection_full_transition (initialState exampleDocument) "about" 0 1
     ⟨rfl, rfl⟩ ⟨by decide, _, rfl, by decide⟩ ⟨by decide, _, rfl, by decide⟩ (by decide)⟩

/-- C4 (amended) at the example document: to `about`, back towards `home`, with a
call in between that the lock rejects. -/
theorem one_active_reachable_witness :
    ExactlyOneActive (initialState exampleDocument) ∧
    ExactlyOneActive (runEvents (initialState exampleDocument)
      [.navigate "about", .timerFires, .navigate "home", .timerFires, .navigate "home",
       .timerFires]) :=
  ⟨by decide,
   one_active_reachable exampleDocument
     [.navigate "about", .timerFires, .navigate "home", .timerFires, .navigate "home",
      .timerFires]
     (by decide)
     (by
       intro t ht
       simp only [navigationTargets, List.mem_cons, List.mem_singleton, List.not_mem_nil,
         or_false] at ht
       rcases ht with rfl | rfl | rfl
       · exact ⟨1, by decide, _, rfl, by decide⟩
       · exact ⟨0, by decide, _, rfl, by decide⟩
       · exact ⟨0, by decide, _, rfl, by decide⟩)⟩

/-! ### Demo configurations -/

theorem createDemoConfig_known (now : Nat) :
    (createDemoConfig now "capstone").config = .record configs.capstone ∧
    (createDemoConfig now "analytics").config = .record configs.analytics ∧
    (createDemoConfig now "ml").config = .record configs.ml ∧
    configs.capstone.duration = 3000 ∧ configs.analytics.duration = 2500 ∧
    configs.ml.duration = 3500 := by
  refine ⟨?_, ?_, ?_, rfl, rfl, rfl⟩ <;> simp [createDemoConfig]

theorem createDemoConfig_fallback (now : Nat) (key : String) (h1 : key ≠ "capstone")
    (h2 : key ≠ "analytics") (h3 : key ≠ "ml") (h4 : key ∉ objectPrototypeKeys) :
    (createDemoConfig now key).config = .record configs.capstone := by
  simp [createDemoConfig, h1, h2, h3, h4]

/-- C13 on the key `'toString'`, which is none of `capstone`, `analytics`, `ml`:
`createDemoConfig('toString').config` is the inherited `toString`, not the
capstone record, and `demoProject('toString')` shows an empty title and
description, not the capstone ones, and closes the showcase after 0 ms. -/
theorem createDemoConfig_inherited_key :
    (createDemoConfig 0 "toString").config = .inheritedProperty "toString" ∧
    (createDemoConfig 0 "toString").config ≠ .record configs.capstone ∧
    demoProject 0 emptyShowcase "toString"
      = { title := "", description := "", visual := "undefined",
          showcase := ["showcase-active"],
          scheduled := [(0, .closeShowcase),
            (0, .demoComplete "undefined demonstration finished successfully.")] } ∧
    (demoProject 0 emptyShowcase "bogus").title = "Data Science Capstone Project" := by
  have h : (createDemoConfig 0 "toString").config = .inheritedProperty "toString" := by
    simp [createDemoConfig, objectPrototypeKeys]
  have hb : (createDemoConfig 0 "bogus").config = .record configs.capstone :=
    createDemoConfig_fallback 0 "bogus" (by decide) (by decide) (by decide) (by decide)
  refine ⟨h, ?_, ?_, ?_⟩
  · rw [h]
    exact fun hc => by cases hc
  · simp only [demoProject, h, ConfigValue.title, ConfigValue.description, ConfigValue.visual,
      ConfigValue.duration, Option.getD_none, Option.map_none', classListAdd, emptyShowcase]
    simp
  · simp only [demoProject, hb, ConfigValue.title, Option.getD_some]
    rfl

/-! ### The contact form -/

theorem nextFormTimer_eq_none_iff (ts : List FormTimer) : nextFormTimer ts = none ↔ ts = [] := by
  cases ts with
  | nil => simp [nextFormTimer]
  | cons t ts =>
    simp only [nextFormTimer]
    cases nextFormTimer ts with
    | none => simp
    | some u => by_cases h : u.due < t.due <;> simp [h]

theorem nextFormTimer_mem : ∀ (ts : List FormTimer) (t : FormTimer),
    nextFormTimer ts = some t → t ∈ ts
  | [], t, h => by simp [nextFormTimer] at h
  | a :: ts, t, h => by
    simp only [nextFormTimer] at h
    cases hn : nextFormTimer ts with
    | none =>
      rw [hn] at h
      simp only [Option.some.injEq] at h
      subst h
      exact List.mem_cons_self _ _
    | some u =>
      rw [hn] at h
      simp only at h
      by_cases hlt : u.due < a.due
      · rw [if_pos hlt] at h
        simp only [Option.some.injEq] at h
        subst h
        exact List.mem_cons_of_mem _ (nextFormTimer_mem ts u hn)
      · rw [if_neg hlt] at h
        simp only [Option.some.injEq] at h
        subst h
        exact List.mem_cons_self _ _

theorem nextFormTimer_le : ∀ (ts : List FormTimer) (t : FormTimer),
    nextFormTimer ts = some t → ∀ u ∈ ts, t.due ≤ u.due
  | [], t, h => by simp [nextFormTimer] at h
  | a :: ts, t, h => by
    simp only [nextFormTimer] at h
    intro v hv
    cases hn : nextFormTimer ts with
    | none =>
      rw [hn] at h
      simp only [Option.some.injEq] at h
      subst h
      have hts : ts = [] := (nextFormTimer_eq_none_iff ts).mp hn
      subst hts
      simp only [List.mem_singleton] at hv
      subst hv
      exact le_refl _
    | some u =>
      rw [hn] at h
      simp only at h
      have hu := nextFormTimer_le ts u hn
      by_cases hlt : u.due < a.due
      · rw [if_pos hlt] at h
        simp only [Option.some.injEq] at h
        subst h
        rcases List.mem_cons.mp hv with rfl | hv'
        · exact le_of_lt hlt
        · exact hu v hv'
      · rw [if_neg hlt] at h
        simp only [Option.some.injEq] at h
        subst h
        rcases List.mem_cons.mp hv with rfl | hv'
        · exact le_refl _
        · exact le_trans (not_lt.mp hlt) (hu v hv')

theorem foldl_formSetTimeout (cb : Nat → FormCallback) (d : Nat → Nat) (l : List Nat) :
    ∀ s : FormPage, l.foldl (fun s i => formSetTimeout s (cb i) (d i)) s =
      { s with timers := s.timers ++
          l.map (fun i => { delay := d i, due := s.now + d i, callback := cb i }) } := by
  induction l with
  | nil => intro s; simp
  | cons i l ih =>
    intro s
    rw [List.foldl_cons, ih]
    simp [formSetTimeout, List.append_assoc]

theorem animateFormReset_eq (s : FormPage) :
    animateFormReset s = { s with timers := s.timers ++ groupTimers s.groups.length s.now ++
      [{ delay := 800, due := s.now + 800, callback := .resetForm }] } := by
  unfold animateFormReset
  simp only
  rw [foldl_formSetTimeout (fun i => FormCallback.groupFlash i)
    (fun (i : Nat) =>
      timeoutDelay (calculateStaggerDelay (.fin i) (some (.fin 100)) (some (.fin 50))))]
  simp [formSetTimeout, groupTimers]

theorem length_updateGroup (groups : List (List String)) (i : Nat)
    (f : List String → List String) : (updateGroup groups i f).length = groups.length := by
  simp [updateGroup]

theorem timers_runFormCallback (s : FormPage) (cb : FormCallback) :
    (runFormCallback s cb).timers = s.timers ++ scheduledBy s cb := by
  cases cb <;>
    simp [runFormCallback, scheduledBy, closeModal, showNotification, formSetTimeout,
      animateFormReset_eq, List.append_assoc]

theorem groups_length_runFormCallback (s : FormPage) (cb : FormCallback) :
    (runFormCallback s cb).groups.length = s.groups.length := by
  cases cb <;>
    simp [runFormCallback, closeModal, showNotification, formSetTimeout,
      animateFormReset_eq, length_updateGroup]

theorem callbackWeight_pos (n : Nat) (cb : FormCallback) : 0 < callbackWeight n cb := by
  cases cb <;> simp [callbackWeight]

theorem weight_groupTimers (n groups now : Nat) :
    ((groupTimers groups now).map (fun t => callbackWeight n t.callback)).sum = 2 * groups := by
  unfold groupTimers
  induction groups with
  | zero => simp
  | succ k ih =>
    rw [List.range_succ]
    simp only [List.map_append, List.sum_append, List.map_cons, List.map_nil, List.sum_cons,
      List.sum_nil, List.map_map] at ih ⊢
    rw [ih]
    simp [callbackWeight]
    ring

theorem weight_scheduledBy (s : FormPage) (cb : FormCallback) :
    ((scheduledBy s cb).map (fun t => callbackWeight s.groups.length t.callback)).sum
      < callbackWeight s.groups.length cb := by
  cases cb with
  | submissionProcessed name projectType =>
    simp only [scheduledBy, List.map_append, List.sum_append, weight_groupTimers]
    simp [callbackWeight]
    omega
  | closeModal => simp [scheduledBy, callbackWeight]
  | clearSuccess => simp [scheduledBy, callbackWeight]
  | groupFlash index => simp [scheduledBy, callbackWeight]
  | groupFlashEnd index => simp [scheduledBy, callbackWeight]
  | resetForm => simp [scheduledBy, callbackWeight]

theorem queueWeight_fireTimer (s : FormPage) (t : FormTimer) (ht : t ∈ s.timers) :
    queueWeight (fireTimer s t) < queueWeight s := by
  unfold queueWeight fireTimer
  rw [groups_length_runFormCallback, timers_runFormCallback]
  simp only [List.map_append, List.sum_append]
  have h1 : callbackWeight s.groups.length t.callback +
      ((s.timers.erase t).map (fun t => callbackWeight s.groups.length t.callback)).sum =
      (s.timers.map (fun t => callbackWeight s.groups.length t.callback)).sum :=
    List.sum_map_erase (fun t => callbackWeight s.groups.length t.callback) ht
  have h2 := weight_scheduledBy
    { s with now := max s.now t.due, timers := s.timers.erase t } t.callback
  simp only at h2
  omega

theorem runUntil_succ (fuel time : Nat) (s : FormPage) (t : FormTimer)
    (hn : nextFormTimer s.timers = some t) (hd : t.due ≤ time) :
    runUntil (fuel + 1) time s = runUntil fuel time (fireTimer s t) := by
  simp [runUntil, hn, hd, fireTimer]

theorem runUntil_not_due (fuel time : Nat) (s : FormPage)
    (h : ∀ u ∈ s.timers, time < u.due) : runUntil fuel time s = s := by
  cases fuel with
  | zero => rfl
  | succ fuel =>
    simp only [runUntil]
    cases hn : nextFormTimer s.timers with
    | none => rfl
    | some t =>
      have := h t (nextFormTimer_mem _ _ hn)
      simp only
      rw [if_neg (by omega)]

theorem runUntil_invariant (P : FormPage → Prop) (time : Nat)
    (hstep : ∀ (s : FormPage) (t : FormTimer), P s → t ∈ s.timers → t.due ≤ time →
      P (fireTimer s t)) :
    ∀ (fuel : Nat) (s : FormPage), P s → P (runUntil fuel time s) := by
  intro fuel
  induction fuel with
  | zero => intro s h; exact h
  | succ fuel ih =>
    intro s h
    simp only [runUntil]
    cases hn : nextFormTimer s.timers with
    | none => exact h
    | some t =>
      simp only
      by_cases hd : t.due ≤ time
      · rw [if_pos hd]
        exact ih _ (hstep s t h (nextFormTimer_mem _ _ hn) hd)
      · rw [if_neg hd]
        exact h

theorem runUntil_quiescent (time : Nat) :
    ∀ (fuel : Nat) (s : FormPage), queueWeight s ≤ fuel →
      ∀ u ∈ (runUntil fuel time s).timers, time < u.due := by
  intro fuel
  induction fuel with
  | zero =>
    intro s hw u hu
    simp only [runUntil] at hu
    have hpos := callbackWeight_pos s.groups.length u.callback
    have hle : callbackWeight s.groups.length u.callback ≤ queueWeight s :=
      List.single_le_sum (fun _ _ => Nat.zero_le _) _
        (List.mem_map.mpr ⟨u, hu, rfl⟩)
    omega
  | succ fuel ih =>
    intro s hw u hu
    simp only [runUntil] at hu
    cases hn : nextFormTimer s.timers with
    | none =>
      rw [hn] at hu
      simp only at hu
      rw [(nextFormTimer_eq_none_iff _).mp hn] at hu
      cases hu
    | some t =>
      rw [hn] at hu
      simp only at hu
      by_cases hd : t.due ≤ time
      · rw [if_pos hd] at hu
        have hlt := queueWeight_fireTimer s t (nextFormTimer_mem _ _ hn)
        exact ih (fireTimer s t) (by omega) u hu
      · rw [if_neg hd] at hu
        have := nextFormTimer_le _ _ hn u hu
        omega

theorem pageAt_quiescent (s : FormPage) (time : Nat) :
    ∀ u ∈ (pageAt s time).timers, time < u.due :=
  runUntil_quiescent time (queueWeight s) s (le_refl _)

theorem pageAt_invariant (P : FormPage → Prop) (time : Nat) (s : FormPage)
    (hstep : ∀ (s : FormPage) (t : FormTimer), P s → t ∈ s.timers → t.due ≤ time →
      P (fireTimer s t)) (h : P s) : P (pageAt s time) :=
  runUntil_invariant P time hstep (queueWeight s) s h

theorem validation_errors_eq (now : String) (fd : FormData) (projectType : Option String) :
    (processFormData now fd projectType).validation.errors = expectedErrors fd := by
  have hn := trimmedField_eq_empty_iff fd "name"
  have he := trimmedField_eq_empty_iff fd "email"
  have hm := trimmedField_eq_empty_iff fd "message"
  simp only [processFormData, validateData, expectedErrors, requiredFields]
  by_cases h1 : fieldBlank fd "name" <;> by_cases h2 : fieldBlank fd "email" <;>
    by_cases h3 : fieldBlank fd "message" <;>
    simp [h1, h2, h3, hn.mpr, he.mpr, hm.mpr, hn, he, hm, List.filter]

theorem validation_isValid_iff (now : String) (fd : FormData) (projectType : Option String) :
    (processFormData now fd projectType).validation.isValid = true ↔
      (¬ fieldBlank fd "name" ∧ ¬ fieldBlank fd "email" ∧ ¬ fieldBlank fd "message") := by
  have hn := trimmedField_eq_empty_iff fd "name"
  have he := trimmedField_eq_empty_iff fd "email"
  have hm := trimmedField_eq_empty_iff fd "message"
  simp only [processFormData, validateData]
  by_cases h1 : fieldBlank fd "name" <;> by_cases h2 : fieldBlank fd "email" <;>
    by_cases h3 : fieldBlank fd "message" <;>
    simp [h1, h2, h3, hn.mpr, he.mpr, hm.mpr, hn, he, hm]

theorem handleFormSubmit_of_invalid (isoNow : String) (s : FormPage)
    (h : ¬ (¬ fieldBlank s.fields "name" ∧ ¬ fieldBlank s.fields "email" ∧
      ¬ fieldBlank s.fields "message")) :
    handleFormSubmit isoNow s =
      { s with
        modalTitle := "Form Error"
        modalMessage := String.intercalate ", " (expectedErrors s.fields)
        modal := classListAdd s.modal "modal-active"
        timers := s.timers ++ [{ delay := 4000, due := s.now + 4000, callback := .closeModal }] } := by
  have hv : (processFormData isoNow s.fields
      (some ((FormData.get s.fields "project-type").getD "null"))).validation.isValid = false := by
    cases hval : (processFormData isoNow s.fields
      (some ((FormData.get s.fields "project-type").getD "null"))).validation.isValid
    · rfl
    · exact absurd ((validation_isValid_iff _ _ _).mp hval) h
  unfold handleFormSubmit
  simp only [hv, validation_errors_eq, showNotification, formSetTimeout, Option.getD_none]
  rfl

theorem handleFormSubmit_of_valid (isoNow : String) (s : FormPage)
    (h : ¬ fieldBlank s.fields "name" ∧ ¬ fieldBlank s.fields "email" ∧
      ¬ fieldBlank s.fields "message") :
    handleFormSubmit isoNow s = submittedPage s := by
  have hv := (validation_isValid_iff isoNow s.fields
    (some ((FormData.get s.fields "project-type").getD "null"))).mpr h
  unfold handleFormSubmit
  simp only [hv, formSetTimeout]
  rfl

/-- C14: when any of name, email, message is blank, `handleFormSubmit` changes
only the notification (title `Form Error`, message the validation errors joined
by `', '`, modal shown) and sets only the notification's 4000 ms auto-close
timer; with nothing else pending, at every later time the submit control, the
loading overlay, the form fields and the form groups are as they were, and no
timer other than that auto-close is ever pending. -/
theorem handleFormSubmit_invalid (isoNow : String) (s : FormPage)
    (hblank : fieldBlank s.fields "name" ∨ fieldBlank s.fields "email" ∨
      fieldBlank s.fields "message") :
    handleFormSubmit isoNow s =
      { s with
        modalTitle := "Form Error"
        modalMessage := String.intercalate ", " (expectedErrors s.fields)
        modal := classListAdd s.modal "modal-active"
        timers := s.timers ++
          [{ delay := 4000, due := s.now + 4000, callback := .closeModal }] } ∧
    (s.timers = [] → ∀ time : Nat,
      (pageAt (handleFormSubmit isoNow s) time).submitBtn = s.submitBtn ∧
      (pageAt (handleFormSubmit isoNow s) time).loadingOverlay = s.loadingOverlay ∧
      (pageAt (handleFormSubmit isoNow s) time).fields = s.fields ∧
      (pageAt (handleFormSubmit isoNow s) time).groups = s.groups ∧
      ((pageAt (handleFormSubmit isoNow s) time).timers = [] ∨
       (pageAt (handleFormSubmit isoNow s) time).timers =
         [{ delay := 4000, due := s.now + 4000, callback := .closeModal }])) := by
  have hnot : ¬ (¬ fieldBlank s.fields "name" ∧ ¬ fieldBlank s.fields "email" ∧
      ¬ fieldBlank s.fields "message") := by tauto
  have hs := handleFormSubmit_of_invalid isoNow s hnot
  refine ⟨hs, ?_⟩
  intro htimers time
  rw [hs, htimers]
  generalize hS : ({ s with
      modalTitle := "Form Error"
      modalMessage := String.intercalate ", " (expectedErrors s.fields)
      modal := classListAdd s.modal "modal-active"
      timers := [] ++
        [{ delay := 4000, due := s.now + 4000, callback := FormCallback.closeModal }] }
    : FormPage) = S
  have hSt : S.timers =
      [{ delay := 4000, due := s.now + 4000, callback := FormCallback.closeModal }] := by
    rw [← hS]
    rfl
  have hSb : S.submitBtn = s.submitBtn := by rw [← hS]
  have hSo : S.loadingOverlay = s.loadingOverlay := by rw [← hS]
  have hSf : S.fields = s.fields := by rw [← hS]
  have hSg : S.groups = s.groups := by rw [← hS]
  unfold pageAt
  by_cases hd : s.now + 4000 ≤ time
  · have hq : queueWeight S = 0 + 1 := by
      simp [queueWeight, hSt, callbackWeight]
    have hn : nextFormTimer S.timers = some
        { delay := 4000, due := s.now + 4000, callback := FormCallback.closeModal } := by
      rw [hSt]
      rfl
    rw [hq, runUntil_succ 0 time S _ hn hd]
    simp [runUntil, fireTimer, runFormCallback, closeModal, hSt, hSb, hSo, hSf, hSg]
  · rw [runUntil_not_due]
    · exact ⟨hSb, hSo, hSf, hSg, Or.inr hSt⟩
    · intro u hu
      rw [hSt] at hu
      simp only [List.mem_singleton] at hu
      subst hu
      simp only
      omega

/-- C14 at the example form with an empty message. -/
theorem handleFormSubmit_invalid_witness :
    (handleFormSubmit "t"
      { exampleForm with fields := [("name", "Ada"), ("email", "a@b.c"), ("message", " ")] }).modalMessage
      = "Message is required" ∧
    (pageAt (handleFormSubmit "t"
      { exampleForm with fields := [("name", "Ada"), ("email", "a@b.c"), ("message", " ")] })
      9000).submitBtn = ["submit-btn"] := by
  have h := handleFormSubmit_invalid "t"
    { exampleForm with fields := [("name", "Ada"), ("email", "a@b.c"), ("message", " ")] }
    (Or.inr (Or.inr (by decide)))
  constructor
  · rw [h.1]
    decide
  · exact (h.2 rfl 9000).1

theorem callback_of_mem_groupTimers (groups now : Nat) (u : FormTimer)
    (hu : u ∈ groupTimers groups now) : ∃ index, u.callback = .groupFlash index := by
  unfold groupTimers at hu
  obtain ⟨i, _, rfl⟩ := List.mem_map.mp hu
  exact ⟨i, rfl⟩

theorem mem_timers_fireTimer (s : FormPage) (t u : FormTimer)
    (hu : u ∈ (fireTimer s t).timers) :
    u ∈ s.timers ∨ u ∈ scheduledBy { s with now := max s.now t.due, timers := s.timers.erase t }
      t.callback := by
  unfold fireTimer at hu
  rw [timers_runFormCallback] at hu
  rcases List.mem_append.mp hu with h | h
  · exact Or.inl (List.mem_of_mem_erase h)
  · exact Or.inr h

theorem mem_timers_fireTimer_of_ne (s : FormPage) (t x : FormTimer) (hx : x ∈ s.timers)
    (hne : x ≠ t) : x ∈ (fireTimer s t).timers := by
  unfold fireTimer
  rw [timers_runFormCallback]
  exact List.mem_append_left _ ((List.mem_erase_of_ne hne).mpr hx)

theorem fireTimer_submission_fields (s : FormPage) :
    (fireTimer (submittedPage s) (submissionTimer s)).submitBtn =
      classListAdd (classListRemove (classListAdd s.submitBtn "loading") ["loading"]) "success" ∧
    (fireTimer (submittedPage s) (submissionTimer s)).loadingOverlay =
      classListRemove (classListAdd s.loadingOverlay "active") ["active"] ∧
    (fireTimer (submittedPage s) (submissionTimer s)).modalTitle = "Message Sent!" ∧
    (fireTimer (submittedPage s) (submissionTimer s)).modalMessage = successMessage s ∧
    (fireTimer (submittedPage s) (submissionTimer s)).modal =
      classListAdd s.modal "modal-active" ∧
    (fireTimer (submittedPage s) (submissionTimer s)).fields = s.fields ∧
    (fireTimer (submittedPage s) (submissionTimer s)).defaultFields = s.defaultFields := by
  simp [fireTimer, submittedPage, submissionTimer, runFormCallback, showNotification,
    formSetTimeout, animateFormReset_eq, successMessage]

theorem mem_timers_fireTimer_submission (s : FormPage) (hidle : s.timers = [])
    (u : FormTimer) (hu : u ∈ (fireTimer (submittedPage s) (submissionTimer s)).timers) :
    u = { delay := 4000, due := s.now + 6500, callback := .closeModal } ∨
    (∃ index, u.callback = .groupFlash index) ∨
    u = { delay := 800, due := s.now + 3300, callback := .resetForm } ∨
    u = { delay := 3000, due := s.now + 5500, callback := .clearSuccess } := by
  unfold fireTimer at hu
  rw [timers_runFormCallback] at hu
  simp only [submittedPage, submissionTimer, hidle, List.nil_append, List.erase_cons_head,
    scheduledBy, List.mem_append, List.mem_cons, List.mem_singleton, List.not_mem_nil,
    false_or, or_false] at hu
  have hmax : max s.now (s.now + 2500) = s.now + 2500 := by omega
  rw [hmax] at hu
  rcases hu with (rfl | hg) | rfl | rfl
  · left
    simp only [FormTimer.mk.injEq, and_true, true_and]
  · exact Or.inr (Or.inl (callback_of_mem_groupTimers _ _ u hg))
  · right; right; left
    simp only [FormTimer.mk.injEq, and_true, true_and]
  · right; right; right
    simp only [FormTimer.mk.injEq, and_true, true_and]

theorem timers_fireTimer_submission (s : FormPage) (hidle : s.timers = []) :
    ({ delay := 3000, due := s.now + 5500, callback := .clearSuccess } : FormTimer) ∈
      (fireTimer (submittedPage s) (submissionTimer s)).timers ∧
    ({ delay := 800, due := s.now + 3300, callback := .resetForm } : FormTimer) ∈
      (fireTimer (submittedPage s) (submissionTimer s)).timers := by
  unfold fireTimer
  rw [timers_runFormCallback]
  have hmax : max s.now (s.now + 2500) = s.now + 2500 := by omega
  simp [submittedPage, submissionTimer, hidle, scheduledBy, hmax]

theorem afterProcessed_first (s : FormPage) (time : Nat) (hidle : s.timers = []) :
    AfterProcessed s time (fireTimer (submittedPage s) (submissionTimer s)) := by
  have hmem := mem_timers_fireTimer_submission s hidle
  obtain ⟨hbtn, hov, htitle, hmsg, hmodal, hfields, hdef⟩ := fireTimer_submission_fields s
  obtain ⟨hclear, hreset⟩ := timers_fireTimer_submission s hidle
  refine ⟨?_, hdef, ?_, ?_, ?_, ?_, ?_, htitle, hmsg, Or.inr hclear, Or.inr hreset, ?_, ?_⟩
  · intro u hu name projectType hc
    rcases hmem u hu with rfl | ⟨i, hi⟩ | rfl | rfl
    · cases hc
    · rw [hi] at hc; cases hc
    · cases hc
    · cases hc
  · intro u hu hc
    rcases hmem u hu with rfl | ⟨i, hi⟩ | rfl | rfl
    · cases hc
    · rw [hi] at hc; cases hc
    · cases hc
    · rfl
  · intro u hu hc
    rcases hmem u hu with rfl | ⟨i, hi⟩ | rfl | rfl
    · cases hc
    · rw [hi] at hc; cases hc
    · rfl
    · cases hc
  · intro u hu hc
    rcases hmem u hu with rfl | ⟨i, hi⟩ | rfl | rfl
    · rfl
    · rw [hi] at hc; cases hc
    · cases hc
    · cases hc
  · rw [hbtn]
    simp [mem_classListAdd, mem_classListRemove]
  · rw [hov]
    simp [mem_classListRemove]
  · intro _
    rw [hbtn, hmodal]
    simp [mem_classListAdd]
  · intro _
    exact hfields

theorem forall_timers_fireTimer (Q : FormTimer → Prop) (p : FormPage) (t : FormTimer)
    (hnp : ∀ name projectType, t.callback ≠ .submissionProcessed name projectType)
    (hQ : ∀ u ∈ p.timers, Q u)
    (hend : ∀ index due, Q { delay := 500, due := due, callback := .groupFlashEnd index }) :
    ∀ u ∈ (fireTimer p t).timers, Q u := by
  intro u hu
  rcases mem_timers_fireTimer p t u hu with h | h
  · exact hQ u h
  · cases hcb : t.callback with
    | submissionProcessed name projectType => exact absurd hcb (hnp name projectType)
    | groupFlash index =>
      rw [hcb] at h
      simp only [scheduledBy, List.mem_singleton] at h
      subst h
      exact hend _ _
    | closeModal => rw [hcb] at h; simp [scheduledBy] at h
    | clearSuccess => rw [hcb] at h; simp [scheduledBy] at h
    | groupFlashEnd index => rw [hcb] at h; simp [scheduledBy] at h
    | resetForm => rw [hcb] at h; simp [scheduledBy] at h

theorem defaultFields_fireTimer (p : FormPage) (t : FormTimer) :
    (fireTimer p t).defaultFields = p.defaultFields := by
  unfold fireTimer
  cases t.callback <;>
    simp [runFormCallback, closeModal, showNotification, formSetTimeout, animateFormReset_eq]

theorem unchanged_fireTimer (p : FormPage) (t : FormTimer)
    (hnp : ∀ name projectType, t.callback ≠ .submissionProcessed name projectType) :
    (fireTimer p t).loadingOverlay = p.loadingOverlay ∧
    (fireTimer p t).modalTitle = p.modalTitle ∧
    (fireTimer p t).modalMessage = p.modalMessage := by
  unfold fireTimer
  cases hcb : t.callback with
  | submissionProcessed name projectType => exact absurd hcb (hnp name projectType)
  | closeModal => simp [runFormCallback, closeModal]
  | clearSuccess => simp [runFormCallback]
  | groupFlash index => simp [runFormCallback, formSetTimeout]
  | groupFlashEnd index => simp [runFormCallback]
  | resetForm => simp [runFormCallback]

theorem submitBtn_fireTimer (p : FormPage) (t : FormTimer)
    (hnp : ∀ name projectType, t.callback ≠ .submissionProcessed name projectType) :
    (fireTimer p t).submitBtn =
      if t.callback = .clearSuccess then classListRemove p.submitBtn ["success"]
      else p.submitBtn := by
  unfold fireTimer
  cases hcb : t.callback with
  | submissionProcessed name projectType => exact absurd hcb (hnp name projectType)
  | closeModal => simp [runFormCallback, closeModal]
  | clearSuccess => simp [runFormCallback]
  | groupFlash index => simp [runFormCallback, formSetTimeout]
  | groupFlashEnd index => simp [runFormCallback]
  | resetForm => simp [runFormCallback]

theorem fields_fireTimer (p : FormPage) (t : FormTimer)
    (hnp : ∀ name projectType, t.callback ≠ .submissionProcessed name projectType) :
    (fireTimer p t).fields =
      if t.callback = .resetForm then p.defaultFields else p.fields := by
  unfold fireTimer
  cases hcb : t.callback with
  | submissionProcessed name projectType => exact absurd hcb (hnp name projectType)
  | closeModal => simp [runFormCallback, closeModal]
  | clearSuccess => simp [runFormCallback]
  | groupFlash index => simp [runFormCallback, formSetTimeout]
  | groupFlashEnd index => simp [runFormCallback]
  | resetForm => simp [runFormCallback]

theorem modal_fireTimer (p : FormPage) (t : FormTimer)
    (hnp : ∀ name projectType, t.callback ≠ .submissionProcessed name projectType) :
    (fireTimer p t).modal =
      if t.callback = .closeModal then classListRemove p.modal ["modal-active"]
      else p.modal := by
  unfold fireTimer
  cases hcb : t.callback with
  | submissionProcessed name projectType => exact absurd hcb (hnp name projectType)
  | closeModal => simp [runFormCallback, closeModal]
  | clearSuccess => simp [runFormCallback]
  | groupFlash index => simp [runFormCallback, formSetTimeout]
  | groupFlashEnd index => simp [runFormCallback]
  | resetForm => simp [runFormCallback]

theorem afterProcessed_step (s : FormPage) (time : Nat) (p : FormPage) (t : FormTimer)
    (h : AfterProcessed s time p) (ht : t ∈ p.timers) (hdue : t.due ≤ time) :
    AfterProcessed s time (fireTimer p t) := by
  obtain ⟨hno, hdef, hdc, hdr, hdm, hload, hact, htitle, hmsg, hsucc, hfld, hearly, hearlyf⟩ := h
  have hnp : ∀ name projectType, t.callback ≠ .submissionProcessed name projectType :=
    hno t ht
  obtain ⟨hov', htitle', hmsg'⟩ := unchanged_fireTimer p t hnp
  have hbtn' := submitBtn_fireTimer p t hnp
  have hfields' := fields_fireTimer p t hnp
  have hmodal' := modal_fireTimer p t hnp
  refine ⟨?_, ?_, ?_, ?_, ?_, ?_, ?_, ?_, ?_, ?_, ?_, ?_, ?_⟩
  · intro u hu name projectType
    exact forall_timers_fireTimer
      (fun u => ∀ name projectType, u.callback ≠ .submissionProcessed name projectType) p t hnp
      hno (fun _ _ _ _ hc => by cases hc) u hu name projectType
  · rw [defaultFields_fireTimer]
    exact hdef
  · exact forall_timers_fireTimer (fun u => u.callback = .clearSuccess → u.due = s.now + 5500)
      p t hnp hdc (fun _ _ hc => by cases hc)
  · exact forall_timers_fireTimer (fun u => u.callback = .resetForm → u.due = s.now + 3300)
      p t hnp hdr (fun _ _ hc => by cases hc)
  · exact forall_timers_fireTimer (fun u => u.callback = .closeModal → u.due = s.now + 6500)
      p t hnp hdm (fun _ _ hc => by cases hc)
  · rw [hbtn']
    split
    · rw [mem_classListRemove]
      exact fun hc => hload hc.1
    · exact hload
  · rw [hov']
    exact hact
  · rw [htitle']
    exact htitle
  · rw [hmsg']
    exact hmsg
  · by_cases hc : t.callback = .clearSuccess
    · left
      rw [hbtn', if_pos hc, mem_classListRemove]
      simp
    · rcases hsucc with hs | hs
      · left
        rw [hbtn', if_neg hc]
        exact hs
      · right
        apply mem_timers_fireTimer_of_ne p t _ hs
        intro heq
        exact hc (by rw [← heq])
  · by_cases hc : t.callback = .resetForm
    · left
      rw [hfields', if_pos hc]
      exact hdef
    · rcases hfld with hs | hs
      · left
        rw [hfields', if_neg hc]
        exact hs
      · right
        apply mem_timers_fireTimer_of_ne p t _ hs
        intro heq
        exact hc (by rw [← heq])
  · intro hlt
    have hc1 : t.callback ≠ .clearSuccess := by
      intro hc
      have := hdc t ht hc
      omega
    have hc2 : t.callback ≠ .closeModal := by
      intro hc
      have := hdm t ht hc
      omega
    rw [hbtn', if_neg hc1, hmodal', if_neg hc2]
    exact hearly hlt
  · intro hlt
    have hc1 : t.callback ≠ .resetForm := by
      intro hc
      have := hdr t ht hc
      omega
    rw [hfields', if_neg hc1]
    exact hearlyf hlt

theorem submission_invariant (s : FormPage) (time : Nat) (hidle : s.timers = []) :
    pageAt (submittedPage s) time = submittedPage s ∨
      AfterProcessed s time (pageAt (submittedPage s) time) := by
  apply pageAt_invariant (fun p => p = submittedPage s ∨ AfterProcessed s time p) time
  · intro p t hp ht hdue
    rcases hp with rfl | hp
    · right
      have htt : t = submissionTimer s := by
        simpa [submittedPage, hidle] using ht
      subst htt
      exact afterProcessed_first s time hidle
    · exact Or.inr (afterProcessed_step s time p t hp ht hdue)
  · exact Or.inl rfl

theorem afterProcessed_of_due (s : FormPage) (time : Nat) (hidle : s.timers = [])
    (hdue : s.now + 2500 ≤ time) : AfterProcessed s time (pageAt (submittedPage s) time) := by
  rcases submission_invariant s time hidle with h | h
  · have hq := pageAt_quiescent (submittedPage s) time (submissionTimer s)
      (by rw [h]; simp [submittedPage])
    simp only [submissionTimer] at hq
    omega
  · exact h

/-- C15, as stated, fails: on the example form submitted at time 0 the form is
cleared at 3300 ms, and the submit control has lost `success` at 5500 ms, which
is 2200 ms after the form is cleared, not a further 3000 ms (6300 ms). -/
theorem success_cleared_before_6300 :
    (pageAt (handleFormSubmit "t" exampleForm) 3299).fields = exampleForm.fields ∧
    (pageAt (handleFormSubmit "t" exampleForm) 3300).fields = exampleForm.defaultFields ∧
    "success" ∈ (pageAt (handleFormSubmit "t" exampleForm) 5499).submitBtn ∧
    "success" ∉ (pageAt (handleFormSubmit "t" exampleForm) 5500).submitBtn ∧
    5500 < 3300 + 3000 := by
  decide!

/-- C15 (amended): a valid submission at time `now` with nothing else pending
follows this schedule.  Until `now + 2500` the submit control carries `loading`
and the overlay `active`.  From `now + 2500` on both are gone and the success
notification is the modal's content; from then until `now + 5500` the submit
control carries `success` and the modal is shown.  The form fields keep their
values until `now + 3300` and have their default values from then on.  From
`now + 5500` on, 3000 ms after the success state was set, the submit control no
longer carries `success`. -/
theorem handleFormSubmit_valid_schedule (isoNow : String) (s : FormPage)
    (hvalid : ¬ fieldBlank s.fields "name" ∧ ¬ fieldBlank s.fields "email" ∧
      ¬ fieldBlank s.fields "message")
    (hidle : s.timers = []) :
    (∀ time, time < s.now + 2500 →
      "loading" ∈ (pageAt (handleFormSubmit isoNow s) time).submitBtn ∧
      "active" ∈ (pageAt (handleFormSubmit isoNow s) time).loadingOverlay) ∧
    (∀ time, s.now + 2500 ≤ time →
      "loading" ∉ (pageAt (handleFormSubmit isoNow s) time).submitBtn ∧
      "active" ∉ (pageAt (handleFormSubmit isoNow s) time).loadingOverlay ∧
      (pageAt (handleFormSubmit isoNow s) time).modalTitle = "Message Sent!" ∧
      (pageAt (handleFormSubmit isoNow s) time).modalMessage = successMessage s) ∧
    (∀ time, s.now + 2500 ≤ time → time < s.now + 5500 →
      "success" ∈ (pageAt (handleFormSubmit isoNow s) time).submitBtn ∧
      "modal-active" ∈ (pageAt (handleFormSubmit isoNow s) time).modal) ∧
    (∀ time, time < s.now + 3300 →
      (pageAt (handleFormSubmit isoNow s) time).fields = s.fields) ∧
    (∀ time, s.now + 3300 ≤ time →
      (pageAt (handleFormSubmit isoNow s) time).fields = s.defaultFields) ∧
    (∀ time, s.now + 5500 ≤ time →
      "success" ∉ (pageAt (handleFormSubmit isoNow s) time).submitBtn) := by
  rw [handleFormSubmit_of_valid isoNow s hvalid]
  have hwait : ∀ time, time < s.now + 2500 →
      pageAt (submittedPage s) time = submittedPage s := by
    intro time hlt
    unfold pageAt
    apply runUntil_not_due
    intro u hu
    have hu' : u = submissionTimer s := by
      simpa [submittedPage, hidle] using hu
    subst hu'
    simp only [submissionTimer]
    omega
  refine ⟨?_, ?_, ?_, ?_, ?_, ?_⟩
  · intro time hlt
    rw [hwait time hlt]
    simp [submittedPage, mem_classListAdd]
  · intro time hdue
    obtain ⟨_, _, _, _, _, hload, hact, htitle, hmsg, _⟩ :=
      afterProcessed_of_due s time hidle hdue
    exact ⟨hload, hact, htitle, hmsg⟩
  · intro time hdue hlt
    obtain ⟨_, _, _, _, _, _, _, _, _, _, _, hearly, _⟩ :=
      afterProcessed_of_due s time hidle hdue
    exact hearly hlt
  · intro time hlt
    by_cases hdue : s.now + 2500 ≤ time
    · obtain ⟨_, _, _, _, _, _, _, _, _, _, _, _, hearlyf⟩ :=
        afterProcessed_of_due s time hidle hdue
      exact hearlyf hlt
    · rw [hwait time (by omega)]
      rfl
  · intro time hdue
    obtain ⟨_, _, _, _, _, _, _, _, _, _, hfld, _, _⟩ :=
      afterProcessed_of_due s time hidle (by omega)
    rcases hfld with h | h
    · exact h
    · have := pageAt_quiescent (submittedPage s) time _ h
      simp only at this
      omega
  · intro time hdue
    obtain ⟨_, _, _, _, _, _, _, _, _, hsucc, _, _, _⟩ :=
      afterProcessed_of_due s time hidle (by omega)
    rcases hsucc with h | h
    · exact h
    · have := pageAt_quiescent (submittedPage s) time _ h
      simp only at this
      omega

/-- C15 (amended) at the example form: `success` is still there at 5499 ms and
gone at 5500 ms. -/
theorem handleFormSubmit_valid_schedule_witness :
    "success" ∈ (pageAt (handleFormSubmit "t" exampleForm) 5499).submitBtn ∧
    "success" ∉ (pageAt (handleFormSubmit "t" exampleForm) 5500).submitBtn ∧
    (pageAt (handleFormSubmit "t" exampleForm) 3300).fields = exampleForm.defaultFields :=
  have h := handleFormSubmit_valid_schedule "t" exampleForm
    ⟨by decide, by decide, by decide⟩ rfl
  ⟨(h.2.2.1 5499 (by decide) (by decide)).1, h.2.2.2.2.2 5500 (by decide),
   h.2.2.2.2.1 3300 (by decide)⟩

/-- C17 on a form with six form groups: `animateFormReset` sets the group timers
at 100, 150, ..., 350 ms and the reset at 800 ms; when `form.reset()` has run
(at 800 ms) the sixth group still carries `form-reset`, which it got at 350 ms
and loses only at 850 ms. -/
theorem formReset_before_last_flash_ends :
    (animateFormReset sixGroupForm).timers.map (fun t => (t.due, t.callback)) =
      [(100, .groupFlash 0), (150, .groupFlash 1), (200, .groupFlash 2),
       (250, .groupFlash 3), (300, .groupFlash 4), (350, .groupFlash 5),
       (800, .resetForm)] ∧
    (pageAt (animateFormReset sixGroupForm) 799).fields = sixGroupForm.fields ∧
    (pageAt (animateFormReset sixGroupForm) 800).fields = sixGroupForm.defaultFields ∧
    (pageAt (animateFormReset sixGroupForm) 800).groups.getD 5 [] = ["form-group", "form-reset"] ∧
    (pageAt (animateFormReset sixGroupForm) 800).timers =
      [{ delay := 500, due := 850, callback := .groupFlashEnd 5 }] ∧
    (pageAt (animateFormReset sixGroupForm) 850).groups.getD 5 [] = ["form-group"] := by
  decide!

end Portfolio
